import Mathlib

/-!
# sys-tools: bounded blocking queue, reader/writer lock, request parsing

A shallow embedding of `src/ccdatastruct/queue.c` and `src/ccdatastruct/rwlock.c`,
of the request-line validation of `src/HTTPserver/httpserver.c` and of
`parse_content_length` of `src/cmdlinemem/memory.c`.

* C `int` fields are `Int`.  Every counter is bounded by the number of threads and
  every ring index by the capacity, so no `int` arithmetic here can overflow.
* A handle (`queue_t *`, `rwlock_t *`) is an `Option`; `none` is `NULL`.
* All fields are read and written only while the object's mutex is held, so a
  mutex-protected section is one atomic step of a thread.  A function that can
  sleep in `pthread_cond_wait` is cut at the wait: the caller's first section
  runs from `pthread_mutex_lock` to either the wait or the unlock, and every
  later section runs from the return of `pthread_cond_wait` (mutex re-acquired)
  through the loop test again.
* A C string is the list of its characters before the terminating NUL; the
  `<ctype.h>` classifications are those of the "C" locale.
-/

/-- Result of running one mutex-protected section of a call that may block:
the call returned `r`, or the thread is asleep in `pthread_cond_wait`. -/
inductive Outcome (σ ρ : Type) where
  | returned (r : ρ) (s : σ)
  | waiting (s : σ)
deriving DecidableEq, Repr

namespace Queue

/-- The fields of `struct queue` (queue.c:8-17).  `buffer` is the malloc'ed
array of `size` payload pointers; payloads are values of `α`. -/
structure queue (α : Type) where
  buffer : List α
  size : Int
  head : Int
  tail : Int
  count : Int
deriving DecidableEq, Repr

/-- The function `queue_new` (queue.c:19-43).  `q_mem` says whether
`malloc(sizeof(queue_t))` succeeded; `buf_mem` is the result of the second
`malloc`: `none` on failure, otherwise the indeterminate contents of the fresh
block, slot by slot. -/
def queue_new {α : Type} (size : Int) (q_mem : Bool) (buf_mem : Option (Nat → α)) :
    Option (queue α) :=
  if size ≤ 0 then none
  else if q_mem = false then none
  else
    match buf_mem with
    | none => none
    | some block =>
      some { buffer := (List.range size.toNat).map block
             size := size
             head := 0
             tail := 0
             count := 0 }

/-- The critical section of `queue_push` on a non-null queue (queue.c:64-73),
entered at the loop test: `none` when `count == size` (the thread sleeps on
`not_full`), otherwise the queue after lines 68-70. -/
def queue_push_locked {α : Type} (q : queue α) (elem : α) : Option (queue α) :=
  if q.count = q.size then none
  else
    some { q with
      buffer := q.buffer.set q.tail.toNat elem
      tail := Int.tmod (q.tail + 1) q.size
      count := q.count + 1 }

/-- The critical section of `queue_pop` on a non-null queue (queue.c:83-92),
entered at the loop test: `none` when `count == 0` (the thread sleeps on
`not_empty`), otherwise the value stored to `*elem` and the queue after lines
88-89.  `old` is the previous content of `*elem`; the read of `buffer[head]`
is in range in every reachable state. -/
def queue_pop_locked {α : Type} (q : queue α) (old : α) : Option (α × queue α) :=
  if q.count = 0 then none
  else
    some (q.buffer.getD q.head.toNat old,
          { q with
            head := Int.tmod (q.head + 1) q.size
            count := q.count - 1 })

/-- The function `queue_push` (queue.c:57-75) on a handle: one section of the
call.  The state is the handle's target. -/
def queue_push {α : Type} (q : Option (queue α)) (elem : α) :
    Outcome (Option (queue α)) Bool :=
  match q with
  | none => .returned false none
  | some q0 =>
    match queue_push_locked q0 elem with
    | none => .waiting (some q0)
    | some q1 => .returned true (some q1)

/-- The function `queue_pop` (queue.c:77-94) on a handle: one section of the
call.  The state is the handle's target together with the content of `*elem`. -/
def queue_pop {α : Type} (q : Option (queue α)) (elem : α) :
    Outcome (Option (queue α) × α) Bool :=
  match q with
  | none => .returned false (none, elem)
  | some q0 =>
    match queue_pop_locked q0 elem with
    | none => .waiting (some q0, elem)
    | some (v, q1) => .returned true (some q1, v)

/-- Where a thread stands with respect to the queue: outside any call, or
asleep in `pthread_cond_wait` inside `queue_push(q, elem)` or `queue_pop`. -/
inductive Pc (α : Type) where
  | idle
  | in_push (elem : α)
  | in_pop
deriving DecidableEq, Repr

/-- Atomic steps of thread `t`: it calls `queue_push` or `queue_pop`, or it
returns from `pthread_cond_wait` (signalled or spuriously, which POSIX allows at
any time) and runs the loop test again. -/
inductive Ev (α : Type) where
  | push (t : Nat) (elem : α)
  | pop (t : Nat)
  | wake (t : Nat)
deriving DecidableEq, Repr

/-- A queue shared by the threads `0 .. pcs.length - 1`, with two ghost logs:
`pushed` lists (producer, payload) in the order the insertions took effect
under the mutex, `popped` lists (consumer, payload) in the order the removals
completed. -/
structure Sys (α : Type) where
  q : queue α
  pcs : List (Pc α)
  pushed : List (Nat × α)
  popped : List (Nat × α)
deriving DecidableEq, Repr

/-- Thread `t` runs the critical section of `queue_push(q, elem)`. -/
def do_push {α : Type} (s : Sys α) (t : Nat) (elem : α) : Sys α :=
  match queue_push_locked s.q elem with
  | none => { s with pcs := s.pcs.set t (.in_push elem) }
  | some q1 =>
    { s with q := q1, pcs := s.pcs.set t .idle, pushed := s.pushed ++ [(t, elem)] }

/-- Thread `t` runs the critical section of `queue_pop(q, &out)`. -/
def do_pop {α : Type} (s : Sys α) (t : Nat) (old : α) : Sys α :=
  match queue_pop_locked s.q old with
  | none => { s with pcs := s.pcs.set t .in_pop }
  | some (v, q1) =>
    { s with q := q1, pcs := s.pcs.set t .idle, popped := s.popped ++ [(t, v)] }

/-- One atomic step; `none` when the event is not enabled (no such thread, a
call by a thread that is inside a call, a wake-up of a thread that is not
asleep).  `old` stands for the content of the consumers' out-cells before the
call. -/
def step {α : Type} (old : α) (s : Sys α) : Ev α → Option (Sys α)
  | .push t elem =>
    match s.pcs[t]? with
    | some .idle => some (do_push s t elem)
    | _ => none
  | .pop t =>
    match s.pcs[t]? with
    | some .idle => some (do_pop s t old)
    | _ => none
  | .wake t =>
    match s.pcs[t]? with
    | some (.in_push elem) => some (do_push s t elem)
    | some .in_pop => some (do_pop s t old)
    | _ => none

/-- Run a schedule from `s`. -/
def run {α : Type} (old : α) (s : Sys α) : List (Ev α) → Option (Sys α)
  | [] => some s
  | e :: es =>
    match step old s e with
    | none => none
    | some s1 => run old s1 es

/-- The system right after `queue_new` returned `q`, with `n` threads, none of
them inside a call. -/
def init {α : Type} (q : queue α) (n : Nat) : Sys α :=
  { q := q, pcs := List.replicate n .idle, pushed := [], popped := [] }

/-- A state reached from a queue made by `queue_new C` by some schedule of `n`
threads. -/
def Reachable {α : Type} (old : α) (C : Int) (n : Nat) (s : Sys α) : Prop :=
  ∃ block q evs, queue_new C true (some block) = some q ∧ run old (init q n) evs = some s

/-- The live entries, oldest first: the contents of the slots
`head, head+1, ..., head+count-1` modulo `size`.  A slot outside the buffer
reads as `none`. -/
def live {α : Type} (q : queue α) : List (Option α) :=
  (List.range q.count.toNat).map
    (fun (i : Nat) => q.buffer[((q.head + (i : Int)) % q.size).toNat]?)

/-- Shape of a ring of capacity `C`: the buffer has `C` slots, the indices are
in range, `count` is between 0 and `C`, and `tail` is `count` slots after
`head`. -/
structure Ring {α : Type} (C : Int) (q : queue α) : Prop where
  size_eq : q.size = C
  cap_pos : 1 ≤ C
  len : (q.buffer.length : Int) = C
  head_lo : 0 ≤ q.head
  head_hi : q.head < C
  tail_lo : 0 ≤ q.tail
  tail_hi : q.tail < C
  count_lo : 0 ≤ q.count
  count_hi : q.count ≤ C
  tail_eq : q.tail = (q.head + q.count) % C

/-- The payloads of a log, in order. -/
def payloads {α : Type} (log : List (Nat × α)) : List α :=
  log.map (fun e => e.2)

/-- The thread an event belongs to. -/
def Ev.thread {α : Type} : Ev α → Nat
  | .push t _ => t
  | .pop t => t
  | .wake t => t

/-- The queue `queue_new(C)` returns when both allocations succeed and the
fresh buffer happens to hold zeros. -/
def fresh (C : Int) : queue Nat :=
  { buffer := (List.range C.toNat).map (fun _ => 0), size := C, head := 0, tail := 0, count := 0 }

/-- A schedule on a capacity-2 queue in which both `tail` and `head` wrap
around: thread 0 pushes 1, 2, then 3 after the first pop; thread 1 pops three
times. -/
def wrap_schedule : List (Ev Nat) :=
  [.push 0 1, .push 0 2, .pop 1, .push 0 3, .pop 1, .pop 1]

/-- The state `wrap_schedule` ends in. -/
def wrap_final : Sys Nat :=
  { q := { buffer := [3, 2], size := 2, head := 1, tail := 1, count := 0 }
    pcs := [.idle, .idle]
    pushed := [(0, 1), (0, 2), (0, 3)]
    popped := [(1, 1), (1, 2), (1, 3)] }

/-- Scenario S1 up to the point where the capacity-1 queue holds `0xB`:
thread 0 pushes `0xA`, thread 1 pops it, thread 0 pushes `0xB`. -/
def s1_holding_B : Sys Nat :=
  { q := { buffer := [0xB], size := 1, head := 0, tail := 0, count := 1 }
    pcs := [.idle, .idle]
    pushed := [(0, 0xA), (0, 0xB)]
    popped := [(1, 0xA)] }

/-- System invariant: the queue is a ring of capacity `C`, and the payloads
pushed so far are the payloads popped so far followed by the live entries. -/
structure Inv {α : Type} (C : Int) (s : Sys α) : Prop where
  ring : Ring C s.q
  fifo : (payloads s.pushed).map some = (payloads s.popped).map some ++ live s.q

/-- One round of scenario S2 on a capacity-4 queue shared by producers 0 .. 7
and consumers 8, 9, 10: the producers call `queue_push` with the integers
8r+1 .. 8r+8 (the first four are inserted, the last four find the queue full
and sleep), the consumers pop four payloads, the four sleeping producers wake
and insert, the consumers pop four more. -/
def s2_round (r : Nat) : List (Ev Nat) :=
  (List.range 8).map (fun i => Ev.push i (8 * r + i + 1)) ++
  [.pop 8, .pop 9, .pop 10, .pop 8] ++
  [.wake 4, .wake 5, .wake 6, .wake 7] ++
  [.pop 9, .pop 10, .pop 8, .pop 9]

/-- Scenario S2: twelve rounds push 1 .. 96, then producers 0 .. 3 push
97 .. 100 and the consumers drain the queue. -/
def s2_schedule : List (Ev Nat) :=
  (List.range 12).flatMap s2_round ++
  [.push 0 97, .push 1 98, .push 2 99, .push 3 100, .pop 8, .pop 9, .pop 10, .pop 8]

/-- The state `s2_schedule` ends in. -/
def s2_final : Sys Nat :=
  (run 0 (init (fresh 4) 11) s2_schedule).getD (init (fresh 4) 11)

/-- The payloads producer `p` pushed, in the order its pushes took effect. -/
def pushed_by {α : Type} (s : Sys α) (p : Nat) : List α :=
  payloads (s.pushed.filter (fun e => decide (e.1 = p)))

/-- The payloads returned by those pops whose position in the pop order is the
position of a push by producer `p` in the push order, in pop order. -/
def popped_from {α : Type} (s : Sys α) (p : Nat) : List α :=
  ((List.zip s.pushed s.popped).filter (fun x => decide (x.1.1 = p))).map (fun x => x.2.2)

/-- The indices of the live slots, oldest first:
`head, head+1, ..., head+count-1` modulo `size`. -/
def live_slots {α : Type} (q : queue α) : List Nat :=
  (List.range q.count.toNat).map (fun (i : Nat) => ((q.head + (i : Int)) % q.size).toNat)

/-- A capacity-3 queue after push 1, push 2, pop, push 3: the live slots are
1 and 2, and `tail` has wrapped around to slot 0. -/
def ring_mid : Sys Nat :=
  { q := { buffer := [1, 2, 3], size := 3, head := 1, tail := 0, count := 2 }
    pcs := [.idle, .idle]
    pushed := [(0, 1), (0, 2), (0, 3)]
    popped := [(1, 1)] }

end Queue

namespace RWLock

/-- The enum `PRIORITY` (rwlock.c:6). -/
inductive PRIORITY where
  | READERS
  | WRITERS
  | N_WAY
deriving DecidableEq, Repr

/-- The fields of `struct rwlock` (rwlock.c:9-24), without the mutex and the
two condition variables, which the step semantics below accounts for. -/
structure rwlock where
  active_readers : Int
  active_writers : Int
  waiting_readers : Int
  waiting_writers : Int
  priority : PRIORITY
  n_way : Int
  batch_active : Bool
  current_batch_readers : Int
  batch_limit : Int
deriving DecidableEq, Repr

/-- What an unlock does to the condition variables before it releases the
mutex: nothing, `pthread_cond_signal(&writers_cv)`, or
`pthread_cond_broadcast(&readers_cv)`. -/
inductive Notify where
  | nothing
  | signal_writers
  | broadcast_readers
deriving DecidableEq, Repr

/-- The function `rwlock_new` (rwlock.c:51-71); `mem` says whether `malloc`
succeeded. -/
def rwlock_new (p : PRIORITY) (n : Int) (mem : Bool) : Option rwlock :=
  if mem = false then none
  else
    some { priority := p
           n_way := if p = .N_WAY then n else 0
           active_readers := 0
           active_writers := 0
           waiting_readers := 0
           waiting_writers := 0
           batch_active := false
           current_batch_readers := 0
           batch_limit := 0 }

/-- Entry of `reader_lock` (rwlock.c:88): `waiting_readers++`. -/
def reader_lock_enter (rw : rwlock) : rwlock :=
  { rw with waiting_readers := rw.waiting_readers + 1 }

/-- The loop tests of `reader_lock` (rwlock.c:93-112): `true` when the reader
has to call `pthread_cond_wait(&readers_cv, ...)`. -/
def reader_must_wait (rw : rwlock) : Bool :=
  if rw.priority = .N_WAY then
    decide (rw.active_writers > 0) ||
      (rw.batch_active && decide (rw.current_batch_readers ≥ rw.batch_limit))
  else if rw.priority = .WRITERS then
    decide (rw.active_writers > 0) || decide (rw.waiting_writers > 0)
  else
    decide (rw.active_writers > 0)

/-- Admission of a reader (rwlock.c:114-117). -/
def reader_lock_acquire (rw : rwlock) : rwlock :=
  let rw1 := { rw with
    waiting_readers := rw.waiting_readers - 1
    active_readers := rw.active_readers + 1 }
  if rw1.priority = .N_WAY ∧ rw1.batch_active = true then
    { rw1 with current_batch_readers := rw1.current_batch_readers + 1 }
  else rw1

/-- The function `reader_unlock` on a non-null lock (rwlock.c:127-135). -/
def reader_unlock (rw : rwlock) : rwlock × Notify :=
  let rw1 := { rw with active_readers := rw.active_readers - 1 }
  if rw1.active_readers = 0 ∧ rw1.waiting_writers > 0 then (rw1, .signal_writers)
  else (rw1, .nothing)

/-- Entry of `writer_lock` (rwlock.c:142): `waiting_writers++`. -/
def writer_lock_enter (rw : rwlock) : rwlock :=
  { rw with waiting_writers := rw.waiting_writers + 1 }

/-- The loop test of `writer_lock` (rwlock.c:146): `true` when the writer has
to call `pthread_cond_wait(&writers_cv, ...)`. -/
def writer_must_wait (rw : rwlock) : Bool :=
  decide (rw.active_writers > 0) || decide (rw.active_readers > 0)

/-- Admission of a writer (rwlock.c:150-157). -/
def writer_lock_acquire (rw : rwlock) : rwlock :=
  let rw1 := { rw with
    waiting_writers := rw.waiting_writers - 1
    active_writers := 1 }
  if rw1.priority = .N_WAY then
    { rw1 with batch_active := false, current_batch_readers := 0, batch_limit := 0 }
  else rw1

/-- The function `writer_unlock` on a non-null lock (rwlock.c:167-203). -/
def writer_unlock (rw : rwlock) : rwlock × Notify :=
  let rw1 := { rw with active_writers := 0 }
  if rw1.priority = .N_WAY then
    if rw1.waiting_writers > 0 then
      if rw1.waiting_readers > 0 then
        ({ rw1 with
            batch_active := true
            batch_limit :=
              if rw1.waiting_readers < rw1.n_way then rw1.waiting_readers else rw1.n_way
            current_batch_readers := 0 },
          .broadcast_readers)
      else (rw1, .signal_writers)
    else ({ rw1 with batch_active := false }, .broadcast_readers)
  else if rw1.priority = .READERS then
    if rw1.waiting_readers > 0 then (rw1, .broadcast_readers)
    else if rw1.waiting_writers > 0 then (rw1, .signal_writers)
    else (rw1, .nothing)
  else if rw1.priority = .WRITERS then
    if rw1.waiting_writers > 0 then (rw1, .signal_writers)
    else if rw1.waiting_readers > 0 then (rw1, .broadcast_readers)
    else (rw1, .nothing)
  else (rw1, .nothing)

/-- Where a thread stands with respect to the lock.  `r_blocked` / `w_blocked`:
asleep in `pthread_cond_wait` on `readers_cv` / `writers_cv`.  `r_woken` /
`w_woken`: unblocked from the condition variable (a wake-up is pending) and not
yet back in the critical section.  `r_holding` / `w_holding`: admitted by
`reader_lock` / `writer_lock` and not yet unlocked. -/
inductive Pc where
  | idle
  | r_blocked
  | r_woken
  | r_holding
  | w_blocked
  | w_woken
  | w_holding
deriving DecidableEq, Repr

/-- Atomic steps.  A thread outside the lock calls `reader_lock` or
`writer_lock`; a thread holding it calls the matching unlock (balanced use);
`resume t`: thread `t`, unblocked earlier, re-acquires the mutex inside
`pthread_cond_wait` and runs its loop test again; `spurious t`: the sleeping
thread `t` is unblocked without a signal, as POSIX allows.  `pick` names the
thread that `pthread_cond_signal` unblocks when several writers sleep. -/
inductive Ev where
  | reader_lock (t : Nat)
  | reader_unlock (t : Nat) (pick : Nat)
  | writer_lock (t : Nat)
  | writer_unlock (t : Nat) (pick : Nat)
  | resume (t : Nat)
  | spurious (t : Nat)
deriving DecidableEq, Repr

/-- A lock shared by the threads `0 .. pcs.length - 1`.  Two ghost counters
record how many reader and writer admissions have happened so far. -/
structure Sys where
  rw : rwlock
  pcs : List Pc
  reader_admits : Nat
  writer_admits : Nat
deriving DecidableEq, Repr

/-- Effect of `pthread_cond_signal(&writers_cv)`: one sleeping writer is
unblocked, `pick` if it is asleep on `writers_cv` and otherwise the first one
that is; no effect when no writer sleeps. -/
def wake_one (pcs : List Pc) (pick : Nat) : List Pc :=
  if pcs[pick]? = some .w_blocked then pcs.set pick .w_woken
  else pcs.set (pcs.indexOf .w_blocked) .w_woken

/-- Effect of `pthread_cond_broadcast(&readers_cv)`: every sleeping reader is
unblocked. -/
def wake_all (pcs : List Pc) : List Pc :=
  pcs.map (fun pc => if pc = .r_blocked then .r_woken else pc)

/-- Effect of an unlock's notification on the threads. -/
def deliver (n : Notify) (pick : Nat) (pcs : List Pc) : List Pc :=
  match n with
  | .nothing => pcs
  | .signal_writers => wake_one pcs pick
  | .broadcast_readers => wake_all pcs

/-- Thread `t` of `reader_lock` at its loop test: it sleeps, or is admitted. -/
def reader_try (s : Sys) (t : Nat) : Sys :=
  if reader_must_wait s.rw = true then { s with pcs := s.pcs.set t .r_blocked }
  else
    { s with
      rw := reader_lock_acquire s.rw
      pcs := s.pcs.set t .r_holding
      reader_admits := s.reader_admits + 1 }

/-- Thread `t` of `writer_lock` at its loop test: it sleeps, or is admitted. -/
def writer_try (s : Sys) (t : Nat) : Sys :=
  if writer_must_wait s.rw = true then { s with pcs := s.pcs.set t .w_blocked }
  else
    { s with
      rw := writer_lock_acquire s.rw
      pcs := s.pcs.set t .w_holding
      writer_admits := s.writer_admits + 1 }

/-- One atomic step; `none` when the event is not enabled in `s`. -/
def step (s : Sys) : Ev → Option Sys
  | .reader_lock t =>
    match s.pcs[t]? with
    | some .idle => some (reader_try { s with rw := reader_lock_enter s.rw } t)
    | _ => none
  | .writer_lock t =>
    match s.pcs[t]? with
    | some .idle => some (writer_try { s with rw := writer_lock_enter s.rw } t)
    | _ => none
  | .resume t =>
    match s.pcs[t]? with
    | some .r_woken => some (reader_try s t)
    | some .w_woken => some (writer_try s t)
    | _ => none
  | .spurious t =>
    match s.pcs[t]? with
    | some .r_blocked => some { s with pcs := s.pcs.set t .r_woken }
    | some .w_blocked => some { s with pcs := s.pcs.set t .w_woken }
    | _ => none
  | .reader_unlock t pick =>
    match s.pcs[t]? with
    | some .r_holding =>
      some { s with
        rw := (reader_unlock s.rw).1
        pcs := deliver (reader_unlock s.rw).2 pick (s.pcs.set t .idle) }
    | _ => none
  | .writer_unlock t pick =>
    match s.pcs[t]? with
    | some .w_holding =>
      some { s with
        rw := (writer_unlock s.rw).1
        pcs := deliver (writer_unlock s.rw).2 pick (s.pcs.set t .idle) }
    | _ => none

/-- Run a schedule from `s`. -/
def run (s : Sys) : List Ev → Option Sys
  | [] => some s
  | e :: es =>
    match step s e with
    | none => none
    | some s1 => run s1 es

/-- The states visited by a schedule, the starting state first. -/
def trace (s : Sys) : List Ev → Option (List Sys)
  | [] => some [s]
  | e :: es =>
    match step s e with
    | none => none
    | some s1 => (trace s1 es).map (fun l => s :: l)

/-- The system right after `rwlock_new` returned `rw`, with `n` threads, none
of them inside a call. -/
def init (rw : rwlock) (n : Nat) : Sys :=
  { rw := rw, pcs := List.replicate n .idle, reader_admits := 0, writer_admits := 0 }

/-- A state reached from a lock made by `rwlock_new p n` by some schedule of
`k` threads. -/
def Reachable (p : PRIORITY) (n : Int) (k : Nat) (s : Sys) : Prop :=
  ∃ rw evs, rwlock_new p n true = some rw ∧ run (init rw k) evs = some s

/-- The lock `rwlock_new(p, n)` returns when the allocation succeeds. -/
def fresh (p : PRIORITY) (n : Int) : rwlock :=
  { priority := p
    n_way := if p = .N_WAY then n else 0
    active_readers := 0
    active_writers := 0
    waiting_readers := 0
    waiting_writers := 0
    batch_active := false
    current_batch_readers := 0
    batch_limit := 0 }

/-- Scenario S4 before the third reader arrives: on `rwlock_new(READERS, 0)`
threads 0 and 1 hold the lock as readers and thread 2 is blocked in
`writer_lock`; thread 3 is outside. -/
def s4_state : Sys :=
  { rw := { fresh .READERS 0 with active_readers := 2, waiting_writers := 1 }
    pcs := [.r_holding, .r_holding, .w_blocked, .idle]
    reader_admits := 2
    writer_admits := 0 }

/-- The schedule that leads to `s4_state`. -/
def s4_schedule : List Ev := [.reader_lock 0, .reader_lock 1, .writer_lock 2]

/-- Scenario S3 before W1 releases: on `rwlock_new(WRITERS, 0)` thread 0 (W1)
holds the lock as writer, thread 1 (R) is blocked in `reader_lock` and thread 2
(W2) is blocked in `writer_lock`. -/
def s3_state : Sys :=
  { rw := { fresh .WRITERS 0 with
            active_writers := 1, waiting_readers := 1, waiting_writers := 1 }
    pcs := [.w_holding, .r_blocked, .w_blocked]
    reader_admits := 0
    writer_admits := 1 }

/-- The schedule that leads to `s3_state`. -/
def s3_schedule : List Ev := [.writer_lock 0, .reader_lock 1, .writer_lock 2]

/-- A schedule on `rwlock_new(N_WAY, 1)` with writers 0, 1, 2 and readers 3, 4.
Writer 0 acquires, writers 1 and 2 queue behind it, writer 0 releases and
signals writer 1, which is about to resume. -/
def barge_before : List Ev :=
  [.writer_lock 0, .writer_lock 1, .writer_lock 2, .writer_unlock 0 1]

/-- State after `barge_before`. -/
def barge_s0 : Sys :=
  { rw := { fresh .N_WAY 1 with waiting_writers := 2 }
    pcs := [.idle, .w_woken, .w_blocked, .idle, .idle]
    reader_admits := 0
    writer_admits := 1 }

/-- State after writer 1 resumed and acquired: writer 2 is still waiting. -/
def barge_s1 : Sys :=
  { rw := { fresh .N_WAY 1 with active_writers := 1, waiting_writers := 1 }
    pcs := [.idle, .w_holding, .w_blocked, .idle, .idle]
    reader_admits := 0
    writer_admits := 2 }

/-- Writer 1 releases while no reader waits (so it signals writer 2 and opens
no batch); before writer 2 runs, readers 3 and 4 arrive and are admitted; they
unlock. -/
def barge_interval : List Ev :=
  [.writer_unlock 1 2, .reader_lock 3, .reader_lock 4, .reader_unlock 3 2,
   .reader_unlock 4 2]

/-- The states visited by `barge_interval` from `barge_s1`. -/
def barge_states : List Sys :=
  (trace barge_s1 barge_interval).getD []

/-- State at the end of `barge_interval`: writer 2, woken, is about to acquire. -/
def barge_s2 : Sys :=
  { rw := { fresh .N_WAY 1 with waiting_writers := 1 }
    pcs := [.idle, .idle, .w_woken, .idle, .idle]
    reader_admits := 2
    writer_admits := 2 }

/-- State after writer 2 acquired. -/
def barge_s3 : Sys :=
  { rw := { fresh .N_WAY 1 with active_writers := 1 }
    pcs := [.idle, .idle, .w_holding, .idle, .idle]
    reader_admits := 2
    writer_admits := 3 }

/-- Scenario S5 on `rwlock_new(N_WAY, 3)` with writers 0, 1, 2 and readers
3 .. 7, up to the point where writer 1 (W1 of the scenario) is about to
acquire while writer 2 (W2) waits. -/
def s5_before : List Ev :=
  [.writer_lock 0, .writer_lock 1, .writer_lock 2, .writer_unlock 0 1]

/-- State after `s5_before`. -/
def s5_s0 : Sys :=
  { rw := { fresh .N_WAY 3 with waiting_writers := 2 }
    pcs := [.idle, .w_woken, .w_blocked, .idle, .idle, .idle, .idle, .idle]
    reader_admits := 0
    writer_admits := 1 }

/-- State after writer 1 acquired. -/
def s5_s1 : Sys :=
  { rw := { fresh .N_WAY 3 with active_writers := 1, waiting_writers := 1 }
    pcs := [.idle, .w_holding, .w_blocked, .idle, .idle, .idle, .idle, .idle]
    reader_admits := 0
    writer_admits := 2 }

/-- Five readers queue, writer 1 releases (a batch of min(5, 3) = 3 opens),
readers 3, 4, 5 resume and are admitted, readers 6, 7 resume and sleep again,
the three holders unlock. -/
def s5_interval : List Ev :=
  [.reader_lock 3, .reader_lock 4, .reader_lock 5, .reader_lock 6, .reader_lock 7,
   .writer_unlock 1 2, .resume 3, .resume 4, .resume 5, .resume 6, .resume 7,
   .reader_unlock 3 2, .reader_unlock 4 2, .reader_unlock 5 2]

/-- The states visited by `s5_interval` from `s5_s1`. -/
def s5_states : List Sys :=
  (trace s5_s1 s5_interval).getD []

/-- State at the end of `s5_interval`: three readers were admitted, readers 6
and 7 sleep, writer 2 is woken. -/
def s5_s2 : Sys :=
  { rw := { fresh .N_WAY 3 with
            waiting_readers := 2, waiting_writers := 1, batch_active := true,
            current_batch_readers := 3, batch_limit := 3 }
    pcs := [.idle, .idle, .w_woken, .idle, .idle, .idle, .r_blocked, .r_blocked]
    reader_admits := 3
    writer_admits := 2 }

/-- State after writer 2 acquired. -/
def s5_s3 : Sys :=
  { rw := { fresh .N_WAY 3 with active_writers := 1, waiting_readers := 2 }
    pcs := [.idle, .idle, .w_holding, .idle, .idle, .idle, .r_blocked, .r_blocked]
    reader_admits := 3
    writer_admits := 3 }

/-- Invariant of the stretch between a writer's admission and the next one on
an N_WAY lock of width `N`, with `R0` reader admissions before it: either the
writer still holds and no reader has been admitted since, or its release opened
a batch and the readers admitted since are `current_batch_readers`, at most
`batch_limit`, itself at most `N`. -/
def Window (N : Int) (R0 : Nat) (s : Sys) : Prop :=
  (s.rw.active_writers = 1 ∧ s.reader_admits = R0) ∨
  (s.rw.active_writers = 0 ∧ s.rw.batch_active = true ∧ s.rw.batch_limit ≤ N ∧
    (s.reader_admits : Int) - R0 = s.rw.current_batch_readers ∧
    s.rw.current_batch_readers ≤ s.rw.batch_limit)

/-- Whether the event is a call of `writer_unlock`. -/
def Ev.is_writer_unlock : Ev → Bool
  | .writer_unlock _ _ => true
  | _ => false

/-- The thread an event belongs to. -/
def Ev.thread : Ev → Nat
  | .reader_lock t => t
  | .reader_unlock t _ => t
  | .writer_lock t => t
  | .writer_unlock t _ => t
  | .resume t => t
  | .spurious t => t

/-- Counter invariant of a lock made by `rwlock_new p n`: the policy and the
width never change, each counter is the number of threads at the matching
places, and writers exclude everybody else. -/
structure Counts (p : PRIORITY) (n : Int) (s : Sys) : Prop where
  prio : s.rw.priority = p
  width : s.rw.n_way = if p = .N_WAY then n else 0
  ar : s.rw.active_readers = s.pcs.count .r_holding
  aw : s.rw.active_writers = s.pcs.count .w_holding
  wr : s.rw.waiting_readers = s.pcs.count .r_blocked + s.pcs.count .r_woken
  ww : s.rw.waiting_writers = s.pcs.count .w_blocked + s.pcs.count .w_woken
  one_writer : s.pcs.count .w_holding ≤ 1
  excl : s.pcs.count .w_holding = 0 ∨ s.pcs.count .r_holding = 0

/-- The function `reader_lock` on a handle (rwlock.c:84-122), first section of
the call: it returns at once on a null handle, and otherwise enters, runs the
loop test, and either sleeps on `readers_cv` or is admitted and returns. -/
def reader_lock_call (h : Option rwlock) : Outcome (Option rwlock) Unit :=
  match h with
  | none => .returned () none
  | some rw =>
    if reader_must_wait (reader_lock_enter rw) = true then
      .waiting (some (reader_lock_enter rw))
    else .returned () (some (reader_lock_acquire (reader_lock_enter rw)))

/-- The function `writer_lock` on a handle (rwlock.c:138-162), first section
of the call. -/
def writer_lock_call (h : Option rwlock) : Outcome (Option rwlock) Unit :=
  match h with
  | none => .returned () none
  | some rw =>
    if writer_must_wait (writer_lock_enter rw) = true then
      .waiting (some (writer_lock_enter rw))
    else .returned () (some (writer_lock_acquire (writer_lock_enter rw)))

/-- The function `reader_unlock` on a handle (rwlock.c:124-136): the handle's
target afterwards and the notification issued. -/
def reader_unlock_call (h : Option rwlock) : Option rwlock × Notify :=
  match h with
  | none => (none, .nothing)
  | some rw => (some (reader_unlock rw).1, (reader_unlock rw).2)

/-- The function `writer_unlock` on a handle (rwlock.c:164-205). -/
def writer_unlock_call (h : Option rwlock) : Option rwlock × Notify :=
  match h with
  | none => (none, .nothing)
  | some rw => (some (writer_unlock rw).1, (writer_unlock rw).2)

/-- The function `rwlock_delete` (rwlock.c:73-82).  The argument `l` is the
`rwlock_t **`: `none` when `l` is NULL, `some none` when `*l` is NULL.  The
result is `l` afterwards together with the lock that was destroyed and freed,
if any. -/
def rwlock_delete (l : Option (Option rwlock)) : Option (Option rwlock) × Option rwlock :=
  match l with
  | none => (none, none)
  | some none => (some none, none)
  | some (some rw) => (some none, some rw)

/-- Batch fields at rest: outside a batch the two batch counters are 0, no
batch is open while a writer holds the lock, and a batch is open only on an
N_WAY lock and only while a writer waits. -/
structure BatchIdle (s : Sys) : Prop where
  zero : s.rw.batch_active = false →
    s.rw.current_batch_readers = 0 ∧ s.rw.batch_limit = 0
  clear : 0 < s.rw.active_writers → s.rw.batch_active = false
  needs : s.rw.batch_active = true → s.rw.priority = .N_WAY ∧ 0 < s.rw.waiting_writers

/-- Batch bounds (the checks of `check_invariants`, rwlock.c:35-40): an open
batch has a positive limit, at most the width, and the readers counted against
the batch never exceed the limit. -/
structure BatchRange (s : Sys) : Prop where
  limit : s.rw.batch_active = true → 0 < s.rw.batch_limit ∧ s.rw.batch_limit ≤ s.rw.n_way
  cur : 0 ≤ s.rw.current_batch_readers ∧ s.rw.current_batch_readers ≤ s.rw.batch_limit

/-- The function `check_invariants` (rwlock.c:31-45, compiled under DEBUG):
`true` when none of its four messages is printed. -/
def check_invariants (rw : rwlock) : Bool :=
  !(decide (rw.active_writers > 0) && decide (rw.active_readers > 0)) &&
  !(rw.batch_active && decide (rw.batch_limit ≤ 0)) &&
  !(decide (rw.current_batch_readers > rw.batch_limit)) &&
  !(decide (rw.waiting_readers < 0) || decide (rw.waiting_writers < 0) ||
    decide (rw.active_readers < 0) || decide (rw.active_writers < 0))

/-- Invariant of an open batch of limit `L`, with `R0` reader admissions before
it opened: no writer holds the lock, the batch is open with limit `L`, and the
readers admitted since are `current_batch_readers`, at most `L`. -/
structure BatchOpen (L : Int) (R0 : Nat) (s : Sys) : Prop where
  no_writer : s.rw.active_writers = 0
  active : s.rw.batch_active = true
  limit : s.rw.batch_limit = L
  admitted : (s.reader_admits : Int) - R0 = s.rw.current_batch_readers
  bound : s.rw.current_batch_readers ≤ L

/-- Scenario S5, continued from `s5_s1` (W1 = thread 1 holds, W2 = thread 2
waits): the five readers R1 .. R5 (threads 3 .. 7) call `reader_lock`. -/
def s5_queue_up : List Ev :=
  [.reader_lock 3, .reader_lock 4, .reader_lock 5, .reader_lock 6, .reader_lock 7]

/-- Scenario S5 just before W1 releases: five readers and W2 wait. -/
def s5_queued : Sys :=
  { rw := { fresh .N_WAY 3 with
            active_writers := 1, waiting_readers := 5, waiting_writers := 1 }
    pcs := [.idle, .w_holding, .w_blocked, .r_blocked, .r_blocked, .r_blocked, .r_blocked,
            .r_blocked]
    reader_admits := 0
    writer_admits := 2 }

/-- Scenario S5 right after W1's `writer_unlock`: a batch of min(5, 3) = 3 is
open and the five readers have been woken. -/
def s5_opened : Sys :=
  { rw := { fresh .N_WAY 3 with
            waiting_readers := 5, waiting_writers := 1, batch_active := true,
            batch_limit := 3 }
    pcs := [.idle, .idle, .w_blocked, .r_woken, .r_woken, .r_woken, .r_woken, .r_woken]
    reader_admits := 0
    writer_admits := 2 }

/-- The batch window of S5: R1, R2, R3 resume and are admitted, R4, R5 resume
and sleep again, the three holders unlock (the last unlock signals W2). -/
def s5_window : List Ev :=
  [.resume 3, .resume 4, .resume 5, .resume 6, .resume 7,
   .reader_unlock 3 2, .reader_unlock 4 2, .reader_unlock 5 2]

/-- The states visited by `s5_window` from `s5_opened`. -/
def s5_window_states : List Sys :=
  (trace s5_opened s5_window).getD []

/-- Scenario S5 right after W2's `writer_unlock` (from `s5_s3`, where W2 holds
and R4, R5 sleep): no batch is open and R4, R5 have been woken. -/
def s5_released : Sys :=
  { rw := { fresh .N_WAY 3 with waiting_readers := 2 }
    pcs := [.idle, .idle, .idle, .idle, .idle, .idle, .r_woken, .r_woken]
    reader_admits := 3
    writer_admits := 3 }

/-- Scenario S5 at its end: R4 and R5 hold the lock, counted against no batch. -/
def s5_both : Sys :=
  { rw := { fresh .N_WAY 3 with active_readers := 2 }
    pcs := [.idle, .idle, .idle, .idle, .idle, .idle, .r_holding, .r_holding]
    reader_admits := 5
    writer_admits := 3 }

/-- Scenario S4 after both readers unlocked: the writer (thread 2) has been
signalled and nobody holds the lock. -/
def s4_drained : Sys :=
  { rw := { fresh .READERS 0 with waiting_writers := 1 }
    pcs := [.idle, .idle, .w_woken, .idle]
    reader_admits := 2
    writer_admits := 0 }

/-- Scenario S4 at its end: the writer holds the lock. -/
def s4_acquired : Sys :=
  { rw := { fresh .READERS 0 with active_writers := 1 }
    pcs := [.idle, .idle, .w_holding, .idle]
    reader_admits := 2
    writer_admits := 1 }

/-- Scenario S6: on `rwlock_new(N_WAY, 2)` four readers hold the lock at once. -/
def s6_state : Sys :=
  { rw := { fresh .N_WAY 2 with active_readers := 4 }
    pcs := [.r_holding, .r_holding, .r_holding, .r_holding]
    reader_admits := 4
    writer_admits := 0 }

/-- Whether the event is a call of `reader_lock`. -/
def Ev.is_reader_lock : Ev → Bool
  | .reader_lock _ => true
  | _ => false

/-- Whether the event is a call of `reader_unlock`. -/
def Ev.is_reader_unlock : Ev → Bool
  | .reader_unlock _ _ => true
  | _ => false

/-- Whether the event is a call of `writer_lock`. -/
def Ev.is_writer_lock : Ev → Bool
  | .writer_lock _ => true
  | _ => false

/-- The abstract states of the specification's state machine: `IDLE`,
`READING(k)` and `WRITING`. -/
inductive SpecState where
  | IDLE
  | READING (k : Int)
  | WRITING
deriving DecidableEq, Repr

/-- The specification's mapping of a lock state to an abstract state: `IDLE`
when `active_readers = 0` and `active_writers = 0`, `READING(k)` when
`active_readers = k >= 1` and `active_writers = 0`, `WRITING` when
`active_writers = 1` and `active_readers = 0`; `none` when no case applies. -/
def spec_state_of (rw : rwlock) : Option SpecState :=
  if rw.active_readers = 0 ∧ rw.active_writers = 0 then some .IDLE
  else if rw.active_readers ≥ 1 ∧ rw.active_writers = 0 then some (.READING rw.active_readers)
  else if rw.active_writers = 1 ∧ rw.active_readers = 0 then some .WRITING
  else none

/-- The four kinds of transition the specification lists. -/
inductive SpecLabel where
  | reader_admitted
  | reader_released
  | writer_admitted
  | writer_released
deriving DecidableEq, Repr

/-- The specification's transitions: a reader admit is `IDLE -> READING(1)` or
`READING(k) -> READING(k+1)`, `reader_unlock` is `READING(k) -> READING(k-1)`
for `k > 1` or `READING(1) -> IDLE`, a writer admit is `IDLE -> WRITING`,
`writer_unlock` is `WRITING -> IDLE`; nothing else is a transition. -/
def spec_transition : SpecLabel → SpecState → Option SpecState
  | .reader_admitted, .IDLE => some (.READING 1)
  | .reader_admitted, .READING k => some (.READING (k + 1))
  | .reader_released, .READING k =>
    if k > 1 then some (.READING (k - 1)) else if k = 1 then some .IDLE else none
  | .writer_admitted, .IDLE => some .WRITING
  | .writer_released, .WRITING => some .IDLE
  | _, _ => none

/-- What a step of the code is in the specification's terms: the admission of
a reader or of a writer (whether it happens in the thread's first section or
after a wait), a `reader_unlock`, a `writer_unlock`, or none of these (a call
that goes to sleep, a wake-up, a resumption that sleeps again). -/
def label_of (s : Sys) (e : Ev) (s1 : Sys) : Option SpecLabel :=
  if s1.reader_admits = s.reader_admits + 1 then some .reader_admitted
  else if s1.writer_admits = s.writer_admits + 1 then some .writer_admitted
  else
    match e with
    | .reader_unlock _ _ => some .reader_released
    | .writer_unlock _ _ => some .writer_released
    | _ => none

/-- Whether the event is a wake-up without a notification. -/
def Ev.is_spurious : Ev → Bool
  | .spurious _ => true
  | _ => false

/-- On `rwlock_new(N_WAY, n)` with three threads: thread 0 acquires as writer,
thread 1 calls `reader_lock` and thread 2 calls `writer_lock` (both sleep),
thread 0 calls `writer_unlock`. -/
def stuck_schedule : List Ev :=
  [.writer_lock 0, .reader_lock 1, .writer_lock 2, .writer_unlock 0 2]

/-- The state before the last event of `stuck_schedule`: thread 0 holds as
writer, one reader and one writer wait. -/
def stuck_before (n : Int) : Sys :=
  { rw := { fresh .N_WAY n with
            active_writers := 1, waiting_readers := 1, waiting_writers := 1 }
    pcs := [.w_holding, .r_blocked, .w_blocked]
    reader_admits := 0
    writer_admits := 1 }

/-- The state after `stuck_schedule` when `n <= 1`: a batch of limit `n` is
open, the reader has been woken by the broadcast, the writer sleeps. -/
def stuck (n : Int) : Sys :=
  { rw := { fresh .N_WAY n with
            waiting_readers := 1, waiting_writers := 1, batch_active := true,
            batch_limit := n }
    pcs := [.idle, .r_woken, .w_blocked]
    reader_admits := 0
    writer_admits := 1 }

/-- Readers locked out: no reader holds the lock, a reader waits, a writer
sleeps on `writers_cv` and no writer has a wake-up pending, and whenever no
writer is active a batch is open whose limit the batch count has reached. -/
structure Starved (s : Sys) : Prop where
  no_reader : s.rw.active_readers = 0
  reader_waits : 1 ≤ s.rw.waiting_readers
  writer_sleeps : 1 ≤ s.pcs.count .w_blocked
  none_woken : s.pcs.count .w_woken = 0
  gate : s.rw.active_writers = 0 → s.rw.batch_active = true
  full : s.rw.batch_limit ≤ s.rw.current_batch_readers

end RWLock

namespace HTTPServer

/-- The struct `http_request_t` (httpserver.c:36-43).  A C string stored in a
`char` array is the list of its characters before the terminating NUL. -/
structure http_request where
  method : List Char
  uri : List Char
  version : List Char
  content_length : Nat
  have_content_length : Int
  valid : Int
deriving DecidableEq, Repr

/-- The terminating NUL, which is what reading a string at its length yields. -/
def NUL : Char := Char.ofNat 0

/-- The library function `isalpha` on `(unsigned char) c` in the "C" locale
(the server never calls `setlocale`): the 52 ASCII letters. -/
def isalpha (c : Char) : Bool := c.isAlpha

/-- The library function `isdigit` on `(unsigned char) c`: `0` to `9`. -/
def isdigit (c : Char) : Bool := c.isDigit

/-- The test `strcasecmp(a, b) == 0` in the "C" locale: the strings are equal
after mapping `A`-`Z` to `a`-`z`. -/
def strcasecmp_eq (a b : List Char) : Bool :=
  a.map Char.toLower == b.map Char.toLower

/-- The function `validate_http_version` (httpserver.c:126-140).
`strncmp(v, "HTTP/", 5) != 0` holds exactly when the first five characters of
`v` are not `HTTP/` (a shorter `v` differs at its NUL). -/
def validate_http_version (v : List Char) : Int :=
  if v.take 5 ≠ "HTTP/".toList then 0
  else if v.length ≠ 8 then 0
  else if (!isdigit (v.getD 5 NUL) || v.getD 6 NUL != '.' || !isdigit (v.getD 7 NUL)) = true
    then 0
  else if v = "HTTP/1.1".toList then 1
  else 2

/-- The character test of the URI loop (httpserver.c:163-167). -/
def uri_char (c : Char) : Bool :=
  (decide (c ≥ 'a') && decide (c ≤ 'z')) ||
  (decide (c ≥ 'A') && decide (c ≤ 'Z')) ||
  (decide (c ≥ '0') && decide (c ≤ '9')) ||
  c == '.' ||
  c == '-'

/-- The function `validate_request_line` (httpserver.c:141-181).  A `for` loop
that returns 0 at the first offending character is `List.any`. -/
def validate_request_line (req : http_request) : Int :=
  let mlen := req.method.length
  if mlen < 1 ∨ mlen > 8 then 0
  else if req.method.any (fun c => !isalpha c) = true then 0
  else
    let ulen := req.uri.length
    if ulen < 2 ∨ ulen > 64 then 0
    else if req.uri.getD 0 NUL ≠ '/' then 0
    else if (req.uri.drop 1).any (fun c => !uri_char c) = true then 0
    else
      let ver := validate_http_version req.version
      if ver = 1 then 1
      else if ver = 2 then -1
      else 0

/-- The request-line part of `parse_headers_and_request_line`
(httpserver.c:206-217), entered after `sscanf` stored three tokens in `req`:
the status code it returns there (`none` when it goes on to the headers), and
the request afterwards. -/
def parse_request_line (req : http_request) : Option Int × http_request :=
  let val := validate_request_line req
  if val = 1 then
    if strcasecmp_eq req.method "GET".toList = false ∧
        strcasecmp_eq req.method "PUT".toList = false then (some 501, req)
    else (none, { req with valid := 1 })
  else if val = -1 then (some 505, req)
  else (some 400, req)

/-- Specification side: the method is 1 to 8 alphabetic characters. -/
def spec_method_ok (m : List Char) : Prop :=
  1 ≤ m.length ∧ m.length ≤ 8 ∧ ∀ c ∈ m, c.isAlpha = true

/-- Specification side: the URI is `/` followed by 1 to 63 characters, each in
`[A-Za-z0-9.-]`. -/
def spec_uri_ok (u : List Char) : Prop :=
  ∃ rest, u = '/' :: rest ∧ 1 ≤ rest.length ∧ rest.length ≤ 63 ∧
    ∀ c ∈ rest, c.isAlphanum = true ∨ c = '.' ∨ c = '-'

/-- Specification side: the version is 8 characters of the form `HTTP/d.d`
with `d` decimal digits. -/
def spec_version_form (v : List Char) : Prop :=
  ∃ d1 d2 : Char, d1.isDigit = true ∧ d2.isDigit = true ∧
    v = ['H', 'T', 'T', 'P', '/', d1, '.', d2]

/-- Specification side: the method is GET or PUT, compared case-insensitively. -/
def spec_implemented (m : List Char) : Prop :=
  m.map Char.toLower = "get".toList ∨ m.map Char.toLower = "put".toList

/-- A request whose three tokens are the given strings, as
`parse_headers_and_request_line` has it after `sscanf`. -/
def request (method uri version : String) : http_request :=
  { method := method.toList, uri := uri.toList, version := version.toList,
    content_length := 0, have_content_length := 0, valid := 0 }

end HTTPServer

namespace Memory

/-- The constant `ULLONG_MAX` of a 64-bit `unsigned long long`. -/
def ULLONG_MAX : Nat := 2 ^ 64 - 1

/-- The constant `SIZE_MAX` of a `size_t` of `size_bits` bits. -/
def SIZE_MAX (size_bits : Nat) : Nat := 2 ^ size_bits - 1

/-- The library function `isdigit` on `(unsigned char) c`: `0` to `9`. -/
def isdigit (c : Char) : Bool := c.isDigit

/-- The library function `isspace` in the "C" locale: space and the five
control characters `\t \n \v \f \r` (codes 9 to 13). -/
def isspace (c : Char) : Bool :=
  c == ' ' || (decide (9 ≤ c.toNat) && decide (c.toNat ≤ 13))

/-- The value of a decimal digit character, `c - '0'`. -/
def digit_value (c : Char) : Nat := c.toNat - '0'.toNat

/-- The library call `strtoull(str, NULL, 10)` as the C standard specifies it
(7.22.1.4): leading white space is skipped, an optional sign is accepted, the
longest run of decimal digits is converted; a value above `ULLONG_MAX` gives
`ULLONG_MAX`, a minus sign negates in the unsigned type, and no digits give 0. -/
def strtoull (str : List Char) : Nat :=
  let s1 := str.dropWhile isspace
  let neg := decide (s1.head? = some '-')
  let s2 := if s1.head? = some '-' ∨ s1.head? = some '+' then s1.tail else s1
  let value := (s2.takeWhile isdigit).foldl (fun acc c => 10 * acc + digit_value c) 0
  if value > ULLONG_MAX then ULLONG_MAX
  else if neg = true then (2 ^ 64 - value) % 2 ^ 64
  else value

/-- The function `parse_content_length` (memory.c:55-67) with a `size_t` of
`size_bits` bits.  `str` is the C string (its characters before the NUL, so
`str[0] == 0` means the empty list), `out` the content of `*out_len` before
the call; the result is the return value and `*out_len` afterwards. -/
def parse_content_length (size_bits : Nat) (str : List Char) (out : Nat) : Int × Nat :=
  if str = [] then (0, out)
  else if str.any (fun c => !isdigit c) = true then (0, out)
  else
    let val := strtoull str
    if val > SIZE_MAX size_bits then (0, out)
    else (1, val % 2 ^ size_bits)

/-- Specification side: the number a string of decimal digits denotes, most
significant digit first. -/
def decimal_value (str : List Char) : Nat :=
  Nat.ofDigits 10 (str.reverse.map digit_value)

end Memory

/-! # Theorems: bounded queue -/

namespace Queue

theorem ring_new {α : Type} (C : Int) (block : Nat → α) (q : queue α)
    (h : queue_new C true (some block) = some q) : Ring C q ∧ q.count = 0 := by
  unfold queue_new at h
  split at h
  · simp at h
  · rename_i hC
    simp at h
    subst h
    refine ⟨⟨rfl, by omega, ?_, ?_, ?_, ?_, ?_, ?_, ?_, ?_⟩, rfl⟩ <;> simp <;> omega

theorem ring_push {α : Type} {C : Int} {q q1 : queue α} {elem : α} (hr : Ring C q)
    (h : queue_push_locked q elem = some q1) :
    Ring C q1 ∧ q.count < C ∧ q1.count = q.count + 1 ∧ q1.head = q.head ∧
      live q1 = live q ++ [some elem] := by
  obtain ⟨hs, hC, hl, hh0, hh1, ht0, ht1, hc0, hc1, ht⟩ := hr
  unfold queue_push_locked at h
  split at h
  · simp at h
  · rename_i hne
    simp only [Option.some.injEq] at h
    subst h
    have hlt : q.count < C := by omega
    have htm : Int.tmod (q.tail + 1) q.size = (q.head + (q.count + 1)) % C := by
      rw [Int.tmod_eq_emod (by omega) (by omega), hs, ht, Int.emod_add_emod]
      congr 1
      omega
    refine ⟨⟨hs, hC, ?_, hh0, hh1, ?_, ?_, ?_, ?_, ?_⟩, hlt, rfl, rfl, ?_⟩
    · simpa using hl
    · show 0 ≤ Int.tmod (q.tail + 1) q.size
      rw [htm]; exact Int.emod_nonneg _ (by omega)
    · show Int.tmod (q.tail + 1) q.size < C
      rw [htm]; exact Int.emod_lt_of_pos _ (by omega)
    · show 0 ≤ q.count + 1
      omega
    · show q.count + 1 ≤ C
      omega
    · exact htm
    · unfold live
      have hcn : (q.count + 1).toNat = q.count.toNat + 1 := by omega
      simp only [hcn, List.range_succ, List.map_append, List.map_cons, List.map_nil]
      congr 1
      · apply List.map_congr_left
        intro i hi
        rw [List.mem_range] at hi
        rw [List.getElem?_set]
        have hne2 : q.tail.toNat ≠ ((q.head + (i : Int)) % q.size).toNat := by
          have h1 : (q.head + q.count) % C ≠ (q.head + (i : Int)) % C := by
            rw [Ne, Int.emod_eq_emod_iff_emod_sub_eq_zero]
            have h2 : q.head + q.count - (q.head + (i : Int)) = q.count - (i : Int) := by ring
            rw [h2, Int.emod_eq_of_lt (by omega) (by omega)]
            omega
          have h3 := Int.emod_nonneg (q.head + (i : Int)) (show C ≠ 0 by omega)
          rw [hs]
          omega
        simp [hne2]
      · have hidx : ((q.head + ((q.count.toNat : Nat) : Int)) % q.size).toNat = q.tail.toNat := by
          have : ((q.count.toNat : Nat) : Int) = q.count := by omega
          rw [this, hs, ← ht]
        rw [hidx, List.getElem?_set]
        have : q.tail.toNat < q.buffer.length := by omega
        simp [this]

theorem ring_pop {α : Type} {C : Int} {q q1 : queue α} {old v : α} (hr : Ring C q)
    (h : queue_pop_locked q old = some (v, q1)) :
    Ring C q1 ∧ 0 < q.count ∧ q1.count = q.count - 1 ∧ q1.tail = q.tail ∧
      q1.buffer = q.buffer ∧ live q = some v :: live q1 := by
  obtain ⟨hs, hC, hl, hh0, hh1, ht0, ht1, hc0, hc1, ht⟩ := hr
  unfold queue_pop_locked at h
  split at h
  · simp at h
  · rename_i hne
    simp only [Option.some.injEq, Prod.mk.injEq] at h
    obtain ⟨hv, hq⟩ := h
    subst hq
    have hpos : 0 < q.count := by omega
    have hhm : Int.tmod (q.head + 1) q.size = (q.head + 1) % C := by
      rw [Int.tmod_eq_emod (by omega) (by omega), hs]
    refine ⟨⟨hs, hC, hl, ?_, ?_, ht0, ht1, ?_, ?_, ?_⟩, hpos, rfl, rfl, rfl, ?_⟩
    · show 0 ≤ Int.tmod (q.head + 1) q.size
      rw [hhm]; exact Int.emod_nonneg _ (by omega)
    · show Int.tmod (q.head + 1) q.size < C
      rw [hhm]; exact Int.emod_lt_of_pos _ (by omega)
    · show 0 ≤ q.count - 1
      omega
    · show q.count - 1 ≤ C
      omega
    · show q.tail = (Int.tmod (q.head + 1) q.size + (q.count - 1)) % C
      rw [hhm, Int.emod_add_emod, ht]
      congr 1
      omega
    · unfold live
      have hcn : q.count.toNat = (q.count - 1).toNat + 1 := by omega
      rw [hcn, List.range_succ_eq_map]
      simp only [List.map_cons, List.map_map]
      congr 1
      · have h0 : ((q.head + ((0 : Nat) : Int)) % q.size).toNat = q.head.toNat := by
          rw [hs]
          simp only [Nat.cast_zero, add_zero]
          rw [Int.emod_eq_of_lt hh0 hh1]
        rw [h0, ← hv, List.getD_eq_getElem?_getD]
        have : q.head.toNat < q.buffer.length := by omega
        simp [this]
      · apply List.map_congr_left
        intro i _
        show q.buffer[((q.head + ((Nat.succ i : Nat) : Int)) % q.size).toNat]? =
          q.buffer[((Int.tmod (q.head + 1) q.size + (i : Int)) % q.size).toNat]?
        rw [hhm, hs, Int.emod_add_emod]
        congr 3
        push_cast
        ring

theorem inv_init {α : Type} (C : Int) (n : Nat) (block : Nat → α) (q : queue α)
    (h : queue_new C true (some block) = some q) : Inv C (init q n) := by
  obtain ⟨hr, hc⟩ := ring_new C block q h
  refine ⟨hr, ?_⟩
  simp [init, payloads, live, hc]

theorem inv_do_push {α : Type} {C : Int} {s : Sys α} (hi : Inv C s) (t : Nat) (elem : α) :
    Inv C (do_push s t elem) := by
  unfold do_push
  split
  · exact ⟨hi.ring, hi.fifo⟩
  · rename_i q1 hq
    obtain ⟨hr1, _, _, _, hl⟩ := ring_push hi.ring hq
    refine ⟨hr1, ?_⟩
    show List.map some (payloads (s.pushed ++ [(t, elem)])) =
      List.map some (payloads s.popped) ++ live q1
    have hf := hi.fifo
    simp only [payloads, List.map_append, List.map_cons, List.map_nil] at hf ⊢
    rw [hl, hf, List.append_assoc]

theorem inv_do_pop {α : Type} {C : Int} {s : Sys α} (hi : Inv C s) (t : Nat) (old : α) :
    Inv C (do_pop s t old) := by
  unfold do_pop
  split
  · exact ⟨hi.ring, hi.fifo⟩
  · rename_i v q1 hq
    obtain ⟨hr1, _, _, _, _, hl⟩ := ring_pop hi.ring hq
    refine ⟨hr1, ?_⟩
    show List.map some (payloads s.pushed) =
      List.map some (payloads (s.popped ++ [(t, v)])) ++ live q1
    have hf := hi.fifo
    simp only [payloads, List.map_append, List.map_cons, List.map_nil] at hf ⊢
    rw [hf, hl, List.append_assoc]
    rfl

theorem inv_step {α : Type} {C : Int} {old : α} {s s1 : Sys α} {e : Ev α} (hi : Inv C s)
    (h : step old s e = some s1) : Inv C s1 := by
  cases e with
  | push t elem =>
    simp only [step] at h
    split at h
    · cases h; exact inv_do_push hi t elem
    · cases h
  | pop t =>
    simp only [step] at h
    split at h
    · cases h; exact inv_do_pop hi t old
    · cases h
  | wake t =>
    simp only [step] at h
    split at h
    · cases h; exact inv_do_push hi t _
    · cases h; exact inv_do_pop hi t old
    · cases h

theorem inv_run {α : Type} {C : Int} {old : α} (evs : List (Ev α)) :
    ∀ {s s1 : Sys α}, Inv C s → run old s evs = some s1 → Inv C s1 := by
  induction evs with
  | nil =>
    intro s s1 hi h
    simp only [run, Option.some.injEq] at h
    exact h ▸ hi
  | cons e es ih =>
    intro s s1 hi h
    simp only [run] at h
    split at h
    · cases h
    · rename_i s2 hs
      exact ih (inv_step hi hs) h

theorem inv_reachable {α : Type} {C : Int} {old : α} {n : Nat} {s : Sys α}
    (h : Reachable old C n s) : Inv C s := by
  obtain ⟨block, q, evs, hq, hrun⟩ := h
  exact inv_run evs (inv_init C n block q hq) hrun

theorem live_length {α : Type} (q : queue α) : (live q).length = q.count.toNat := by
  simp [live]

/-- In a state satisfying the invariant the number of payloads pushed is the
number popped plus `count`. -/
theorem inv_lengths {α : Type} {C : Int} {s : Sys α} (hi : Inv C s) :
    (s.pushed.length : Int) = s.popped.length + s.q.count := by
  have h := congrArg List.length hi.fifo
  simp only [payloads, List.length_map, List.length_append, live_length] at h
  have := hi.ring.count_lo
  omega

theorem reachable_wrap_final : Reachable 0 2 2 wrap_final :=
  ⟨fun _ => 0, fresh 2, wrap_schedule, by decide, by decide⟩

theorem reachable_s1_holding_B : Reachable 0 1 2 s1_holding_B :=
  ⟨fun _ => 0, fresh 1, [.push 0 0xA, .pop 1, .push 0 0xB], by decide, by decide⟩

/-- C9: `queue_new(capacity)` returns NULL for every capacity <= 0; for every
capacity >= 1, both allocations succeeding, it returns a queue with
size = capacity, head = 0, tail = 0, count = 0, a buffer of `capacity` slots and
no live entry. -/
theorem queue_new_spec {α : Type} (capacity : Int) (q_mem : Bool)
    (buf_mem : Option (Nat → α)) (block : Nat → α) :
    (capacity ≤ 0 → queue_new capacity q_mem buf_mem = none) ∧
    (1 ≤ capacity →
      ∃ q, queue_new capacity true (some block) = some q ∧
        q.size = capacity ∧ q.head = 0 ∧ q.tail = 0 ∧ q.count = 0 ∧
        (q.buffer.length : Int) = capacity ∧ live q = []) := by
  constructor
  · intro h
    simp [queue_new, h]
  · intro h
    have hn : ¬ capacity ≤ 0 := by omega
    refine ⟨_, by simp only [queue_new, hn, if_false]; rfl, rfl, rfl, rfl, rfl, ?_, ?_⟩
    · simp; omega
    · simp [live]

theorem queue_new_spec_witness :
    ((0 : Int) ≤ 0 ∧ queue_new (0 : Int) true (some (fun _ => (0 : Nat))) = none) ∧
    ((1 : Int) ≤ 4 ∧
      ∃ q, queue_new (4 : Int) true (some (fun _ => (0 : Nat))) = some q ∧
        q.size = 4 ∧ q.head = 0 ∧ q.tail = 0 ∧ q.count = 0 ∧
        (q.buffer.length : Int) = 4 ∧ live q = []) :=
  ⟨⟨by decide, (queue_new_spec 0 true (some (fun _ => 0)) (fun _ => 0)).1 (by decide)⟩,
   ⟨by decide, (queue_new_spec 4 true none (fun _ => 0)).2 (by decide)⟩⟩

/-- C10: `queue_push` and `queue_pop` return false exactly on a null handle.
On a null handle each returns false at once, the handle stays null and `*elem`
keeps its content; on a non-null queue a section of the call either sleeps or
returns true, and it does return true whenever the queue is not full (push) or
not empty (pop). -/
theorem queue_push_pop_return {α : Type} (h : Option (queue α)) (elem : α) :
    queue_push none elem = .returned false (none : Option (queue α)) ∧
    queue_pop none elem = .returned false ((none : Option (queue α)), elem) ∧
    (∀ b st, queue_push h elem = .returned b st → (b = false ↔ h = none)) ∧
    (∀ b st, queue_pop h elem = .returned b st → (b = false ↔ h = none)) ∧
    (∀ q, h = some q → q.count ≠ q.size →
      ∃ q1, queue_push h elem = .returned true (some q1)) ∧
    (∀ q, h = some q → q.count ≠ 0 →
      ∃ q1 v, queue_pop h elem = .returned true (some q1, v)) := by
  refine ⟨rfl, rfl, ?_, ?_, ?_, ?_⟩
  · intro b st hb
    cases h with
    | none => simp only [queue_push, Outcome.returned.injEq] at hb; simp [← hb.1]
    | some q =>
      simp only [queue_push] at hb
      split at hb
      · cases hb
      · simp only [Outcome.returned.injEq] at hb; simp [← hb.1]
  · intro b st hb
    cases h with
    | none => simp only [queue_pop, Outcome.returned.injEq] at hb; simp [← hb.1]
    | some q =>
      simp only [queue_pop] at hb
      split at hb
      · cases hb
      · simp only [Outcome.returned.injEq] at hb; simp [← hb.1]
  · intro q hq hne
    subst hq
    simp [queue_push, queue_push_locked, hne]
  · intro q hq hne
    subst hq
    simp [queue_pop, queue_pop_locked, hne]

theorem queue_push_pop_return_witness :
    (queue_push (some (fresh 1)) 0xA =
        .returned true (some { buffer := [0xA], size := 1, head := 0, tail := 0, count := 1 }) ∧
      (true = false ↔ some (fresh 1) = none)) ∧
    (fresh 1).count ≠ (fresh 1).size ∧
    ∃ q1, queue_push (some (fresh 1)) 0xA = .returned true (some q1) :=
  ⟨⟨by decide,
    (queue_push_pop_return (some (fresh 1)) 0xA).2.2.1 true
      (some { buffer := [0xA], size := 1, head := 0, tail := 0, count := 1 }) (by decide)⟩,
   by decide,
   (queue_push_pop_return (some (fresh 1)) 0xA).2.2.2.2.1 (fresh 1) rfl (by decide)⟩

/-- C3: in every state reachable from `queue_new(C)` by completed push and pop
steps, 0 <= count <= size and size = C (and C >= 1, since `queue_new` made the
queue). -/
theorem queue_capacity_bound {α : Type} (old : α) (C : Int) (n : Nat) (s : Sys α)
    (h : Reachable old C n s) :
    0 ≤ s.q.count ∧ s.q.count ≤ s.q.size ∧ s.q.size = C ∧ 1 ≤ C := by
  have hi := (inv_reachable h).ring
  exact ⟨hi.count_lo, hi.size_eq ▸ hi.count_hi, hi.size_eq, hi.cap_pos⟩

theorem queue_capacity_bound_witness :
    Reachable 0 1 2 s1_holding_B ∧
    (0 ≤ s1_holding_B.q.count ∧ s1_holding_B.q.count ≤ s1_holding_B.q.size ∧
      s1_holding_B.q.size = 1 ∧ (1 : Int) ≤ 1) :=
  ⟨reachable_s1_holding_B, queue_capacity_bound 0 1 2 s1_holding_B reachable_s1_holding_B⟩

theorem prefix_of_map_some {α : Type} (a b : List α) (l : List (Option α))
    (h : b.map some = a.map some ++ l) : a <+: b := by
  have h1 : (b.take a.length).map some = a.map some := by
    rw [List.map_take, h, List.take_append_of_le_length (by simp)]
    simp
  have h2 : b.take a.length = a :=
    List.map_injective_iff.mpr (Option.some_injective α) h1
  exact h2 ▸ List.take_prefix _ _

/-- C2: in every state reachable from `queue_new(C)` under any interleaving, the
payloads popped so far, in the order the pops completed, are a prefix of the
payloads pushed, in the order the pushes took effect under the mutex: the k-th
pop returned the k-th payload pushed.  The schedule is arbitrary, so head and
tail may have wrapped around any number of times. -/
theorem queue_fifo {α : Type} (old : α) (C : Int) (n : Nat) (s : Sys α)
    (h : Reachable old C n s) :
    payloads s.popped <+: payloads s.pushed ∧
    ∀ k, k < s.popped.length → (payloads s.popped)[k]? = (payloads s.pushed)[k]? := by
  have hp := prefix_of_map_some _ _ _ (inv_reachable h).fifo
  refine ⟨hp, ?_⟩
  intro k hk
  obtain ⟨r, hr⟩ := hp
  rw [← hr, List.getElem?_append_left (by simpa [payloads] using hk)]

theorem queue_fifo_witness :
    Reachable 0 2 2 wrap_final ∧
    payloads wrap_final.popped = [1, 2, 3] ∧
    (payloads wrap_final.popped <+: payloads wrap_final.pushed ∧
      ∀ k, k < wrap_final.popped.length →
        (payloads wrap_final.popped)[k]? = (payloads wrap_final.pushed)[k]?) :=
  ⟨reachable_wrap_final, by decide, queue_fifo 0 2 2 wrap_final reachable_wrap_final⟩

/-- The two ways `do_push` can go: the queue is full and the thread sleeps, or
it is not and the payload is logged. -/
theorem do_push_cases {α : Type} (s : Sys α) (t : Nat) (elem : α) :
    (s.q.count = s.q.size ∧ (do_push s t elem).pcs = s.pcs.set t (.in_push elem) ∧
      (do_push s t elem).pushed = s.pushed ∧ (do_push s t elem).popped = s.popped) ∨
    (s.q.count ≠ s.q.size ∧ (do_push s t elem).pcs = s.pcs.set t .idle ∧
      (do_push s t elem).pushed = s.pushed ++ [(t, elem)] ∧
      (do_push s t elem).popped = s.popped) := by
  by_cases hc : s.q.count = s.q.size
  · left
    simp [do_push, queue_push_locked, hc]
  · right
    simp [do_push, queue_push_locked, hc]

/-- The two ways `do_pop` can go. -/
theorem do_pop_cases {α : Type} (s : Sys α) (t : Nat) (old : α) :
    (s.q.count = 0 ∧ (do_pop s t old).pcs = s.pcs.set t .in_pop ∧
      (do_pop s t old).pushed = s.pushed ∧ (do_pop s t old).popped = s.popped) ∨
    (s.q.count ≠ 0 ∧ (do_pop s t old).pcs = s.pcs.set t .idle ∧
      (do_pop s t old).pushed = s.pushed ∧
      ∃ v, (do_pop s t old).popped = s.popped ++ [(t, v)]) := by
  by_cases hc : s.q.count = 0
  · left
    simp [do_pop, queue_pop_locked, hc]
  · right
    simp [do_pop, queue_pop_locked, hc]

/-- Every step is one of: thread `u`, at `pc`, ran `do_push` or `do_pop`. -/
theorem step_cases {α : Type} {old : α} {s s1 : Sys α} {e : Ev α}
    (h : step old s e = some s1) :
    ∃ pc, s.pcs[e.thread]? = some pc ∧
      ((∃ elem, s1 = do_push s e.thread elem ∧ (pc = .idle ∨ pc = .in_push elem)) ∨
       (s1 = do_pop s e.thread old ∧ (pc = .idle ∨ pc = .in_pop))) := by
  cases e with
  | push t elem =>
    simp only [step] at h
    split at h
    · rename_i hpc
      cases h
      exact ⟨_, hpc, Or.inl ⟨elem, rfl, Or.inl rfl⟩⟩
    · cases h
  | pop t =>
    simp only [step] at h
    split at h
    · rename_i hpc
      cases h
      exact ⟨_, hpc, Or.inr ⟨rfl, Or.inl rfl⟩⟩
    · cases h
  | wake t =>
    simp only [step] at h
    split at h
    · rename_i elem hpc
      cases h
      exact ⟨_, hpc, Or.inl ⟨elem, rfl, Or.inr rfl⟩⟩
    · rename_i hpc
      cases h
      exact ⟨_, hpc, Or.inr ⟨rfl, Or.inr rfl⟩⟩
    · cases h

/-- While thread `t` sleeps in `queue_pop`, it stays there until a removal is
logged; while it sleeps in `queue_push`, until an insertion is logged. -/
theorem sleeper_step {α : Type} {old : α} {s s1 : Sys α} {e : Ev α} (t : Nat) (L : Nat)
    (h : step old s e = some s1) :
    ((s.pcs[t]? = some .in_pop ∧ L ≤ s.popped.length) ∨ L < s.popped.length →
      (s1.pcs[t]? = some .in_pop ∧ L ≤ s1.popped.length) ∨ L < s1.popped.length) ∧
    (∀ x, (s.pcs[t]? = some (.in_push x) ∧ L ≤ s.pushed.length) ∨ L < s.pushed.length →
      (s1.pcs[t]? = some (.in_push x) ∧ L ≤ s1.pushed.length) ∨ L < s1.pushed.length) := by
  obtain ⟨pc, hpc, hcase⟩ := step_cases h
  have hlt : e.thread < s.pcs.length := by
    by_contra hge
    rw [List.getElem?_eq_none (by omega)] at hpc
    cases hpc
  rcases hcase with ⟨elem, rfl, hpc1⟩ | ⟨rfl, hpc1⟩
  · rcases do_push_cases s e.thread elem with ⟨_, h1, h2, h3⟩ | ⟨_, h1, h2, h3⟩
    · rw [h1, h2, h3]
      refine ⟨?_, ?_⟩
      · rintro (⟨ht, hL⟩ | hL)
        · left
          refine ⟨?_, hL⟩
          rw [List.getElem?_set]
          split
          · rename_i heq
            rw [heq, ht] at hpc
            rcases hpc1 with rfl | rfl <;> cases hpc
          · exact ht
        · exact Or.inr hL
      · rintro x (⟨ht, hL⟩ | hL)
        · left
          refine ⟨?_, hL⟩
          rw [List.getElem?_set]
          split
          · rename_i heq
            rw [heq, ht] at hpc
            rcases hpc1 with rfl | rfl
            · cases hpc
            · simp only [Option.some.injEq, Pc.in_push.injEq] at hpc
              simp [hlt, hpc]
          · exact ht
        · exact Or.inr hL
    · rw [h1, h2, h3]
      refine ⟨?_, ?_⟩
      · rintro (⟨ht, hL⟩ | hL)
        · left
          refine ⟨?_, hL⟩
          rw [List.getElem?_set]
          split
          · rename_i heq
            rw [heq, ht] at hpc
            rcases hpc1 with rfl | rfl <;> cases hpc
          · exact ht
        · exact Or.inr hL
      · rintro x (⟨_, hL⟩ | hL)
        · right
          simp only [List.length_append, List.length_singleton]
          omega
        · right
          simp only [List.length_append, List.length_singleton]
          omega
  · rcases do_pop_cases s e.thread old with ⟨_, h1, h2, h3⟩ | ⟨_, h1, h2, v, h3⟩
    · rw [h1, h2, h3]
      refine ⟨?_, ?_⟩
      · rintro (⟨ht, hL⟩ | hL)
        · left
          refine ⟨?_, hL⟩
          rw [List.getElem?_set]
          split
          · simp [hlt]
          · exact ht
        · exact Or.inr hL
      · rintro x (⟨ht, hL⟩ | hL)
        · left
          refine ⟨?_, hL⟩
          rw [List.getElem?_set]
          split
          · rename_i heq
            rw [heq, ht] at hpc
            rcases hpc1 with rfl | rfl <;> cases hpc
          · exact ht
        · exact Or.inr hL
    · rw [h1, h2, h3]
      refine ⟨?_, ?_⟩
      · rintro (⟨_, hL⟩ | hL)
        · right
          simp only [List.length_append, List.length_singleton]
          omega
        · right
          simp only [List.length_append, List.length_singleton]
          omega
      · rintro x (⟨ht, hL⟩ | hL)
        · left
          refine ⟨?_, hL⟩
          rw [List.getElem?_set]
          split
          · rename_i heq
            rw [heq, ht] at hpc
            rcases hpc1 with rfl | rfl <;> cases hpc
          · exact ht
        · exact Or.inr hL

theorem sleeper_run {α : Type} {old : α} (t : Nat) (L : Nat) (evs : List (Ev α)) :
    ∀ {s s1 : Sys α}, run old s evs = some s1 →
    ((s.pcs[t]? = some .in_pop ∧ L ≤ s.popped.length) ∨ L < s.popped.length →
      (s1.pcs[t]? = some .in_pop ∧ L ≤ s1.popped.length) ∨ L < s1.popped.length) ∧
    (∀ x, (s.pcs[t]? = some (.in_push x) ∧ L ≤ s.pushed.length) ∨ L < s.pushed.length →
      (s1.pcs[t]? = some (.in_push x) ∧ L ≤ s1.pushed.length) ∨ L < s1.pushed.length) := by
  induction evs with
  | nil =>
    intro s s1 h
    simp only [run, Option.some.injEq] at h
    subst h
    exact ⟨id, fun _ => id⟩
  | cons e es ih =>
    intro s s1 h
    simp only [run] at h
    split at h
    · cases h
    · rename_i s2 hs
      have h1 := sleeper_step t L hs
      have h2 := ih h
      exact ⟨fun hp => h2.1 (h1.1 hp), fun x hp => h2.2 x (h1.2 x hp)⟩

/-- C4: in a reachable state, a step that logs a removal starts from
count > 0 and a step that logs an insertion starts from count < size.  Hence
a `queue_pop` begun by thread `t` on an empty queue has returned (`t` is
outside the call again) only in states where a push has stored a payload since
the pop began, and a `queue_push` begun on a full queue has returned only in
states where a pop has removed a payload since. -/
theorem queue_blocking {α : Type} (old : α) (C : Int) (n : Nat) (s : Sys α)
    (h : Reachable old C n s) :
    (∀ e s1, step old s e = some s1 →
      (s1.popped ≠ s.popped → 0 < s.q.count) ∧
      (s1.pushed ≠ s.pushed → s.q.count < s.q.size)) ∧
    (∀ t evs s2, s.q.count = 0 → run old s (.pop t :: evs) = some s2 →
      s2.pcs[t]? = some .idle → s.pushed.length < s2.pushed.length) ∧
    (∀ t elem evs s2, s.q.count = s.q.size → run old s (.push t elem :: evs) = some s2 →
      s2.pcs[t]? = some .idle → s.popped.length < s2.popped.length) := by
  have hi := inv_reachable h
  have hlen := inv_lengths hi
  refine ⟨?_, ?_, ?_⟩
  · intro e s1 hs
    obtain ⟨pc, _, hcase⟩ := step_cases hs
    have hc0 := hi.ring.count_lo
    have hc1 := hi.ring.count_hi
    have hsz := hi.ring.size_eq
    rcases hcase with ⟨elem, rfl, _⟩ | ⟨rfl, _⟩
    · rcases do_push_cases s e.thread elem with ⟨_, _, h2, h3⟩ | ⟨hne, _, _, h3⟩
      · exact ⟨fun hp => absurd h3 hp, fun hp => absurd h2 hp⟩
      · exact ⟨fun hp => absurd h3 hp, fun _ => by omega⟩
    · rcases do_pop_cases s e.thread old with ⟨_, _, h2, h3⟩ | ⟨hne, _, h2, _⟩
      · exact ⟨fun hp => absurd h3 hp, fun hp => absurd h2 hp⟩
      · exact ⟨fun _ => by omega, fun hp => absurd h2 hp⟩
  · intro t evs s2 hc hrun hidle
    simp only [run] at hrun
    split at hrun
    · cases hrun
    · rename_i s1 hs
      have hi2 := inv_run evs (inv_step hi hs) hrun
      have hlen2 := inv_lengths hi2
      have hc2 := hi2.ring.count_lo
      obtain ⟨pc, hpc, hcase⟩ := step_cases hs
      have hlt : t < s.pcs.length := by
        by_contra hge
        rw [Ev.thread, List.getElem?_eq_none (by omega)] at hpc
        cases hpc
      have hs1 : s1.pcs[t]? = some .in_pop ∧ s1.popped = s.popped := by
        rcases hcase with ⟨elem, _, hpc1⟩ | ⟨rfl, _⟩
        · simp only [step] at hs
          split at hs <;> cases hs
          rcases do_pop_cases s t old with ⟨_, h1, _, h3⟩ | ⟨hne, _⟩
          · exact ⟨by rw [h1]; simp [hlt], h3⟩
          · exact absurd hc hne
        · rcases do_pop_cases s t old with ⟨_, h1, _, h3⟩ | ⟨hne, _⟩
          · exact ⟨by rw [Ev.thread, h1]; simp [hlt], by rw [Ev.thread, h3]⟩
          · exact absurd hc hne
      have hsl := (sleeper_run t s.popped.length evs hrun).1
        (Or.inl ⟨hs1.1, by rw [hs1.2]⟩)
      rcases hsl with ⟨hp, _⟩ | hL
      · rw [hidle] at hp
        cases hp
      · omega
  · intro t elem evs s2 hc hrun hidle
    simp only [run] at hrun
    split at hrun
    · cases hrun
    · rename_i s1 hs
      obtain ⟨pc, hpc, hcase⟩ := step_cases hs
      have hlt : t < s.pcs.length := by
        by_contra hge
        rw [Ev.thread, List.getElem?_eq_none (by omega)] at hpc
        cases hpc
      have hs1 : s1.pcs[t]? = some (.in_push elem) ∧ s1.pushed = s.pushed ∧
          s1.popped = s.popped := by
        simp only [step] at hs
        split at hs
        · cases hs
          rcases do_push_cases s t elem with ⟨_, h1, h2, h3⟩ | ⟨hne, _⟩
          · exact ⟨by rw [h1]; simp [hlt], h2, h3⟩
          · exact absurd hc hne
        · cases hs
      have hi2 := inv_run evs (inv_step hi hs) hrun
      have hlen2 := inv_lengths hi2
      have hc2 := hi2.ring.count_hi
      have hsz := hi.ring.size_eq
      have hsl := (sleeper_run t s.pushed.length evs hrun).2 elem
        (Or.inl ⟨hs1.1, by rw [hs1.2.1]⟩)
      rcases hsl with ⟨hp, _⟩ | hL
      · rw [hidle] at hp
        cases hp
      · omega

/-- Scenario S1 from the point where the capacity-1 queue holds `0xB`: whatever
the schedule, thread 0's `push(0xC)` has returned only in states where a
second pop has completed; and in the schedule push (sleeps), pop, wake, pop the
pops return `0xB` and then `0xC`. -/
theorem queue_blocking_witness :
    Reachable 0 1 2 s1_holding_B ∧ s1_holding_B.q.count = s1_holding_B.q.size ∧
    (∀ evs s2, run 0 s1_holding_B (.push 0 0xC :: evs) = some s2 →
      s2.pcs[0]? = some .idle → s1_holding_B.popped.length < s2.popped.length) ∧
    (run 0 s1_holding_B [.push 0 0xC, .pop 1, .wake 0, .pop 1]).map
      (fun s => payloads s.popped) = some [0xA, 0xB, 0xC] :=
  ⟨reachable_s1_holding_B, by decide,
   fun evs s2 h1 h2 =>
     (queue_blocking 0 1 2 s1_holding_B reachable_s1_holding_B).2.2 0 0xC evs s2
       (by decide) h1 h2,
   by decide⟩

/-! ## Conservation -/

theorem zip_attribution {α : Type} (p : Nat) (a : List (Nat × α)) :
    ∀ b : List (Nat × α), payloads b = payloads a →
      ((List.zip a b).filter (fun x => decide (x.1.1 = p))).map (fun x => x.2.2) =
        payloads (a.filter (fun e => decide (e.1 = p))) := by
  induction a with
  | nil =>
    intro b _
    simp [payloads]
  | cons x xs ih =>
    intro b hb
    cases b with
    | nil => simp [payloads] at hb
    | cons y ys =>
      simp only [payloads, List.map_cons, List.cons.injEq] at hb
      have h := ih ys hb.2
      simp only [List.zip_cons_cons, List.filter_cons]
      by_cases hx : x.1 = p
      · simp only [hx, decide_True, if_true, List.map_cons, payloads]
        rw [h, hb.1]
        rfl
      · simp only [hx, decide_False, Bool.false_eq_true, if_false]
        exact h

/-- C11: in every state reachable from `queue_new(C)`, whatever the number of
producer and consumer threads and the interleaving, in which the queue is
drained (count = 0): the payloads popped, in pop order, are the payloads
pushed, in push order, so the two multisets are equal; and for each producer
`p` the payloads it pushed form, in the order it pushed them, a subsequence of
the popped sequence, namely the one popped at the positions of its pushes. -/
theorem queue_conservation {α : Type} (old : α) (C : Int) (n : Nat) (s : Sys α)
    (h : Reachable old C n s) (hd : s.q.count = 0) :
    payloads s.popped = payloads s.pushed ∧
    (payloads s.popped : Multiset α) = (payloads s.pushed : Multiset α) ∧
    ∀ p : Nat, popped_from s p = pushed_by s p ∧
      List.Sublist (pushed_by s p) (payloads s.popped) := by
  have hi := inv_reachable h
  have hf := hi.fifo
  have hl : live s.q = [] := by simp [live, hd]
  rw [hl, List.append_nil] at hf
  have heq : payloads s.popped = payloads s.pushed :=
    (List.map_injective_iff.mpr (Option.some_injective α) hf).symm
  refine ⟨heq, by rw [heq], fun p => ⟨zip_attribution p s.pushed s.popped heq, ?_⟩⟩
  rw [heq]
  exact List.Sublist.map _ (List.filter_sublist _)

set_option maxRecDepth 100000

theorem reachable_s2_final : Reachable 0 4 11 s2_final :=
  ⟨fun _ => 0, fresh 4, s2_schedule, by decide, by decide⟩

/-- Scenario S2: capacity 4, producers 0 .. 7 push 1 .. 100 round-robin (in each
round four of them find the queue full and sleep), consumers 8, 9, 10 pop until
the queue is drained: the pops return 1 .. 100 and producer 2's payloads come
out in the order 3, 11, 19, ... -/
theorem queue_conservation_witness :
    Reachable 0 4 11 s2_final ∧ s2_final.q.count = 0 ∧
    payloads s2_final.popped = List.range' 1 100 ∧
    pushed_by s2_final 2 = (List.range 13).map (fun i => 8 * i + 3) ∧
    (payloads s2_final.popped = payloads s2_final.pushed ∧
      (payloads s2_final.popped : Multiset Nat) = (payloads s2_final.pushed : Multiset Nat) ∧
      ∀ p : Nat, popped_from s2_final p = pushed_by s2_final p ∧
        List.Sublist (pushed_by s2_final p) (payloads s2_final.popped)) :=
  ⟨reachable_s2_final, by decide, by decide, by decide,
   queue_conservation 0 4 11 s2_final reachable_s2_final (by decide)⟩

/-! ## Live slots -/

theorem live_eq_slots {α : Type} (q : queue α) :
    live q = (live_slots q).map (fun (j : Nat) => q.buffer[j]?) := by
  simp [live, live_slots, List.map_map, Function.comp_def]

/-- The slot a push writes is outside the live range, and the live range grows
by that slot at its end. -/
theorem slots_push {α : Type} {C : Int} {q q1 : queue α} {elem : α} (hr : Ring C q)
    (h : queue_push_locked q elem = some q1) :
    q1.buffer = q.buffer.set q.tail.toNat elem ∧ q.tail.toNat ∉ live_slots q ∧
      live_slots q1 = live_slots q ++ [q.tail.toNat] := by
  obtain ⟨hs, hC, hl, hh0, hh1, ht0, ht1, hc0, hc1, ht⟩ := hr
  unfold queue_push_locked at h
  split at h
  · simp at h
  · rename_i hne
    simp only [Option.some.injEq] at h
    subst h
    have hlt : q.count < C := by omega
    refine ⟨rfl, ?_, ?_⟩
    · intro hmem
      simp only [live_slots, List.mem_map, List.mem_range] at hmem
      obtain ⟨i, hi, hidx⟩ := hmem
      have h1 : (q.head + q.count) % C ≠ (q.head + (i : Int)) % C := by
        rw [Ne, Int.emod_eq_emod_iff_emod_sub_eq_zero]
        have h2 : q.head + q.count - (q.head + (i : Int)) = q.count - (i : Int) := by ring
        rw [h2, Int.emod_eq_of_lt (by omega) (by omega)]
        omega
      have h3 := Int.emod_nonneg (q.head + (i : Int)) (show C ≠ 0 by omega)
      rw [hs] at hidx
      omega
    · unfold live_slots
      have hcn : (q.count + 1).toNat = q.count.toNat + 1 := by omega
      simp only [hcn, List.range_succ, List.map_append, List.map_cons, List.map_nil]
      congr 2
      have : ((q.count.toNat : Nat) : Int) = q.count := by omega
      rw [this, hs, ← ht]

/-- A pop removes the slot `head` from the front of the live range. -/
theorem slots_pop {α : Type} {C : Int} {q q1 : queue α} {old v : α} (hr : Ring C q)
    (h : queue_pop_locked q old = some (v, q1)) :
    live_slots q = q.head.toNat :: live_slots q1 := by
  obtain ⟨hs, hC, hl, hh0, hh1, ht0, ht1, hc0, hc1, ht⟩ := hr
  unfold queue_pop_locked at h
  split at h
  · simp at h
  · rename_i hne
    simp only [Option.some.injEq, Prod.mk.injEq] at h
    obtain ⟨hv, hq⟩ := h
    subst hq
    have hhm : Int.tmod (q.head + 1) q.size = (q.head + 1) % C := by
      rw [Int.tmod_eq_emod (by omega) (by omega), hs]
    unfold live_slots
    have hcn : q.count.toNat = (q.count - 1).toNat + 1 := by omega
    rw [hcn, List.range_succ_eq_map]
    simp only [List.map_cons, List.map_map]
    congr 1
    · rw [hs]
      simp only [Nat.cast_zero, add_zero]
      rw [Int.emod_eq_of_lt hh0 hh1]
    · apply List.map_congr_left
      intro i _
      show ((q.head + ((Nat.succ i : Nat) : Int)) % q.size).toNat =
        ((Int.tmod (q.head + 1) q.size + (i : Int)) % q.size).toNat
      rw [hhm, hs, Int.emod_add_emod]
      congr 2
      push_cast
      ring

/-- C22: in every state reachable from `queue_new(C)`: `0 <= head < C`,
`0 <= tail < C` and `tail = (head + count) mod C`; the slots
`head, ..., head+count-1` (mod C) hold, in that order, exactly the payloads
pushed and not yet popped; an insertion writes only slot `tail`, which is
outside the live range, and changes neither `head` nor any live slot; a
removal changes neither `tail` nor any slot, and the remaining live slots are
the old ones without `head`; every step leaves the queue alone or is such an
insertion or removal. -/
theorem queue_ring_invariant {α : Type} (old : α) (C : Int) (n : Nat) (s : Sys α)
    (h : Reachable old C n s) :
    (0 ≤ s.q.head ∧ s.q.head < C ∧ 0 ≤ s.q.tail ∧ s.q.tail < C ∧
      s.q.tail = (s.q.head + s.q.count) % C) ∧
    ((live_slots s.q).map (fun (j : Nat) => s.q.buffer[j]?) =
      ((payloads s.pushed).drop s.popped.length).map some) ∧
    (∀ (elem : α) (q1 : queue α), queue_push_locked s.q elem = some q1 →
      q1.head = s.q.head ∧ s.q.tail.toNat ∉ live_slots s.q ∧
      q1.buffer[s.q.tail.toNat]? = some elem ∧
      (∀ j : Nat, j ≠ s.q.tail.toNat → q1.buffer[j]? = s.q.buffer[j]?) ∧
      (∀ j ∈ live_slots s.q, q1.buffer[j]? = s.q.buffer[j]?) ∧
      live_slots q1 = live_slots s.q ++ [s.q.tail.toNat]) ∧
    (∀ (v : α) (q1 : queue α), queue_pop_locked s.q old = some (v, q1) →
      q1.tail = s.q.tail ∧ q1.buffer = s.q.buffer ∧
      live_slots s.q = s.q.head.toNat :: live_slots q1) ∧
    (∀ (e : Ev α) (s1 : Sys α), step old s e = some s1 →
      s1.q = s.q ∨ (∃ elem, queue_push_locked s.q elem = some s1.q) ∨
      (∃ v, queue_pop_locked s.q old = some (v, s1.q))) := by
  have hi := inv_reachable h
  have hr := hi.ring
  refine ⟨⟨hr.head_lo, hr.head_hi, hr.tail_lo, hr.tail_hi, hr.tail_eq⟩, ?_, ?_, ?_, ?_⟩
  · rw [← live_eq_slots]
    have hf := congrArg (List.drop (payloads s.popped).length) hi.fifo
    have hlen : (payloads s.popped).length = (List.map some (payloads s.popped)).length := by
      simp
    rw [hlen, List.drop_left] at hf
    rw [← hf, List.length_map, List.map_drop]
    simp [payloads]
  · intro elem q1 hq
    obtain ⟨_, _, _, hh, _⟩ := ring_push hr hq
    obtain ⟨hb, hout, hsl⟩ := slots_push hr hq
    have hlt : s.q.tail.toNat < s.q.buffer.length := by
      have := hr.len
      have := hr.tail_lo
      have := hr.tail_hi
      omega
    refine ⟨hh, hout, ?_, ?_, ?_, hsl⟩
    · rw [hb, List.getElem?_set]
      simp [hlt]
    · intro j hj
      rw [hb, List.getElem?_set]
      simp [Ne.symm hj]
    · intro j hj
      have hne : s.q.tail.toNat ≠ j := fun he => hout (he ▸ hj)
      rw [hb, List.getElem?_set]
      simp [hne]
  · intro v q1 hq
    obtain ⟨_, _, _, ht, hb, _⟩ := ring_pop hr hq
    exact ⟨ht, hb, slots_pop hr hq⟩
  · intro e s1 hs
    obtain ⟨pc, _, hcase⟩ := step_cases hs
    rcases hcase with ⟨elem, h1, _⟩ | ⟨h1, _⟩
    · subst h1
      unfold do_push
      split
      · exact Or.inl rfl
      · rename_i q1 hq
        exact Or.inr (Or.inl ⟨elem, hq⟩)
    · subst h1
      unfold do_pop
      split
      · exact Or.inl rfl
      · rename_i v q1 hq
        exact Or.inr (Or.inr ⟨v, hq⟩)

theorem queue_ring_invariant_witness :
    Reachable 0 3 2 ring_mid ∧
    queue_push_locked ring_mid.q 4 =
      some { buffer := [4, 2, 3], size := 3, head := 1, tail := 1, count := 3 } ∧
    live_slots ring_mid.q = [1, 2] ∧
    ring_mid.q.tail.toNat ∉ live_slots ring_mid.q :=
  have hreach : Reachable 0 3 2 ring_mid :=
    ⟨fun _ => 0, fresh 3, [.push 0 1, .push 0 2, .pop 1, .push 0 3], by decide, by decide⟩
  ⟨hreach, by decide, by decide,
   ((queue_ring_invariant 0 3 2 ring_mid hreach).2.2.1 4
     { buffer := [4, 2, 3], size := 3, head := 1, tail := 1, count := 3 } (by decide)).2.1⟩

end Queue

/-! # Theorems: reader/writer lock -/

namespace RWLock

set_option linter.unnecessarySeqFocus false
set_option linter.unusedTactic false

/-! ## Counting threads -/

theorem count_pos_of_get {pcs : List Pc} {t : Nat} {a : Pc} (h : pcs[t]? = some a) :
    1 ≤ pcs.count a :=
  List.count_pos_iff.mpr (List.getElem?_mem h)

theorem lt_of_get {pcs : List Pc} {t : Nat} {a : Pc} (h : pcs[t]? = some a) :
    t < pcs.length := by
  by_contra hge
  rw [List.getElem?_eq_none (by omega)] at h
  cases h

theorem count_set_pc {pcs : List Pc} {t : Nat} {a : Pc} (b : Pc) (h : pcs[t]? = some a)
    (c : Pc) :
    (pcs.set t b).count c =
      pcs.count c + (if b = c then 1 else 0) - (if a = c then 1 else 0) := by
  have hlt := lt_of_get h
  have hget : pcs[t] = a := by
    rw [List.getElem?_eq_getElem hlt] at h
    exact Option.some.inj h
  have hpos := count_pos_of_get h
  rw [List.count_set _ _ _ _ hlt, hget]
  simp only [beq_iff_eq]
  by_cases hac : a = c
  · subst hac
    simp only [if_true]
    omega
  · simp only [hac, if_false]
    omega

theorem count_wake_all (pcs : List Pc) (c : Pc) :
    (wake_all pcs).count c =
      if c = .r_blocked then 0
      else if c = .r_woken then pcs.count .r_blocked + pcs.count .r_woken
      else pcs.count c := by
  induction pcs with
  | nil => simp [wake_all]
  | cons x xs ih =>
    simp only [wake_all, List.map_cons] at ih ⊢
    rw [List.count_cons, ih]
    cases x <;> cases c <;> simp [List.count_cons] <;> omega

theorem count_wake_one (pcs : List Pc) (pick : Nat) (c : Pc) :
    (wake_one pcs pick).count c =
      if pcs.count .w_blocked = 0 then pcs.count c
      else pcs.count c + (if Pc.w_woken = c then 1 else 0) -
        (if Pc.w_blocked = c then 1 else 0) := by
  unfold wake_one
  split
  · rename_i h
    have hpos := count_pos_of_get h
    rw [count_set_pc _ h]
    simp [show pcs.count .w_blocked ≠ 0 by omega]
  · by_cases hm : Pc.w_blocked ∈ pcs
    · have hidx : pcs.indexOf Pc.w_blocked < pcs.length := List.indexOf_lt_length.mpr hm
      have hget : pcs[pcs.indexOf Pc.w_blocked]? = some Pc.w_blocked := by
        rw [List.getElem?_eq_getElem hidx]
        simp
      have hpos := count_pos_of_get hget
      rw [count_set_pc _ hget]
      simp [show pcs.count .w_blocked ≠ 0 by omega]
    · have h0 : pcs.count .w_blocked = 0 := List.count_eq_zero.mpr hm
      have hidx : pcs.length ≤ pcs.indexOf Pc.w_blocked := by
        rw [List.indexOf_eq_length.mpr hm]
      rw [List.set_eq_of_length_le hidx]
      simp [h0]

/-! ## What each section does to the fields -/

theorem reader_admit_fields (rw : rwlock) :
    (reader_lock_acquire rw).active_readers = rw.active_readers + 1 ∧
    (reader_lock_acquire rw).active_writers = rw.active_writers ∧
    (reader_lock_acquire rw).waiting_readers = rw.waiting_readers - 1 ∧
    (reader_lock_acquire rw).waiting_writers = rw.waiting_writers ∧
    (reader_lock_acquire rw).priority = rw.priority ∧
    (reader_lock_acquire rw).n_way = rw.n_way ∧
    (reader_lock_acquire rw).batch_active = rw.batch_active ∧
    (reader_lock_acquire rw).batch_limit = rw.batch_limit ∧
    (reader_lock_acquire rw).current_batch_readers =
      (if rw.priority = .N_WAY ∧ rw.batch_active = true then rw.current_batch_readers + 1
       else rw.current_batch_readers) := by
  unfold reader_lock_acquire
  dsimp only
  split_ifs <;> simp

theorem writer_admit_fields (rw : rwlock) :
    (writer_lock_acquire rw).active_readers = rw.active_readers ∧
    (writer_lock_acquire rw).active_writers = 1 ∧
    (writer_lock_acquire rw).waiting_readers = rw.waiting_readers ∧
    (writer_lock_acquire rw).waiting_writers = rw.waiting_writers - 1 ∧
    (writer_lock_acquire rw).priority = rw.priority ∧
    (writer_lock_acquire rw).n_way = rw.n_way ∧
    (writer_lock_acquire rw).batch_active =
      (if rw.priority = .N_WAY then false else rw.batch_active) ∧
    (writer_lock_acquire rw).batch_limit =
      (if rw.priority = .N_WAY then 0 else rw.batch_limit) ∧
    (writer_lock_acquire rw).current_batch_readers =
      (if rw.priority = .N_WAY then 0 else rw.current_batch_readers) := by
  unfold writer_lock_acquire
  dsimp only
  split_ifs <;> simp

theorem reader_unlock_fields (rw : rwlock) :
    (reader_unlock rw).1 = { rw with active_readers := rw.active_readers - 1 } ∧
    (reader_unlock rw).2 =
      (if rw.active_readers - 1 = 0 ∧ rw.waiting_writers > 0 then Notify.signal_writers
       else Notify.nothing) := by
  unfold reader_unlock
  dsimp only
  split_ifs <;> simp

theorem writer_unlock_frame (rw : rwlock) :
    (writer_unlock rw).1.active_readers = rw.active_readers ∧
    (writer_unlock rw).1.active_writers = 0 ∧
    (writer_unlock rw).1.waiting_readers = rw.waiting_readers ∧
    (writer_unlock rw).1.waiting_writers = rw.waiting_writers ∧
    (writer_unlock rw).1.priority = rw.priority ∧
    (writer_unlock rw).1.n_way = rw.n_way := by
  unfold writer_unlock
  simp only
  split_ifs <;> simp

theorem reader_wait_false {rw : rwlock} (h : ¬ reader_must_wait rw = true) :
    rw.active_writers ≤ 0 := by
  unfold reader_must_wait at h
  split_ifs at h <;> simp at h <;> omega

theorem writer_wait_false {rw : rwlock} (h : ¬ writer_must_wait rw = true) :
    rw.active_writers ≤ 0 ∧ rw.active_readers ≤ 0 := by
  unfold writer_must_wait at h
  simp at h
  omega

/-! ## The counter invariant -/

theorem counts_init (p : PRIORITY) (n : Int) (k : Nat) (rw : rwlock)
    (h : rwlock_new p n true = some rw) : Counts p n (init rw k) := by
  simp only [rwlock_new, if_false, Bool.true_eq_false, Option.some.injEq] at h
  subst h
  constructor <;> simp [init, List.count_replicate]

theorem counts_step {p : PRIORITY} {n : Int} {s s1 : Sys} {e : Ev} (hi : Counts p n s)
    (h : step s e = some s1) : Counts p n s1 := by
  obtain ⟨hp, hw, har, haw, hwr, hww, h1, hx⟩ := hi
  cases e with
  | reader_lock t =>
    simp only [step] at h
    split at h
    · rename_i hpc
      cases h
      have hpos := count_pos_of_get hpc
      unfold reader_try
      split
      · constructor <;> simp only [count_set_pc _ hpc, reader_lock_enter] <;>
          first | assumption | omega | (simp <;> (try split_ifs) <;> omega)
      · rename_i hnw
        have ha := reader_wait_false hnw
        simp only [reader_lock_enter] at ha
        obtain ⟨f1, f2, f3, f4, f5, f6, -, -, -⟩ := reader_admit_fields (reader_lock_enter s.rw)
        constructor <;> simp only [count_set_pc _ hpc, count_wake_one, count_wake_all, deliver,
          f1, f2, f3, f4, f5, f6] <;>
        (try simp only [reader_lock_enter, writer_lock_enter]) <;>
        first | assumption | omega | (simp <;> (try split_ifs) <;> omega)
    · cases h
  | writer_lock t =>
    simp only [step] at h
    split at h
    · rename_i hpc
      cases h
      have hpos := count_pos_of_get hpc
      unfold writer_try
      split
      · constructor <;> simp only [count_set_pc _ hpc, writer_lock_enter] <;>
          first | assumption | omega | (simp <;> (try split_ifs) <;> omega)
      · rename_i hnw
        have ha := writer_wait_false hnw
        simp only [writer_lock_enter] at ha
        obtain ⟨f1, f2, f3, f4, f5, f6, -, -, -⟩ := writer_admit_fields (writer_lock_enter s.rw)
        constructor <;> simp only [count_set_pc _ hpc, count_wake_one, count_wake_all, deliver,
          f1, f2, f3, f4, f5, f6] <;>
        (try simp only [reader_lock_enter, writer_lock_enter]) <;>
        first | assumption | omega | (simp <;> (try split_ifs) <;> omega)
    · cases h
  | resume t =>
    simp only [step] at h
    split at h
    · rename_i hpc
      cases h
      have hpos := count_pos_of_get hpc
      unfold reader_try
      split
      · constructor <;> simp only [count_set_pc _ hpc] <;>
          first | assumption | omega | (simp <;> (try split_ifs) <;> omega)
      · rename_i hnw
        have ha := reader_wait_false hnw
        obtain ⟨f1, f2, f3, f4, f5, f6, -, -, -⟩ := reader_admit_fields s.rw
        constructor <;> simp only [count_set_pc _ hpc, count_wake_one, count_wake_all, deliver,
          f1, f2, f3, f4, f5, f6] <;>
        (try simp only [reader_lock_enter, writer_lock_enter]) <;>
        first | assumption | omega | (simp <;> (try split_ifs) <;> omega)
    · rename_i hpc
      cases h
      have hpos := count_pos_of_get hpc
      unfold writer_try
      split
      · constructor <;> simp only [count_set_pc _ hpc] <;>
          first | assumption | omega | (simp <;> (try split_ifs) <;> omega)
      · rename_i hnw
        have ha := writer_wait_false hnw
        obtain ⟨f1, f2, f3, f4, f5, f6, -, -, -⟩ := writer_admit_fields s.rw
        constructor <;> simp only [count_set_pc _ hpc, count_wake_one, count_wake_all, deliver,
          f1, f2, f3, f4, f5, f6] <;>
        (try simp only [reader_lock_enter, writer_lock_enter]) <;>
        first | assumption | omega | (simp <;> (try split_ifs) <;> omega)
    · cases h
  | spurious t =>
    simp only [step] at h
    split at h
    · rename_i hpc
      cases h
      have hpos := count_pos_of_get hpc
      constructor <;> simp only [count_set_pc _ hpc] <;>
        first | assumption | omega | (simp <;> (try split_ifs) <;> omega)
    · rename_i hpc
      cases h
      have hpos := count_pos_of_get hpc
      constructor <;> simp only [count_set_pc _ hpc] <;>
        first | assumption | omega | (simp <;> (try split_ifs) <;> omega)
    · cases h
  | reader_unlock t pick =>
    simp only [step] at h
    split at h
    · rename_i hpc
      cases h
      have hpos := count_pos_of_get hpc
      obtain ⟨g1, g2⟩ := reader_unlock_fields s.rw
      rw [g1, g2]
      by_cases hc : s.rw.active_readers - 1 = 0 ∧ s.rw.waiting_writers > 0
      · rw [if_pos hc]
        constructor <;> dsimp only <;>
          (try simp only [count_set_pc _ hpc, count_wake_one, deliver]) <;>
          first | assumption | omega | (simp <;> (try split_ifs) <;> omega)
      · rw [if_neg hc]
        constructor <;> dsimp only <;>
          (try simp only [count_set_pc _ hpc, deliver]) <;>
          first | assumption | omega | (simp <;> (try split_ifs) <;> omega)
    · cases h
  | writer_unlock t pick =>
    simp only [step] at h
    split at h
    · rename_i hpc
      cases h
      have hpos := count_pos_of_get hpc
      obtain ⟨f1, f2, f3, f4, f5, f6⟩ := writer_unlock_frame s.rw
      constructor <;> dsimp only <;> cases (writer_unlock s.rw).2 <;> simp only [count_set_pc _ hpc, count_wake_one, count_wake_all, deliver,
          f1, f2, f3, f4, f5, f6] <;>
        (try simp only [reader_lock_enter, writer_lock_enter]) <;>
        first | assumption | omega | (simp <;> (try split_ifs) <;> omega)
    · cases h

theorem counts_run {p : PRIORITY} {n : Int} (evs : List Ev) :
    ∀ {s s1 : Sys}, Counts p n s → run s evs = some s1 → Counts p n s1 := by
  induction evs with
  | nil =>
    intro s s1 hi h
    simp only [run, Option.some.injEq] at h
    exact h ▸ hi
  | cons e es ih =>
    intro s s1 hi h
    simp only [run] at h
    split at h
    · cases h
    · rename_i s2 hs
      exact ih (counts_step hi hs) h

theorem counts_reachable {p : PRIORITY} {n : Int} {k : Nat} {s : Sys}
    (h : Reachable p n k s) : Counts p n s := by
  obtain ⟨rw, evs, hrw, hrun⟩ := h
  exact counts_run evs (counts_init p n k rw hrw) hrun

/-! ## Schedules and admissions -/

theorem trace_cons {s : Sys} {e : Ev} {es : List Ev} {states : List Sys}
    (h : trace s (e :: es) = some states) :
    ∃ s1 rest, step s e = some s1 ∧ trace s1 es = some rest ∧ states = s :: rest := by
  simp only [trace] at h
  split at h
  · cases h
  · rename_i s1 hs
    cases hr : trace s1 es with
    | none => rw [hr] at h; cases h
    | some rest =>
      rw [hr] at h
      simp only [Option.map_some', Option.some.injEq] at h
      exact ⟨s1, rest, hs, hr, h.symm⟩

theorem trace_head {s : Sys} {evs : List Ev} {states : List Sys}
    (h : trace s evs = some states) : s ∈ states := by
  cases evs with
  | nil =>
    simp only [trace, Option.some.injEq] at h
    simp [← h]
  | cons e es =>
    obtain ⟨_, _, _, _, rfl⟩ := trace_cons h
    simp

theorem reader_wait_enter (rw : rwlock) :
    reader_must_wait (reader_lock_enter rw) = reader_must_wait rw := rfl

theorem writer_wait_enter (rw : rwlock) :
    writer_must_wait (writer_lock_enter rw) = writer_must_wait rw := rfl

/-- A notification never makes a thread a holder: what holds or is outside
after it did so before. -/
theorem deliver_get (nt : Notify) (pick : Nat) (pcs : List Pc) (u : Nat) (c : Pc)
    (h1 : c ≠ .r_woken) (h2 : c ≠ .w_woken) (h : (deliver nt pick pcs)[u]? = some c) :
    pcs[u]? = some c := by
  cases nt with
  | nothing => exact h
  | signal_writers =>
    simp only [deliver, wake_one] at h
    split at h
    · rw [List.getElem?_set] at h
      split at h
      · split at h
        · simp only [Option.some.injEq] at h
          exact absurd h.symm h2
        · cases h
      · exact h
    · rw [List.getElem?_set] at h
      split at h
      · split at h
        · simp only [Option.some.injEq] at h
          exact absurd h.symm h2
        · cases h
      · exact h
  | broadcast_readers =>
    simp only [deliver, wake_all, List.getElem?_map] at h
    cases hu : pcs[u]? with
    | none => rw [hu] at h; cases h
    | some x =>
      rw [hu] at h
      simp only [Option.map_some', Option.some.injEq] at h
      split at h
      · exact absurd h.symm h1
      · rw [h]

theorem set_get_ne {pcs : List Pc} {t u : Nat} {b c : Pc} (hbc : b ≠ c)
    (h : (pcs.set t b)[u]? = some c) : pcs[u]? = some c := by
  rw [List.getElem?_set] at h
  split at h
  · split at h
    · simp only [Option.some.injEq] at h
      exact absurd h hbc
    · cases h
  · exact h

/-- A step either admits no reader, and then no thread becomes a reading
holder, or it admits the reader that takes the step, whose loop test was
false in the state before. -/
theorem step_reader_admits {s s1 : Sys} {e : Ev} (h : step s e = some s1) :
    (s1.reader_admits = s.reader_admits ∧
      ∀ u : Nat, s1.pcs[u]? = some .r_holding → s.pcs[u]? = some .r_holding) ∨
    (s1.reader_admits = s.reader_admits + 1 ∧ reader_must_wait s.rw = false) := by
  cases e with
  | reader_lock t =>
    simp only [step] at h
    split at h
    · cases h
      unfold reader_try
      split
      · exact Or.inl ⟨rfl, fun u hu => set_get_ne (by decide) hu⟩
      · rename_i hnw
        exact Or.inr ⟨rfl, by simpa [reader_wait_enter] using hnw⟩
    · cases h
  | writer_lock t =>
    simp only [step] at h
    split at h
    · cases h
      unfold writer_try
      split
      · exact Or.inl ⟨rfl, fun u hu => set_get_ne (by decide) hu⟩
      · exact Or.inl ⟨rfl, fun u hu => set_get_ne (by decide) hu⟩
    · cases h
  | resume t =>
    simp only [step] at h
    split at h
    · cases h
      unfold reader_try
      split
      · exact Or.inl ⟨rfl, fun u hu => set_get_ne (by decide) hu⟩
      · rename_i hnw
        exact Or.inr ⟨rfl, by simpa using hnw⟩
    · cases h
      unfold writer_try
      split
      · exact Or.inl ⟨rfl, fun u hu => set_get_ne (by decide) hu⟩
      · exact Or.inl ⟨rfl, fun u hu => set_get_ne (by decide) hu⟩
    · cases h
  | spurious t =>
    simp only [step] at h
    split at h
    · cases h
      exact Or.inl ⟨rfl, fun u hu => set_get_ne (by decide) hu⟩
    · cases h
      exact Or.inl ⟨rfl, fun u hu => set_get_ne (by decide) hu⟩
    · cases h
  | reader_unlock t pick =>
    simp only [step] at h
    split at h
    · cases h
      exact Or.inl ⟨rfl, fun u hu =>
        set_get_ne (by decide) (deliver_get _ _ _ _ _ (by decide) (by decide) hu)⟩
    · cases h
  | writer_unlock t pick =>
    simp only [step] at h
    split at h
    · cases h
      exact Or.inl ⟨rfl, fun u hu =>
        set_get_ne (by decide) (deliver_get _ _ _ _ _ (by decide) (by decide) hu)⟩
    · cases h

/-! ## Pending wake-ups -/

theorem reader_free_iff (rw : rwlock) :
    reader_must_wait rw = false ↔
      rw.active_writers ≤ 0 ∧
      (rw.priority = .N_WAY → rw.batch_active = true →
        rw.current_batch_readers < rw.batch_limit) ∧
      (rw.priority = .WRITERS → rw.waiting_writers ≤ 0) := by
  unfold reader_must_wait
  cases hp : rw.priority <;> cases hb : rw.batch_active <;> simp



theorem writer_free_iff (rw : rwlock) :
    writer_must_wait rw = false ↔ rw.active_writers ≤ 0 ∧ rw.active_readers ≤ 0 := by
  unfold writer_must_wait
  simp

theorem reachable_s4 : Reachable .READERS 0 4 s4_state :=
  ⟨fresh .READERS 0, s4_schedule, rfl, by decide⟩

theorem reachable_s3 : Reachable .WRITERS 0 3 s3_state :=
  ⟨fresh .WRITERS 0, s3_schedule, rfl, by decide⟩

/-- C1: for every policy and every n, in every state reachable from
`rwlock_new(p, n)` by any interleaving of threads that lock and unlock in
balanced pairs, active_writers <= 1 and it is not the case that
active_writers > 0 and active_readers > 0. -/
theorem rwlock_mutual_exclusion (p : PRIORITY) (n : Int) (k : Nat) (s : Sys)
    (h : Reachable p n k s) :
    s.rw.active_writers ≤ 1 ∧ ¬ (s.rw.active_writers > 0 ∧ s.rw.active_readers > 0) := by
  obtain ⟨_, _, har, haw, _, _, h1, hx⟩ := counts_reachable h
  rw [har, haw]
  omega

theorem rwlock_mutual_exclusion_witness :
    Reachable .WRITERS 0 3 s3_state ∧
    (s3_state.rw.active_writers ≤ 1 ∧
      ¬ (s3_state.rw.active_writers > 0 ∧ s3_state.rw.active_readers > 0)) :=
  ⟨reachable_s3, rwlock_mutual_exclusion .WRITERS 0 3 s3_state reachable_s3⟩

/-- C7: on a READERS lock, a `reader_lock` call made by a thread outside the
lock in any state with active_writers = 0 is admitted in its first section,
without sleeping, whatever waiting_writers and active_readers are. -/
theorem readers_policy (s : Sys) (t : Nat) (hp : s.rw.priority = .READERS)
    (haw : s.rw.active_writers = 0) (hpc : s.pcs[t]? = some .idle) :
    reader_must_wait (reader_lock_enter s.rw) = false ∧
    ∃ s1, step s (.reader_lock t) = some s1 ∧ s1.pcs[t]? = some .r_holding ∧
      s1.rw.active_readers = s.rw.active_readers + 1 ∧
      s1.rw.waiting_readers = s.rw.waiting_readers ∧
      s1.reader_admits = s.reader_admits + 1 := by
  have hw : reader_must_wait (reader_lock_enter s.rw) = false := by
    simp [reader_must_wait, reader_lock_enter, hp, haw]
  have hs : step s (.reader_lock t) =
      some (reader_try { s with rw := reader_lock_enter s.rw } t) := by
    simp only [step, hpc]
  refine ⟨hw, _, hs, ?_⟩
  obtain ⟨f1, _, f3, _⟩ := reader_admit_fields (reader_lock_enter s.rw)
  have hlt := lt_of_get hpc
  simp only [reader_try, hw, Bool.false_eq_true, if_false, f1, f3]
  simp [reader_lock_enter, hlt]

/-- Scenario S4: with two readers holding and a writer blocked in
`writer_lock`, the third `reader_lock` (thread 3) proceeds at once. -/
theorem readers_policy_witness :
    Reachable .READERS 0 4 s4_state ∧ s4_state.rw.waiting_writers = 1 ∧
    s4_state.rw.priority = .READERS ∧ s4_state.rw.active_writers = 0 ∧
    s4_state.pcs[3]? = some .idle ∧
    (reader_must_wait (reader_lock_enter s4_state.rw) = false ∧
      ∃ s1, step s4_state (.reader_lock 3) = some s1 ∧ s1.pcs[3]? = some .r_holding ∧
        s1.rw.active_readers = s4_state.rw.active_readers + 1 ∧
        s1.rw.waiting_readers = s4_state.rw.waiting_readers ∧
        s1.reader_admits = s4_state.reader_admits + 1) :=
  ⟨reachable_s4, by decide, by decide, by decide, by decide,
   readers_policy s4_state 3 (by decide) (by decide) (by decide)⟩

theorem writers_interval {n : Int} (w : Nat) (evs : List Ev) :
    ∀ {s : Sys} {states : List Sys}, Counts .WRITERS n s → trace s evs = some states →
      (∀ sk ∈ states, sk.pcs[w]? = some .w_blocked ∨ sk.pcs[w]? = some .w_woken) →
      ∀ sk ∈ states, sk.reader_admits = s.reader_admits ∧
        ∀ u : Nat, sk.pcs[u]? = some .r_holding → s.pcs[u]? = some .r_holding := by
  induction evs with
  | nil =>
    intro s states _ htr _ sk hsk
    simp only [trace, Option.some.injEq] at htr
    subst htr
    simp only [List.mem_singleton] at hsk
    subst hsk
    exact ⟨rfl, fun _ hu => hu⟩
  | cons e es ih =>
    intro s states hc htr hw sk hsk
    obtain ⟨s1, rest, hs, htr1, rfl⟩ := trace_cons htr
    simp only [List.mem_cons] at hsk
    rcases hsk with rfl | hsk
    · exact ⟨rfl, fun _ hu => hu⟩
    · have hww : 0 < s.rw.waiting_writers := by
        have h0 := hw s (by simp)
        have := hc.ww
        rcases h0 with h0 | h0
        · have := count_pos_of_get h0
          omega
        · have := count_pos_of_get h0
          omega
      have hstep : s1.reader_admits = s.reader_admits ∧
          ∀ u : Nat, s1.pcs[u]? = some .r_holding → s.pcs[u]? = some .r_holding := by
        rcases step_reader_admits hs with h1 | ⟨_, h2⟩
        · exact h1
        · simp [reader_must_wait, hc.prio] at h2
          omega
      have h2 := ih (counts_step hc hs) htr1 (fun x hx => hw x (by simp [hx])) sk hsk
      exact ⟨by rw [h2.1, hstep.1], fun u hu => hstep.2 u (h2.2 u hu)⟩

/-- C6: on a WRITERS lock no step admits a reader from a state in which
waiting_writers > 0 or active_writers > 0.  Hence along any schedule during
which a writer thread `w` stays waiting (asleep or woken inside `writer_lock`),
no reader is admitted and no thread becomes a reading holder, whether that
reader entered `reader_lock` before the writer or after it. -/
theorem writers_policy (n : Int) (k : Nat) (s : Sys) (h : Reachable .WRITERS n k s) :
    (∀ e s1, step s e = some s1 →
      0 < s.rw.waiting_writers ∨ 0 < s.rw.active_writers →
      s1.reader_admits = s.reader_admits ∧
        ∀ u : Nat, s1.pcs[u]? = some .r_holding → s.pcs[u]? = some .r_holding) ∧
    (∀ (w : Nat) evs states, trace s evs = some states →
      (∀ sk ∈ states, sk.pcs[w]? = some .w_blocked ∨ sk.pcs[w]? = some .w_woken) →
      ∀ sk ∈ states, sk.reader_admits = s.reader_admits ∧
        ∀ u : Nat, sk.pcs[u]? = some .r_holding → s.pcs[u]? = some .r_holding) := by
  have hc := counts_reachable h
  refine ⟨?_, fun w evs states htr hw => writers_interval w evs hc htr hw⟩
  intro e s1 hs hbusy
  rcases step_reader_admits hs with h1 | ⟨_, h2⟩
  · exact h1
  · simp [reader_must_wait, hc.prio] at h2
    omega

/-- Scenario S3: W1 (thread 0) holds, R (thread 1) and then W2 (thread 2) wait.
Whatever the schedule from there, as long as W2 is still waiting R has not
been admitted; and when W1 releases and W2 resumes, W2 holds the lock while R
is still asleep. -/
theorem writers_policy_witness :
    Reachable .WRITERS 0 3 s3_state ∧
    (∀ evs states, trace s3_state evs = some states →
      (∀ sk ∈ states, sk.pcs[2]? = some .w_blocked ∨ sk.pcs[2]? = some .w_woken) →
      ∀ sk ∈ states, sk.reader_admits = s3_state.reader_admits ∧
        ∀ u : Nat, sk.pcs[u]? = some .r_holding → s3_state.pcs[u]? = some .r_holding) ∧
    (run s3_state [.writer_unlock 0 2, .resume 2]).map (fun s => s.pcs) =
      some [.idle, .r_blocked, .w_holding] :=
  ⟨reachable_s3,
   fun evs states h1 h2 =>
     (writers_policy 0 3 s3_state reachable_s3).2 2 evs states h1 h2,
   by decide⟩

/-- A step either admits no writer or admits the writer that takes the step:
then the writer's loop test was false before, active_writers is 1 after, and no
reader was admitted by the step. -/
theorem step_writer_admits {s s1 : Sys} {e : Ev} (h : step s e = some s1) :
    s1.writer_admits = s.writer_admits ∨
    (s1.writer_admits = s.writer_admits + 1 ∧ writer_must_wait s.rw = false ∧
      s1.rw.active_writers = 1 ∧ s1.reader_admits = s.reader_admits) := by
  cases e with
  | reader_lock t =>
    simp only [step] at h
    split at h
    · cases h
      unfold reader_try
      split <;> exact Or.inl rfl
    · cases h
  | writer_lock t =>
    simp only [step] at h
    split at h
    · cases h
      unfold writer_try
      split
      · exact Or.inl rfl
      · rename_i hnw
        exact Or.inr ⟨rfl, by simpa [writer_wait_enter] using hnw,
          (writer_admit_fields _).2.1, rfl⟩
    · cases h
  | resume t =>
    simp only [step] at h
    split at h
    · cases h
      unfold reader_try
      split <;> exact Or.inl rfl
    · cases h
      unfold writer_try
      split
      · exact Or.inl rfl
      · rename_i hnw
        exact Or.inr ⟨rfl, by simpa using hnw, (writer_admit_fields _).2.1, rfl⟩
    · cases h
  | spurious t =>
    simp only [step] at h
    split at h
    · cases h; exact Or.inl rfl
    · cases h; exact Or.inl rfl
    · cases h
  | reader_unlock t pick =>
    simp only [step] at h
    split at h
    · cases h; exact Or.inl rfl
    · cases h
  | writer_unlock t pick =>
    simp only [step] at h
    split at h
    · cases h; exact Or.inl rfl
    · cases h

/-- On an N_WAY lock, `writer_unlock` with a writer and a reader waiting opens
a batch of `min(waiting_readers, n_way)`. -/
theorem writer_unlock_opens {rw : rwlock} (hp : rw.priority = .N_WAY)
    (hw : 0 < rw.waiting_writers) (hr : 0 < rw.waiting_readers) :
    (writer_unlock rw).1 =
      { rw with
        active_writers := 0
        batch_active := true
        batch_limit := if rw.waiting_readers < rw.n_way then rw.waiting_readers else rw.n_way
        current_batch_readers := 0 } ∧
    (writer_unlock rw).2 = .broadcast_readers := by
  simp [writer_unlock, hp, hw, hr]

/-- One step inside the stretch between two writer admissions keeps `Window`. -/
theorem window_step {N : Int} {R0 : Nat} {s s1 : Sys} {e : Ev} (hN : 1 ≤ N)
    (hc : Counts .N_WAY N s) (hwin : Window N R0 s) (h : step s e = some s1)
    (hadm : s1.writer_admits = s.writer_admits) (hww : 0 < s.rw.waiting_writers)
    (hrel : e.is_writer_unlock = true → 0 < s.rw.waiting_readers) :
    Window N R0 s1 := by
  obtain ⟨hp, hw, har, haw, hwr, hww2, h1, hx⟩ := hc
  cases e with
  | reader_lock t =>
    simp only [step] at h
    split at h
    · cases h
      unfold reader_try
      split
      · exact hwin
      · rename_i hnw
        have ha := reader_wait_false hnw
        simp only [reader_must_wait, reader_lock_enter, hp, if_true, Bool.or_eq_true,
          Bool.and_eq_true, decide_eq_true_eq, not_or, not_and] at hnw
        obtain ⟨f1, f2, f3, f4, f5, f6, f7, f8, f9⟩ :=
          reader_admit_fields (reader_lock_enter s.rw)
        have ha : s.rw.active_writers ≤ 0 := ha
        unfold Window at hwin ⊢
        simp only [f2, f7, f8, f9]
        simp only [reader_lock_enter]
        rcases hwin with ⟨hw1, _⟩ | ⟨h0, hb, hl, hr, hle⟩
        · omega
        · right
          have := hnw.2 hb
          simp only [hp, hb, and_self, if_true]
          refine ⟨h0, trivial, hl, ?_, ?_⟩
          · push_cast
            omega
          · omega
    · cases h
  | writer_lock t =>
    simp only [step] at h
    split at h
    · cases h
      unfold writer_try at hadm ⊢
      split
      · exact hwin
      · rename_i hnw
        rw [if_neg hnw] at hadm
        simp at hadm
    · cases h
  | resume t =>
    simp only [step] at h
    split at h
    · cases h
      unfold reader_try
      split
      · exact hwin
      · rename_i hnw
        have ha := reader_wait_false hnw
        simp only [reader_must_wait, hp, if_true, Bool.or_eq_true,
          Bool.and_eq_true, decide_eq_true_eq, not_or, not_and] at hnw
        obtain ⟨f1, f2, f3, f4, f5, f6, f7, f8, f9⟩ := reader_admit_fields s.rw
        unfold Window at hwin ⊢
        simp only [f2, f7, f8, f9]
        rcases hwin with ⟨hw1, _⟩ | ⟨h0, hb, hl, hr, hle⟩
        · omega
        · right
          have := hnw.2 hb
          simp only [hp, hb, and_self, if_true]
          refine ⟨h0, trivial, hl, ?_, ?_⟩
          · push_cast
            omega
          · omega
    · cases h
      unfold writer_try at hadm ⊢
      split
      · exact hwin
      · rename_i hnw
        rw [if_neg hnw] at hadm
        simp at hadm
    · cases h
  | spurious t =>
    simp only [step] at h
    split at h
    · cases h; exact hwin
    · cases h; exact hwin
    · cases h
  | reader_unlock t pick =>
    simp only [step] at h
    split at h
    · cases h
      rw [(reader_unlock_fields s.rw).1]
      exact hwin
    · cases h
  | writer_unlock t pick =>
    simp only [step] at h
    split at h
    · rename_i hpc
      cases h
      have hpos := count_pos_of_get hpc
      have hr := hrel rfl
      obtain ⟨g1, _⟩ := writer_unlock_opens hp hww hr
      unfold Window at hwin ⊢
      rw [g1]
      rcases hwin with ⟨_, hR⟩ | ⟨h0, _⟩
      · right
        dsimp only
        rw [hw]
        simp only [if_true]
        refine ⟨trivial, trivial, ?_, by omega, ?_⟩
        · split_ifs <;> omega
        · split_ifs <;> omega
      · omega
    · cases h

theorem window_trace {N : Int} (hN : 1 ≤ N) (R0 W0 : Nat) (evs : List Ev) :
    ∀ {s : Sys} {states : List Sys}, Counts .N_WAY N s → Window N R0 s →
      trace s evs = some states →
      (∀ sk ∈ states, 0 < sk.rw.waiting_writers ∧ sk.writer_admits = W0) →
      (∀ x ∈ List.zip states evs, x.2.is_writer_unlock = true →
        0 < x.1.rw.waiting_readers) →
      ∀ sk ∈ states, Window N R0 sk := by
  induction evs with
  | nil =>
    intro s states _ hwin htr _ _ sk hsk
    simp only [trace, Option.some.injEq] at htr
    subst htr
    simp only [List.mem_singleton] at hsk
    exact hsk ▸ hwin
  | cons e es ih =>
    intro s states hc hwin htr hint hrel sk hsk
    obtain ⟨s1, rest, hs, htr1, rfl⟩ := trace_cons htr
    have hs1 : s1 ∈ rest := trace_head htr1
    simp only [List.mem_cons] at hsk
    rcases hsk with rfl | hsk
    · exact hwin
    · have h0 := hint s (by simp)
      have h1 := hint s1 (by simp [hs1])
      have hwin1 : Window N R0 s1 :=
        window_step hN hc hwin hs (by omega) h0.1
          (fun he => hrel (s, e) (by simp) he)
      exact ih (counts_step hc hs) hwin1 htr1 (fun x hx => hint x (by simp [hx]))
        (fun x hx => hrel x (by simp [hx])) sk hsk

/-- C5 as stated fails.  On `rwlock_new(N_WAY, 1)`: writer 1 acquires while
writer 2 waits; writer 1 releases when no reader waits, so `writer_unlock`
signals writer 2 and opens no batch; readers 3 and 4 then call `reader_lock`
and are both admitted before writer 2 runs.  Writer 2 waits throughout, and two
readers, more than N = 1, are admitted between the two writer acquisitions. -/
theorem n_way_bound_counterexample :
    ¬ (∀ (N : Int) (k : Nat) (s0 s1 s2 s3 : Sys) (e0 e2 : Ev) (evs : List Ev)
        (states : List Sys),
        1 ≤ N → Reachable .N_WAY N k s0 →
        step s0 e0 = some s1 → s1.writer_admits = s0.writer_admits + 1 →
        trace s1 evs = some states →
        (∀ sk ∈ states, 0 < sk.rw.waiting_writers ∧ sk.writer_admits = s1.writer_admits) →
        states.getLast? = some s2 →
        step s2 e2 = some s3 → s3.writer_admits = s2.writer_admits + 1 →
        (s2.reader_admits : Int) - s1.reader_admits ≤ N) := by
  intro h
  have h1 := h 1 5 barge_s0 barge_s1 barge_s2 barge_s3 (.resume 1) (.resume 2)
    barge_interval barge_states (by decide)
    ⟨fresh .N_WAY 1, barge_before, rfl, by decide⟩
    (by decide) (by decide) (by decide) (by decide) (by decide) (by decide) (by decide)
  revert h1
  decide

/-- C5 (amended): on `rwlock_new(N_WAY, N)` with N >= 1, take the stretch from
a writer admission to the next one, a writer waiting throughout.  If at least
one reader was waiting whenever `writer_unlock` ran in that stretch (so the
release opened a batch), then at every point of the stretch, in particular when
the next writer acquires, at most N readers have been admitted since the first
admission. -/
theorem n_way_bound (N : Int) (k : Nat) (s0 s1 : Sys) (e0 : Ev) (evs : List Ev)
    (states : List Sys) (hN : 1 ≤ N) (hr : Reachable .N_WAY N k s0)
    (h0 : step s0 e0 = some s1) (hadm : s1.writer_admits = s0.writer_admits + 1)
    (htr : trace s1 evs = some states)
    (hint : ∀ sk ∈ states, 0 < sk.rw.waiting_writers ∧ sk.writer_admits = s1.writer_admits)
    (hrel : ∀ x ∈ List.zip states evs, x.2.is_writer_unlock = true →
      0 < x.1.rw.waiting_readers) :
    ∀ sk ∈ states, (sk.reader_admits : Int) - s1.reader_admits ≤ N := by
  have hc1 := counts_step (counts_reachable hr) h0
  have hwin : Window N s1.reader_admits s1 := by
    rcases step_writer_admits h0 with h | ⟨_, _, h1, _⟩
    · omega
    · exact Or.inl ⟨h1, rfl⟩
  intro sk hsk
  have := window_trace hN s1.reader_admits s1.writer_admits evs hc1 hwin htr hint hrel sk hsk
  rcases this with ⟨_, h⟩ | ⟨_, _, hl, hq, hle⟩
  · rw [h]
    omega
  · omega

/-- Scenario S5 up to W2's acquisition: five readers and W2 wait when W1
releases; the batch limit is min(5, 3) = 3 and exactly three readers have been
admitted when W2, next, acquires. -/
theorem n_way_bound_witness :
    Reachable .N_WAY 3 8 s5_s0 ∧ step s5_s0 (.resume 1) = some s5_s1 ∧
    trace s5_s1 s5_interval = some s5_states ∧
    s5_states.getLast? = some s5_s2 ∧ step s5_s2 (.resume 2) = some s5_s3 ∧
    s5_s3.writer_admits = s5_s2.writer_admits + 1 ∧
    (s5_s2.reader_admits : Int) - s5_s1.reader_admits = 3 ∧
    ∀ sk ∈ s5_states, (sk.reader_admits : Int) - s5_s1.reader_admits ≤ 3 :=
  ⟨⟨fresh .N_WAY 3, s5_before, rfl, by decide⟩, by decide, by decide, by decide, by decide,
   by decide, by decide,
   n_way_bound 3 8 s5_s0 s5_s1 (.resume 1) s5_interval s5_states (by decide)
     ⟨fresh .N_WAY 3, s5_before, rfl, by decide⟩ (by decide) (by decide) (by decide)
     (by decide) (by decide)⟩

theorem batch_idle_init (p : PRIORITY) (n : Int) (k : Nat) (rw : rwlock)
    (h : rwlock_new p n true = some rw) : BatchIdle (init rw k) := by
  simp only [rwlock_new, if_false, Bool.true_eq_false, Option.some.injEq] at h
  subst h
  constructor <;> simp [init]

theorem batch_idle_step {p : PRIORITY} {n : Int} {s s1 : Sys} {e : Ev}
    (hc : Counts p n s) (hb0 : BatchIdle s) (h : step s e = some s1) : BatchIdle s1 := by
  obtain ⟨hp, hw, har, haw, hwr, hww, h1, hx⟩ := hc
  obtain ⟨b1, b2, b3⟩ := hb0
  cases e with
  | reader_lock t =>
    simp only [step] at h
    split at h
    · rename_i hpc
      cases h
      have hpos := count_pos_of_get hpc
      unfold reader_try
      split
      · rename_i hnw
        rw [← Bool.not_eq_false, reader_free_iff] at hnw
        simp only [reader_lock_enter] at hnw
        constructor <;> dsimp only <;> 
          simp only [reader_lock_enter] <;>
          cases p <;> cases hb : s.rw.batch_active <;>
          simp only [hp, hb, reduceCtorEq, if_true, if_false, true_implies, false_implies,
            Bool.false_eq_true, and_true, true_and, and_false, false_and, or_false, false_or,
            implies_true, not_true_eq_false, not_false_eq_true, Bool.true_eq_false, imp_false]
            at b1 b2 b3 hnw ⊢ <;>
          (try split_ifs) <;>
          (try simp only [deliver, count_wake_all, count_wake_one, count_set_pc _ hpc,
            reduceCtorEq, if_true, if_false, true_implies, false_implies,
            Bool.false_eq_true, and_true, true_and, and_false, false_and, or_false, false_or,
            implies_true]) <;>
          (try split_ifs) <;> (try intros) <;> omega
      · rename_i hnw
        rw [Bool.not_eq_true, reader_free_iff] at hnw
        simp only [reader_lock_enter] at hnw
        obtain ⟨f1, f2, f3, f4, f5, f6, f7, f8, f9⟩ :=
          reader_admit_fields (reader_lock_enter s.rw)
        constructor <;> dsimp only <;> 
          simp only [f1, f2, f3, f4, f5, f6, f7, f8, f9] <;>
          simp only [reader_lock_enter] <;>
          cases p <;> cases hb : s.rw.batch_active <;>
          simp only [hp, hb, reduceCtorEq, if_true, if_false, true_implies, false_implies,
            Bool.false_eq_true, and_true, true_and, and_false, false_and, or_false, false_or,
            implies_true, not_true_eq_false, not_false_eq_true, Bool.true_eq_false, imp_false]
            at b1 b2 b3 hnw ⊢ <;>
          (try split_ifs) <;>
          (try simp only [deliver, count_wake_all, count_wake_one, count_set_pc _ hpc,
            reduceCtorEq, if_true, if_false, true_implies, false_implies,
            Bool.false_eq_true, and_true, true_and, and_false, false_and, or_false, false_or,
            implies_true]) <;>
          (try split_ifs) <;> (try intros) <;> omega
    · cases h
  | writer_lock t =>
    simp only [step] at h
    split at h
    · rename_i hpc
      cases h
      have hpos := count_pos_of_get hpc
      unfold writer_try
      split
      · rename_i hnw
        rw [← Bool.not_eq_false, writer_free_iff] at hnw
        simp only [writer_lock_enter] at hnw
        constructor <;> dsimp only <;> 
          simp only [writer_lock_enter] <;>
          cases p <;> cases hb : s.rw.batch_active <;>
          simp only [hp, hb, reduceCtorEq, if_true, if_false, true_implies, false_implies,
            Bool.false_eq_true, and_true, true_and, and_false, false_and, or_false, false_or,
            implies_true, not_true_eq_false, not_false_eq_true, Bool.true_eq_false, imp_false]
            at b1 b2 b3 hnw ⊢ <;>
          (try split_ifs) <;>
          (try simp only [deliver, count_wake_all, count_wake_one, count_set_pc _ hpc,
            reduceCtorEq, if_true, if_false, true_implies, false_implies,
            Bool.false_eq_true, and_true, true_and, and_false, false_and, or_false, false_or,
            implies_true]) <;>
          (try split_ifs) <;> (try intros) <;> omega
      · rename_i hnw
        rw [Bool.not_eq_true, writer_free_iff] at hnw
        simp only [writer_lock_enter] at hnw
        obtain ⟨f1, f2, f3, f4, f5, f6, f7, f8, f9⟩ :=
          writer_admit_fields (writer_lock_enter s.rw)
        constructor <;> dsimp only <;> 
          simp only [f1, f2, f3, f4, f5, f6, f7, f8, f9] <;>
          simp only [writer_lock_enter] <;>
          cases p <;> cases hb : s.rw.batch_active <;>
          simp only [hp, hb, reduceCtorEq, if_true, if_false, true_implies, false_implies,
            Bool.false_eq_true, and_true, true_and, and_false, false_and, or_false, false_or,
            implies_true, not_true_eq_false, not_false_eq_true, Bool.true_eq_false, imp_false]
            at b1 b2 b3 hnw ⊢ <;>
          (try split_ifs) <;>
          (try simp only [deliver, count_wake_all, count_wake_one, count_set_pc _ hpc,
            reduceCtorEq, if_true, if_false, true_implies, false_implies,
            Bool.false_eq_true, and_true, true_and, and_false, false_and, or_false, false_or,
            implies_true]) <;>
          (try split_ifs) <;> (try intros) <;> omega
    · cases h
  | resume t =>
    simp only [step] at h
    split at h
    · rename_i hpc
      cases h
      have hpos := count_pos_of_get hpc
      unfold reader_try
      split
      · rename_i hnw
        rw [← Bool.not_eq_false, reader_free_iff] at hnw
        constructor <;> dsimp only <;> 
          cases p <;> cases hb : s.rw.batch_active <;>
          simp only [hp, hb, reduceCtorEq, if_true, if_false, true_implies, false_implies,
            Bool.false_eq_true, and_true, true_and, and_false, false_and, or_false, false_or,
            implies_true, not_true_eq_false, not_false_eq_true, Bool.true_eq_false, imp_false]
            at b1 b2 b3 hnw ⊢ <;>
          (try split_ifs) <;>
          (try simp only [deliver, count_wake_all, count_wake_one, count_set_pc _ hpc,
            reduceCtorEq, if_true, if_false, true_implies, false_implies,
            Bool.false_eq_true, and_true, true_and, and_false, false_and, or_false, false_or,
            implies_true]) <;>
          (try split_ifs) <;> (try intros) <;> omega
      · rename_i hnw
        rw [Bool.not_eq_true, reader_free_iff] at hnw
        obtain ⟨f1, f2, f3, f4, f5, f6, f7, f8, f9⟩ := reader_admit_fields s.rw
        constructor <;> dsimp only <;> 
          simp only [f1, f2, f3, f4, f5, f6, f7, f8, f9] <;>
          cases p <;> cases hb : s.rw.batch_active <;>
          simp only [hp, hb, reduceCtorEq, if_true, if_false, true_implies, false_implies,
            Bool.false_eq_true, and_true, true_and, and_false, false_and, or_false, false_or,
            implies_true, not_true_eq_false, not_false_eq_true, Bool.true_eq_false, imp_false]
            at b1 b2 b3 hnw ⊢ <;>
          (try split_ifs) <;>
          (try simp only [deliver, count_wake_all, count_wake_one, count_set_pc _ hpc,
            reduceCtorEq, if_true, if_false, true_implies, false_implies,
            Bool.false_eq_true, and_true, true_and, and_false, false_and, or_false, false_or,
            implies_true]) <;>
          (try split_ifs) <;> (try intros) <;> omega
    · rename_i hpc
      cases h
      have hpos := count_pos_of_get hpc
      unfold writer_try
      split
      · rename_i hnw
        rw [← Bool.not_eq_false, writer_free_iff] at hnw
        constructor <;> dsimp only <;> 
          cases p <;> cases hb : s.rw.batch_active <;>
          simp only [hp, hb, reduceCtorEq, if_true, if_false, true_implies, false_implies,
            Bool.false_eq_true, and_true, true_and, and_false, false_and, or_false, false_or,
            implies_true, not_true_eq_false, not_false_eq_true, Bool.true_eq_false, imp_false]
            at b1 b2 b3 hnw ⊢ <;>
          (try split_ifs) <;>
          (try simp only [deliver, count_wake_all, count_wake_one, count_set_pc _ hpc,
            reduceCtorEq, if_true, if_false, true_implies, false_implies,
            Bool.false_eq_true, and_true, true_and, and_false, false_and, or_false, false_or,
            implies_true]) <;>
          (try split_ifs) <;> (try intros) <;> omega
      · rename_i hnw
        rw [Bool.not_eq_true, writer_free_iff] at hnw
        obtain ⟨f1, f2, f3, f4, f5, f6, f7, f8, f9⟩ := writer_admit_fields s.rw
        constructor <;> dsimp only <;> 
          simp only [f1, f2, f3, f4, f5, f6, f7, f8, f9] <;>
          cases p <;> cases hb : s.rw.batch_active <;>
          simp only [hp, hb, reduceCtorEq, if_true, if_false, true_implies, false_implies,
            Bool.false_eq_true, and_true, true_and, and_false, false_and, or_false, false_or,
            implies_true, not_true_eq_false, not_false_eq_true, Bool.true_eq_false, imp_false]
            at b1 b2 b3 hnw ⊢ <;>
          (try split_ifs) <;>
          (try simp only [deliver, count_wake_all, count_wake_one, count_set_pc _ hpc,
            reduceCtorEq, if_true, if_false, true_implies, false_implies,
            Bool.false_eq_true, and_true, true_and, and_false, false_and, or_false, false_or,
            implies_true]) <;>
          (try split_ifs) <;> (try intros) <;> omega
    · cases h
  | spurious t =>
    simp only [step] at h
    split at h
    · rename_i hpc
      cases h
      have hpos := count_pos_of_get hpc
      constructor <;> dsimp only <;> 
        cases p <;> cases hb : s.rw.batch_active <;>
          simp only [hp, hb, reduceCtorEq, if_true, if_false, true_implies, false_implies,
            Bool.false_eq_true, and_true, true_and, and_false, false_and, or_false, false_or,
            implies_true, not_true_eq_false, not_false_eq_true, Bool.true_eq_false, imp_false]
            at b1 b2 b3 ⊢ <;>
          (try split_ifs) <;>
          (try simp only [deliver, count_wake_all, count_wake_one, count_set_pc _ hpc,
            reduceCtorEq, if_true, if_false, true_implies, false_implies,
            Bool.false_eq_true, and_true, true_and, and_false, false_and, or_false, false_or,
            implies_true]) <;>
          (try split_ifs) <;> (try intros) <;> omega
    · rename_i hpc
      cases h
      have hpos := count_pos_of_get hpc
      constructor <;> dsimp only <;> 
        cases p <;> cases hb : s.rw.batch_active <;>
          simp only [hp, hb, reduceCtorEq, if_true, if_false, true_implies, false_implies,
            Bool.false_eq_true, and_true, true_and, and_false, false_and, or_false, false_or,
            implies_true, not_true_eq_false, not_false_eq_true, Bool.true_eq_false, imp_false]
            at b1 b2 b3 ⊢ <;>
          (try split_ifs) <;>
          (try simp only [deliver, count_wake_all, count_wake_one, count_set_pc _ hpc,
            reduceCtorEq, if_true, if_false, true_implies, false_implies,
            Bool.false_eq_true, and_true, true_and, and_false, false_and, or_false, false_or,
            implies_true]) <;>
          (try split_ifs) <;> (try intros) <;> omega
    · cases h
  | reader_unlock t pick =>
    simp only [step] at h
    split at h
    · rename_i hpc
      cases h
      have hpos := count_pos_of_get hpc
      constructor <;> dsimp only <;>  unfold reader_unlock <;>
        simp only [hp] <;>
        cases p <;> cases hb : s.rw.batch_active <;>
          simp only [hp, hb, reduceCtorEq, if_true, if_false, true_implies, false_implies,
            Bool.false_eq_true, and_true, true_and, and_false, false_and, or_false, false_or,
            implies_true, not_true_eq_false, not_false_eq_true, Bool.true_eq_false, imp_false]
            at b1 b2 b3 ⊢ <;>
          (try split_ifs) <;>
          (try simp only [deliver, count_wake_all, count_wake_one, count_set_pc _ hpc,
            reduceCtorEq, if_true, if_false, true_implies, false_implies,
            Bool.false_eq_true, and_true, true_and, and_false, false_and, or_false, false_or,
            implies_true]) <;>
          (try split_ifs) <;> (try intros) <;> omega
    · cases h
  | writer_unlock t pick =>
    simp only [step] at h
    split at h
    · rename_i hpc
      cases h
      have hpos := count_pos_of_get hpc
      constructor <;> dsimp only <;>  unfold writer_unlock <;>
        simp only [hp] <;>
        cases p <;> cases hb : s.rw.batch_active <;>
          simp only [hp, hb, reduceCtorEq, if_true, if_false, true_implies, false_implies,
            Bool.false_eq_true, and_true, true_and, and_false, false_and, or_false, false_or,
            implies_true, not_true_eq_false, not_false_eq_true, Bool.true_eq_false, imp_false]
            at b1 b2 b3 ⊢ <;>
          (try split_ifs) <;>
          (try simp only [deliver, count_wake_all, count_wake_one, count_set_pc _ hpc,
            reduceCtorEq, if_true, if_false, true_implies, false_implies,
            Bool.false_eq_true, and_true, true_and, and_false, false_and, or_false, false_or,
            implies_true]) <;>
          (try split_ifs) <;> (try intros) <;> omega
    · cases h

theorem batch_idle_run {p : PRIORITY} {n : Int} (evs : List Ev) :
    ∀ {s s1 : Sys}, Counts p n s → BatchIdle s → run s evs = some s1 → BatchIdle s1 := by
  induction evs with
  | nil =>
    intro s s1 _ hb h
    simp only [run, Option.some.injEq] at h
    exact h ▸ hb
  | cons e es ih =>
    intro s s1 hc hb h
    simp only [run] at h
    split at h
    · cases h
    · rename_i s2 hs
      exact ih (counts_step hc hs) (batch_idle_step hc hb hs) h

theorem batch_idle_reachable {p : PRIORITY} {n : Int} {k : Nat} {s : Sys}
    (h : Reachable p n k s) : BatchIdle s := by
  obtain ⟨rw, evs, hrw, hrun⟩ := h
  exact batch_idle_run evs (counts_init p n k rw hrw) (batch_idle_init p n k rw hrw) hrun

theorem batch_range_init (p : PRIORITY) (n : Int) (k : Nat) (rw : rwlock)
    (h : rwlock_new p n true = some rw) : BatchRange (init rw k) := by
  simp only [rwlock_new, if_false, Bool.true_eq_false, Option.some.injEq] at h
  subst h
  constructor <;> simp [init]

theorem batch_range_step {p : PRIORITY} {n : Int} {s s1 : Sys} {e : Ev}
    (hn : p = .N_WAY → 1 ≤ n)
    (hc : Counts p n s) (hb0 : BatchIdle s) (hr0 : BatchRange s)
    (h : step s e = some s1) : BatchRange s1 := by
  obtain ⟨hp, hw, har, haw, hwr, hww, h1, hx⟩ := hc
  obtain ⟨b1, b2, b3⟩ := hb0
  obtain ⟨r1, r2⟩ := hr0
  cases e with
  | reader_lock t =>
    simp only [step] at h
    split at h
    · rename_i hpc
      cases h
      have hpos := count_pos_of_get hpc
      unfold reader_try
      split
      · rename_i hnw
        rw [← Bool.not_eq_false, reader_free_iff] at hnw
        simp only [reader_lock_enter] at hnw
        constructor <;> dsimp only <;> 
          simp only [reader_lock_enter] <;>
          cases p <;> cases hb : s.rw.batch_active <;>
          simp only [hp, hb, reduceCtorEq, if_true, if_false, true_implies, false_implies,
            Bool.false_eq_true, and_true, true_and, and_false, false_and, or_false, false_or,
            implies_true, not_true_eq_false, not_false_eq_true, Bool.true_eq_false, imp_false]
            at b1 b2 b3 r1 r2 hw hn hnw ⊢ <;>
          (try split_ifs) <;>
          (try simp only [deliver, count_wake_all, count_wake_one, count_set_pc _ hpc,
            reduceCtorEq, if_true, if_false, true_implies, false_implies,
            Bool.false_eq_true, and_true, true_and, and_false, false_and, or_false, false_or,
            implies_true]) <;>
          (try split_ifs) <;> (try intros) <;> omega
      · rename_i hnw
        rw [Bool.not_eq_true, reader_free_iff] at hnw
        simp only [reader_lock_enter] at hnw
        obtain ⟨f1, f2, f3, f4, f5, f6, f7, f8, f9⟩ :=
          reader_admit_fields (reader_lock_enter s.rw)
        constructor <;> dsimp only <;> 
          simp only [f1, f2, f3, f4, f5, f6, f7, f8, f9] <;>
          simp only [reader_lock_enter] <;>
          cases p <;> cases hb : s.rw.batch_active <;>
          simp only [hp, hb, reduceCtorEq, if_true, if_false, true_implies, false_implies,
            Bool.false_eq_true, and_true, true_and, and_false, false_and, or_false, false_or,
            implies_true, not_true_eq_false, not_false_eq_true, Bool.true_eq_false, imp_false]
            at b1 b2 b3 r1 r2 hw hn hnw ⊢ <;>
          (try split_ifs) <;>
          (try simp only [deliver, count_wake_all, count_wake_one, count_set_pc _ hpc,
            reduceCtorEq, if_true, if_false, true_implies, false_implies,
            Bool.false_eq_true, and_true, true_and, and_false, false_and, or_false, false_or,
            implies_true]) <;>
          (try split_ifs) <;> (try intros) <;> omega
    · cases h
  | writer_lock t =>
    simp only [step] at h
    split at h
    · rename_i hpc
      cases h
      have hpos := count_pos_of_get hpc
      unfold writer_try
      split
      · rename_i hnw
        rw [← Bool.not_eq_false, writer_free_iff] at hnw
        simp only [writer_lock_enter] at hnw
        constructor <;> dsimp only <;> 
          simp only [writer_lock_enter] <;>
          cases p <;> cases hb : s.rw.batch_active <;>
          simp only [hp, hb, reduceCtorEq, if_true, if_false, true_implies, false_implies,
            Bool.false_eq_true, and_true, true_and, and_false, false_and, or_false, false_or,
            implies_true, not_true_eq_false, not_false_eq_true, Bool.true_eq_false, imp_false]
            at b1 b2 b3 r1 r2 hw hn hnw ⊢ <;>
          (try split_ifs) <;>
          (try simp only [deliver, count_wake_all, count_wake_one, count_set_pc _ hpc,
            reduceCtorEq, if_true, if_false, true_implies, false_implies,
            Bool.false_eq_true, and_true, true_and, and_false, false_and, or_false, false_or,
            implies_true]) <;>
          (try split_ifs) <;> (try intros) <;> omega
      · rename_i hnw
        rw [Bool.not_eq_true, writer_free_iff] at hnw
        simp only [writer_lock_enter] at hnw
        obtain ⟨f1, f2, f3, f4, f5, f6, f7, f8, f9⟩ :=
          writer_admit_fields (writer_lock_enter s.rw)
        constructor <;> dsimp only <;> 
          simp only [f1, f2, f3, f4, f5, f6, f7, f8, f9] <;>
          simp only [writer_lock_enter] <;>
          cases p <;> cases hb : s.rw.batch_active <;>
          simp only [hp, hb, reduceCtorEq, if_true, if_false, true_implies, false_implies,
            Bool.false_eq_true, and_true, true_and, and_false, false_and, or_false, false_or,
            implies_true, not_true_eq_false, not_false_eq_true, Bool.true_eq_false, imp_false]
            at b1 b2 b3 r1 r2 hw hn hnw ⊢ <;>
          (try split_ifs) <;>
          (try simp only [deliver, count_wake_all, count_wake_one, count_set_pc _ hpc,
            reduceCtorEq, if_true, if_false, true_implies, false_implies,
            Bool.false_eq_true, and_true, true_and, and_false, false_and, or_false, false_or,
            implies_true]) <;>
          (try split_ifs) <;> (try intros) <;> omega
    · cases h
  | resume t =>
    simp only [step] at h
    split at h
    · rename_i hpc
      cases h
      have hpos := count_pos_of_get hpc
      unfold reader_try
      split
      · rename_i hnw
        rw [← Bool.not_eq_false, reader_free_iff] at hnw
        constructor <;> dsimp only <;> 
          cases p <;> cases hb : s.rw.batch_active <;>
          simp only [hp, hb, reduceCtorEq, if_true, if_false, true_implies, false_implies,
            Bool.false_eq_true, and_true, true_and, and_false, false_and, or_false, false_or,
            implies_true, not_true_eq_false, not_false_eq_true, Bool.true_eq_false, imp_false]
            at b1 b2 b3 r1 r2 hw hn hnw ⊢ <;>
          (try split_ifs) <;>
          (try simp only [deliver, count_wake_all, count_wake_one, count_set_pc _ hpc,
            reduceCtorEq, if_true, if_false, true_implies, false_implies,
            Bool.false_eq_true, and_true, true_and, and_false, false_and, or_false, false_or,
            implies_true]) <;>
          (try split_ifs) <;> (try intros) <;> omega
      · rename_i hnw
        rw [Bool.not_eq_true, reader_free_iff] at hnw
        obtain ⟨f1, f2, f3, f4, f5, f6, f7, f8, f9⟩ := reader_admit_fields s.rw
        constructor <;> dsimp only <;> 
          simp only [f1, f2, f3, f4, f5, f6, f7, f8, f9] <;>
          cases p <;> cases hb : s.rw.batch_active <;>
          simp only [hp, hb, reduceCtorEq, if_true, if_false, true_implies, false_implies,
            Bool.false_eq_true, and_true, true_and, and_false, false_and, or_false, false_or,
            implies_true, not_true_eq_false, not_false_eq_true, Bool.true_eq_false, imp_false]
            at b1 b2 b3 r1 r2 hw hn hnw ⊢ <;>
          (try split_ifs) <;>
          (try simp only [deliver, count_wake_all, count_wake_one, count_set_pc _ hpc,
            reduceCtorEq, if_true, if_false, true_implies, false_implies,
            Bool.false_eq_true, and_true, true_and, and_false, false_and, or_false, false_or,
            implies_true]) <;>
          (try split_ifs) <;> (try intros) <;> omega
    · rename_i hpc
      cases h
      have hpos := count_pos_of_get hpc
      unfold writer_try
      split
      · rename_i hnw
        rw [← Bool.not_eq_false, writer_free_iff] at hnw
        constructor <;> dsimp only <;> 
          cases p <;> cases hb : s.rw.batch_active <;>
          simp only [hp, hb, reduceCtorEq, if_true, if_false, true_implies, false_implies,
            Bool.false_eq_true, and_true, true_and, and_false, false_and, or_false, false_or,
            implies_true, not_true_eq_false, not_false_eq_true, Bool.true_eq_false, imp_false]
            at b1 b2 b3 r1 r2 hw hn hnw ⊢ <;>
          (try split_ifs) <;>
          (try simp only [deliver, count_wake_all, count_wake_one, count_set_pc _ hpc,
            reduceCtorEq, if_true, if_false, true_implies, false_implies,
            Bool.false_eq_true, and_true, true_and, and_false, false_and, or_false, false_or,
            implies_true]) <;>
          (try split_ifs) <;> (try intros) <;> omega
      · rename_i hnw
        rw [Bool.not_eq_true, writer_free_iff] at hnw
        obtain ⟨f1, f2, f3, f4, f5, f6, f7, f8, f9⟩ := writer_admit_fields s.rw
        constructor <;> dsimp only <;> 
          simp only [f1, f2, f3, f4, f5, f6, f7, f8, f9] <;>
          cases p <;> cases hb : s.rw.batch_active <;>
          simp only [hp, hb, reduceCtorEq, if_true, if_false, true_implies, false_implies,
            Bool.false_eq_true, and_true, true_and, and_false, false_and, or_false, false_or,
            implies_true, not_true_eq_false, not_false_eq_true, Bool.true_eq_false, imp_false]
            at b1 b2 b3 r1 r2 hw hn hnw ⊢ <;>
          (try split_ifs) <;>
          (try simp only [deliver, count_wake_all, count_wake_one, count_set_pc _ hpc,
            reduceCtorEq, if_true, if_false, true_implies, false_implies,
            Bool.false_eq_true, and_true, true_and, and_false, false_and, or_false, false_or,
            implies_true]) <;>
          (try split_ifs) <;> (try intros) <;> omega
    · cases h
  | spurious t =>
    simp only [step] at h
    split at h
    · rename_i hpc
      cases h
      have hpos := count_pos_of_get hpc
      constructor <;> dsimp only <;> 
        cases p <;> cases hb : s.rw.batch_active <;>
          simp only [hp, hb, reduceCtorEq, if_true, if_false, true_implies, false_implies,
            Bool.false_eq_true, and_true, true_and, and_false, false_and, or_false, false_or,
            implies_true, not_true_eq_false, not_false_eq_true, Bool.true_eq_false, imp_false]
            at b1 b2 b3 r1 r2 hw hn ⊢ <;>
          (try split_ifs) <;>
          (try simp only [deliver, count_wake_all, count_wake_one, count_set_pc _ hpc,
            reduceCtorEq, if_true, if_false, true_implies, false_implies,
            Bool.false_eq_true, and_true, true_and, and_false, false_and, or_false, false_or,
            implies_true]) <;>
          (try split_ifs) <;> (try intros) <;> omega
    · rename_i hpc
      cases h
      have hpos := count_pos_of_get hpc
      constructor <;> dsimp only <;> 
        cases p <;> cases hb : s.rw.batch_active <;>
          simp only [hp, hb, reduceCtorEq, if_true, if_false, true_implies, false_implies,
            Bool.false_eq_true, and_true, true_and, and_false, false_and, or_false, false_or,
            implies_true, not_true_eq_false, not_false_eq_true, Bool.true_eq_false, imp_false]
            at b1 b2 b3 r1 r2 hw hn ⊢ <;>
          (try split_ifs) <;>
          (try simp only [deliver, count_wake_all, count_wake_one, count_set_pc _ hpc,
            reduceCtorEq, if_true, if_false, true_implies, false_implies,
            Bool.false_eq_true, and_true, true_and, and_false, false_and, or_false, false_or,
            implies_true]) <;>
          (try split_ifs) <;> (try intros) <;> omega
    · cases h
  | reader_unlock t pick =>
    simp only [step] at h
    split at h
    · rename_i hpc
      cases h
      have hpos := count_pos_of_get hpc
      constructor <;> dsimp only <;>  unfold reader_unlock <;>
        simp only [hp] <;>
        cases p <;> cases hb : s.rw.batch_active <;>
          simp only [hp, hb, reduceCtorEq, if_true, if_false, true_implies, false_implies,
            Bool.false_eq_true, and_true, true_and, and_false, false_and, or_false, false_or,
            implies_true, not_true_eq_false, not_false_eq_true, Bool.true_eq_false, imp_false]
            at b1 b2 b3 r1 r2 hw hn ⊢ <;>
          (try split_ifs) <;>
          (try simp only [deliver, count_wake_all, count_wake_one, count_set_pc _ hpc,
            reduceCtorEq, if_true, if_false, true_implies, false_implies,
            Bool.false_eq_true, and_true, true_and, and_false, false_and, or_false, false_or,
            implies_true]) <;>
          (try split_ifs) <;> (try intros) <;> omega
    · cases h
  | writer_unlock t pick =>
    simp only [step] at h
    split at h
    · rename_i hpc
      cases h
      have hpos := count_pos_of_get hpc
      constructor <;> dsimp only <;>  unfold writer_unlock <;>
        simp only [hp] <;>
        cases p <;> cases hb : s.rw.batch_active <;>
          simp only [hp, hb, reduceCtorEq, if_true, if_false, true_implies, false_implies,
            Bool.false_eq_true, and_true, true_and, and_false, false_and, or_false, false_or,
            implies_true, not_true_eq_false, not_false_eq_true, Bool.true_eq_false, imp_false]
            at b1 b2 b3 r1 r2 hw hn ⊢ <;>
          (try split_ifs) <;>
          (try simp only [deliver, count_wake_all, count_wake_one, count_set_pc _ hpc,
            reduceCtorEq, if_true, if_false, true_implies, false_implies,
            Bool.false_eq_true, and_true, true_and, and_false, false_and, or_false, false_or,
            implies_true]) <;>
          (try split_ifs) <;> (try intros) <;> omega
    · cases h

theorem batch_range_run {p : PRIORITY} {n : Int} (hn : p = .N_WAY → 1 ≤ n) (evs : List Ev) :
    ∀ {s s1 : Sys}, Counts p n s → BatchIdle s → BatchRange s → run s evs = some s1 →
      BatchRange s1 := by
  induction evs with
  | nil =>
    intro s s1 _ _ hr h
    simp only [run, Option.some.injEq] at h
    exact h ▸ hr
  | cons e es ih =>
    intro s s1 hc hb hr h
    simp only [run] at h
    split at h
    · cases h
    · rename_i s2 hs
      exact ih (counts_step hc hs) (batch_idle_step hc hb hs)
        (batch_range_step hn hc hb hr hs) h

theorem batch_range_reachable {p : PRIORITY} {n : Int} {k : Nat} {s : Sys}
    (hn : p = .N_WAY → 1 ≤ n) (h : Reachable p n k s) : BatchRange s := by
  obtain ⟨rw, evs, hrw, hrun⟩ := h
  exact batch_range_run hn evs (counts_init p n k rw hrw) (batch_idle_init p n k rw hrw)
    (batch_range_init p n k rw hrw) hrun

/-! ## Construction, null handles, handoff rules -/

/-- C12: `rwlock_new(p, n)`, the allocation succeeding, returns a lock in the
unlocked state: priority = p, the four counters 0, batch_active = false,
current_batch_readers = 0, batch_limit = 0; n_way = n when p = N_WAY and 0
otherwise.  Under READERS and WRITERS the lock returned is the same for every
n, so every schedule run on it gives the same result whatever n was. -/
theorem rwlock_new_spec (p : PRIORITY) (n m : Int) :
    rwlock_new p n true =
      some { priority := p
             n_way := if p = .N_WAY then n else 0
             active_readers := 0
             active_writers := 0
             waiting_readers := 0
             waiting_writers := 0
             batch_active := false
             current_batch_readers := 0
             batch_limit := 0 } ∧
    (rwlock_new .N_WAY n true).map (fun rw => rw.n_way) = some n ∧
    (p ≠ .N_WAY →
      (rwlock_new p n true).map (fun rw => rw.n_way) = some 0 ∧
      rwlock_new p n true = rwlock_new p m true ∧
      ∀ (k : Nat) (evs : List Ev),
        (rwlock_new p n true).bind (fun rw => run (init rw k) evs) =
        (rwlock_new p m true).bind (fun rw => run (init rw k) evs)) := by
  refine ⟨rfl, rfl, ?_⟩
  intro hp
  have h0 : rwlock_new p n true = rwlock_new p m true := by
    simp [rwlock_new, hp]
  refine ⟨by simp [rwlock_new, hp], h0, fun k evs => by rw [h0]⟩

theorem rwlock_new_spec_witness :
    PRIORITY.WRITERS ≠ .N_WAY ∧
    ((rwlock_new .WRITERS 7 true).map (fun rw => rw.n_way) = some 0 ∧
      rwlock_new .WRITERS 7 true = rwlock_new .WRITERS 0 true ∧
      ∀ (k : Nat) (evs : List Ev),
        (rwlock_new .WRITERS 7 true).bind (fun rw => run (init rw k) evs) =
        (rwlock_new .WRITERS 0 true).bind (fun rw => run (init rw k) evs)) ∧
    (rwlock_new .WRITERS 7 true).bind (fun rw => run (init rw 3) s3_schedule) =
      some s3_state :=
  ⟨by decide, (rwlock_new_spec .WRITERS 7 0).2.2 (by decide), by decide⟩

/-- C16: `reader_lock`, `reader_unlock`, `writer_lock` and `writer_unlock`
called with a null handle return at once: they do not sleep, notify nobody, and
the handle stays null.  `rwlock_delete` called with a null pointer or with a
pointer to a null handle returns at once, leaves the pointer's target as it
was, and destroys no lock. -/
theorem rwlock_null_handle :
    reader_lock_call none = .returned () none ∧
    reader_unlock_call none = (none, .nothing) ∧
    writer_lock_call none = .returned () none ∧
    writer_unlock_call none = (none, .nothing) ∧
    rwlock_delete none = (none, none) ∧
    rwlock_delete (some none) = (some none, none) ∧
    ∀ rw, rwlock_delete (some (some rw)) = (some none, some rw) :=
  ⟨rfl, rfl, rfl, rfl, rfl, rfl, fun _ => rfl⟩

/-- C18: on an N_WAY lock `writer_unlock` sets active_writers = 0 and then:
with a writer and a reader waiting it sets batch_active = true,
batch_limit = min(waiting_readers, n_way), current_batch_readers = 0 and
broadcasts `readers_cv` (the only notification); with a writer waiting and no
reader waiting it signals `writers_cv` and leaves the batch fields as they
were; with no writer waiting it sets batch_active = false and broadcasts
`readers_cv`.  No other field changes. -/
theorem n_way_handoff (rw : rwlock) (hp : rw.priority = .N_WAY) :
    (writer_unlock rw).1.active_writers = 0 ∧
    (0 < rw.waiting_writers → 0 < rw.waiting_readers →
      (writer_unlock rw).1 =
        { rw with
          active_writers := 0
          batch_active := true
          batch_limit := min rw.waiting_readers rw.n_way
          current_batch_readers := 0 } ∧
      (writer_unlock rw).2 = .broadcast_readers) ∧
    (0 < rw.waiting_writers → rw.waiting_readers ≤ 0 →
      (writer_unlock rw).1 = { rw with active_writers := 0 } ∧
      (writer_unlock rw).2 = .signal_writers) ∧
    (rw.waiting_writers ≤ 0 →
      (writer_unlock rw).1 = { rw with active_writers := 0, batch_active := false } ∧
      (writer_unlock rw).2 = .broadcast_readers) := by
  refine ⟨(writer_unlock_frame rw).2.1, ?_, ?_, ?_⟩
  · intro hw hr
    have hmin : min rw.waiting_readers rw.n_way =
        if rw.waiting_readers < rw.n_way then rw.waiting_readers else rw.n_way := by
      split_ifs <;> omega
    rw [hmin]
    exact writer_unlock_opens hp hw hr
  · intro hw hr
    have : ¬ 0 < rw.waiting_readers := by omega
    simp [writer_unlock, hp, hw, this]
  · intro hw
    have : ¬ 0 < rw.waiting_writers := by omega
    simp [writer_unlock, hp, this]

/-- Scenario S5: when W1 releases with W2 and five readers waiting the batch
limit becomes min(5, 3) = 3 and the readers are broadcast to. -/
theorem n_way_handoff_witness :
    s5_queued.rw.priority = .N_WAY ∧ 0 < s5_queued.rw.waiting_writers ∧
    0 < s5_queued.rw.waiting_readers ∧
    ((writer_unlock s5_queued.rw).1 =
        { s5_queued.rw with
          active_writers := 0
          batch_active := true
          batch_limit := min s5_queued.rw.waiting_readers s5_queued.rw.n_way
          current_batch_readers := 0 } ∧
      (writer_unlock s5_queued.rw).2 = .broadcast_readers) ∧
    (writer_unlock s5_queued.rw).1.batch_limit = 3 :=
  ⟨by decide, by decide, by decide,
   (n_way_handoff s5_queued.rw (by decide)).2.1 (by decide) (by decide), by decide⟩

/-- C19: under READERS and WRITERS `writer_unlock` changes no field other than
active_writers, which it sets to 0, and issues one notification or none: under
READERS a broadcast of `readers_cv` if a reader waits, otherwise a signal of
`writers_cv` if a writer waits; under WRITERS a signal of `writers_cv` if a
writer waits, otherwise a broadcast of `readers_cv` if a reader waits; nothing
when nobody waits. -/
theorem plain_handoff (rw : rwlock) :
    (rw.priority = .READERS →
      (writer_unlock rw).1 = { rw with active_writers := 0 } ∧
      (writer_unlock rw).2 =
        (if 0 < rw.waiting_readers then Notify.broadcast_readers
         else if 0 < rw.waiting_writers then Notify.signal_writers
         else Notify.nothing)) ∧
    (rw.priority = .WRITERS →
      (writer_unlock rw).1 = { rw with active_writers := 0 } ∧
      (writer_unlock rw).2 =
        (if 0 < rw.waiting_writers then Notify.signal_writers
         else if 0 < rw.waiting_readers then Notify.broadcast_readers
         else Notify.nothing)) := by
  constructor
  · intro hp
    unfold writer_unlock
    simp only [hp, reduceCtorEq, if_false, if_true, gt_iff_lt]
    split_ifs <;> exact ⟨rfl, rfl⟩
  · intro hp
    unfold writer_unlock
    simp only [hp, reduceCtorEq, if_false, if_true, gt_iff_lt]
    split_ifs <;> exact ⟨rfl, rfl⟩

/-- Scenario S3: under WRITERS, with a reader and a writer waiting, the
release signals the writer and changes active_writers only. -/
theorem plain_handoff_witness :
    s3_state.rw.priority = .WRITERS ∧
    ((writer_unlock s3_state.rw).1 = { s3_state.rw with active_writers := 0 } ∧
      (writer_unlock s3_state.rw).2 =
        (if 0 < s3_state.rw.waiting_writers then Notify.signal_writers
         else if 0 < s3_state.rw.waiting_readers then Notify.broadcast_readers
         else Notify.nothing)) ∧
    (writer_unlock s3_state.rw).2 = .signal_writers :=
  ⟨by decide, (plain_handoff s3_state.rw).2 (by decide), by decide⟩

/-! ## Writer admission -/

theorem reachable_s5_queued : Reachable .N_WAY 3 8 s5_queued :=
  ⟨fresh .N_WAY 3, s5_before ++ [.resume 1] ++ s5_queue_up, rfl, by decide⟩

theorem reachable_s4_drained : Reachable .READERS 0 4 s4_drained :=
  ⟨fresh .READERS 0, s4_schedule ++ [.reader_unlock 0 2, .reader_unlock 1 2], rfl, by decide⟩

/-- A step that admits a writer: the writer's loop test was false before, the
lock afterwards is `writer_lock_acquire` of the lock before (entered first when
the step is the call itself), and the thread holds the lock. -/
theorem step_writer_acquires {s s1 : Sys} {e : Ev} (h : step s e = some s1)
    (hadm : s1.writer_admits = s.writer_admits + 1) :
    writer_must_wait s.rw = false ∧
    ((e = .writer_lock e.thread ∧ s.pcs[e.thread]? = some .idle ∧
        s1.rw = writer_lock_acquire (writer_lock_enter s.rw)) ∨
     (e = .resume e.thread ∧ s.pcs[e.thread]? = some .w_woken ∧
        s1.rw = writer_lock_acquire s.rw)) ∧
    s1.pcs[e.thread]? = some .w_holding := by
  cases e with
  | reader_lock t =>
    simp only [step] at h
    split at h
    · cases h
      unfold reader_try at hadm
      split at hadm <;> simp at hadm
    · cases h
  | writer_lock t =>
    simp only [step] at h
    split at h
    · rename_i hpc
      cases h
      have hlt := lt_of_get hpc
      unfold writer_try at hadm ⊢
      split
      · rename_i hnw
        rw [if_pos hnw] at hadm
        simp at hadm
      · rename_i hnw
        refine ⟨by simpa [writer_wait_enter] using hnw, Or.inl ⟨rfl, hpc, rfl⟩, ?_⟩
        simp [Ev.thread, hlt]
    · cases h
  | resume t =>
    simp only [step] at h
    split at h
    · cases h
      unfold reader_try at hadm
      split at hadm <;> simp at hadm
    · rename_i hpc
      cases h
      have hlt := lt_of_get hpc
      unfold writer_try at hadm ⊢
      split
      · rename_i hnw
        rw [if_pos hnw] at hadm
        simp at hadm
      · rename_i hnw
        refine ⟨by simpa using hnw, Or.inr ⟨rfl, hpc, rfl⟩, ?_⟩
        simp [Ev.thread, hlt]
    · cases h
  | spurious t =>
    simp only [step] at h
    split at h
    · cases h; simp at hadm
    · cases h; simp at hadm
    · cases h
  | reader_unlock t pick =>
    simp only [step] at h
    split at h
    · cases h; simp at hadm
    · cases h
  | writer_unlock t pick =>
    simp only [step] at h
    split at h
    · cases h; simp at hadm
    · cases h

/-- C20: under every policy `writer_lock` increments waiting_writers on entry
and waits exactly while active_writers > 0 or active_readers > 0.  On
admission it decrements waiting_writers, sets active_writers = 1, leaves
active_readers and waiting_readers as they were, and clears the batch fields
(false, 0, 0) when the policy is N_WAY.  In a reachable state a step admits a
writer only when active_writers = 0 and active_readers = 0, that is when no
thread holds the lock: a writer behind readers acquires only after all of them
have unlocked. -/
theorem writer_lock_spec (rw : rwlock) (p : PRIORITY) (n : Int) (k : Nat) (s s1 : Sys)
    (e : Ev) (h : Reachable p n k s) (hs : step s e = some s1)
    (hadm : s1.writer_admits = s.writer_admits + 1) :
    writer_lock_enter rw = { rw with waiting_writers := rw.waiting_writers + 1 } ∧
    (writer_must_wait rw = true ↔ 0 < rw.active_writers ∨ 0 < rw.active_readers) ∧
    ((writer_lock_acquire rw).waiting_writers = rw.waiting_writers - 1 ∧
      (writer_lock_acquire rw).active_writers = 1 ∧
      (writer_lock_acquire rw).active_readers = rw.active_readers ∧
      (writer_lock_acquire rw).waiting_readers = rw.waiting_readers ∧
      (writer_lock_acquire rw).priority = rw.priority ∧
      (writer_lock_acquire rw).n_way = rw.n_way ∧
      (rw.priority = .N_WAY →
        (writer_lock_acquire rw).batch_active = false ∧
        (writer_lock_acquire rw).current_batch_readers = 0 ∧
        (writer_lock_acquire rw).batch_limit = 0) ∧
      (rw.priority ≠ .N_WAY →
        (writer_lock_acquire rw).batch_active = rw.batch_active ∧
        (writer_lock_acquire rw).current_batch_readers = rw.current_batch_readers ∧
        (writer_lock_acquire rw).batch_limit = rw.batch_limit)) ∧
    (s.rw.active_writers = 0 ∧ s.rw.active_readers = 0 ∧
      s.pcs.count .r_holding = 0 ∧ s.pcs.count .w_holding = 0 ∧
      ((e = .writer_lock e.thread ∧ s.pcs[e.thread]? = some .idle ∧
          s1.rw = writer_lock_acquire (writer_lock_enter s.rw)) ∨
       (e = .resume e.thread ∧ s.pcs[e.thread]? = some .w_woken ∧
          s1.rw = writer_lock_acquire s.rw)) ∧
      s1.pcs[e.thread]? = some .w_holding) := by
  obtain ⟨f1, f2, f3, f4, f5, f6, f7, f8, f9⟩ := writer_admit_fields rw
  refine ⟨rfl, ?_, ⟨f4, f2, f1, f3, f5, f6, ?_, ?_⟩, ?_⟩
  · simp [writer_must_wait]
  · intro hp
    simp [f7, f8, f9, hp]
  · intro hp
    simp [f7, f8, f9, hp]
  · obtain ⟨hfree, hrw, hpc⟩ := step_writer_acquires hs hadm
    have hc := counts_reachable h
    rw [writer_free_iff] at hfree
    have har := hc.ar
    have haw := hc.aw
    exact ⟨by omega, by omega, by omega, by omega, hrw, hpc⟩

/-- Scenario S4, end: the writer blocked behind two readers acquires, by
resuming, from the state where both readers have unlocked. -/
theorem writer_lock_spec_witness :
    Reachable .READERS 0 4 s4_drained ∧ step s4_drained (.resume 2) = some s4_acquired ∧
    s4_acquired.writer_admits = s4_drained.writer_admits + 1 ∧
    (s4_drained.rw.active_writers = 0 ∧ s4_drained.rw.active_readers = 0 ∧
      s4_drained.pcs.count .r_holding = 0 ∧ s4_drained.pcs.count .w_holding = 0 ∧
      ((Ev.resume 2 = .writer_lock (Ev.resume 2).thread ∧
          s4_drained.pcs[(Ev.resume 2).thread]? = some .idle ∧
          s4_acquired.rw = writer_lock_acquire (writer_lock_enter s4_drained.rw)) ∨
       (Ev.resume 2 = .resume (Ev.resume 2).thread ∧
          s4_drained.pcs[(Ev.resume 2).thread]? = some .w_woken ∧
          s4_acquired.rw = writer_lock_acquire s4_drained.rw)) ∧
      s4_acquired.pcs[(Ev.resume 2).thread]? = some .w_holding) :=
  ⟨reachable_s4_drained, by decide, by decide,
   (writer_lock_spec (fresh .READERS 0) .READERS 0 4 s4_drained s4_acquired (.resume 2)
      reachable_s4_drained (by decide) (by decide)).2.2.2⟩

/-! ## Batch bounds and unconstrained readers -/

/-- C17: for every N >= 1 and every state reachable from
`rwlock_new(N_WAY, N)` under balanced use: if batch_active then
0 < batch_limit <= N, and always 0 <= current_batch_readers <= batch_limit.
With the counter invariant this makes `check_invariants` pass in every
reachable state. -/
theorem batch_invariants (N : Int) (k : Nat) (s : Sys) (hN : 1 ≤ N)
    (h : Reachable .N_WAY N k s) :
    (s.rw.batch_active = true → 0 < s.rw.batch_limit ∧ s.rw.batch_limit ≤ N) ∧
    (0 ≤ s.rw.current_batch_readers ∧ s.rw.current_batch_readers ≤ s.rw.batch_limit) ∧
    check_invariants s.rw = true := by
  have hc := counts_reachable h
  have hr := batch_range_reachable (fun _ => hN) h
  have hw := hc.width
  simp only [if_true] at hw
  have hl : s.rw.batch_active = true → 0 < s.rw.batch_limit ∧ s.rw.batch_limit ≤ N := by
    intro hb
    have := hr.limit hb
    rw [hw] at this
    exact this
  refine ⟨hl, hr.cur, ?_⟩
  have har := hc.ar
  have haw := hc.aw
  have hwr := hc.wr
  have hww := hc.ww
  have hx := hc.excl
  have hcur := hr.cur
  cases hb : s.rw.batch_active
  · simp only [check_invariants, hb, Bool.false_and, Bool.not_false, Bool.and_true,
      Bool.and_eq_true, Bool.not_eq_true', Bool.and_eq_false_imp, decide_eq_true_eq,
      decide_eq_false_iff_not, Bool.or_eq_false_iff]
    omega
  · have := hl hb
    simp only [check_invariants, hb, Bool.true_and, Bool.and_eq_true, Bool.not_eq_true',
      Bool.and_eq_false_imp, decide_eq_true_eq, decide_eq_false_iff_not,
      Bool.or_eq_false_iff]
    omega

theorem batch_invariants_witness :
    (1 : Int) ≤ 3 ∧ Reachable .N_WAY 3 8 s5_s2 ∧ s5_s2.rw.batch_active = true ∧
    ((s5_s2.rw.batch_active = true → 0 < s5_s2.rw.batch_limit ∧ s5_s2.rw.batch_limit ≤ 3) ∧
      (0 ≤ s5_s2.rw.current_batch_readers ∧
        s5_s2.rw.current_batch_readers ≤ s5_s2.rw.batch_limit) ∧
      check_invariants s5_s2.rw = true) :=
  ⟨by decide, ⟨fresh .N_WAY 3, s5_before ++ [.resume 1] ++ s5_interval, rfl, by decide⟩,
   by decide,
   batch_invariants 3 8 s5_s2 (by decide)
     ⟨fresh .N_WAY 3, s5_before ++ [.resume 1] ++ s5_interval, rfl, by decide⟩⟩

/-- With no writer active or waiting, the readers of a list of distinct threads
outside the lock are all admitted, one call each, and hold the lock together. -/
theorem readers_enter {p : PRIORITY} {n : Int} (ts : List Nat) :
    ∀ {s : Sys}, Counts p n s → BatchIdle s → s.rw.active_writers = 0 →
      s.rw.waiting_writers = 0 → ts.Nodup → (∀ t ∈ ts, s.pcs[t]? = some .idle) →
      ∃ s1, run s (ts.map Ev.reader_lock) = some s1 ∧
        (∀ t ∈ ts, s1.pcs[t]? = some .r_holding) ∧
        (∀ u : Nat, u ∉ ts → s1.pcs[u]? = s.pcs[u]?) ∧
        s1.rw.active_readers = s.rw.active_readers + ts.length ∧
        s1.reader_admits = s.reader_admits + ts.length := by
  induction ts with
  | nil =>
    intro s _ _ _ _ _ _
    exact ⟨s, rfl, by simp, fun _ _ => rfl, by simp, by simp⟩
  | cons t ts ih =>
    intro s hc hb haw hww hnd hidle
    have hpc : s.pcs[t]? = some .idle := hidle t (by simp)
    have hlt := lt_of_get hpc
    have hfree : reader_must_wait (reader_lock_enter s.rw) = false := by
      rw [reader_wait_enter, reader_free_iff]
      refine ⟨by omega, ?_, fun _ => by omega⟩
      intro _ hact
      have := (hb.needs hact).2
      omega
    have hstep : step s (.reader_lock t) =
        some (reader_try { s with rw := reader_lock_enter s.rw } t) := by
      simp only [step, hpc]
    obtain ⟨f1, f2, f3, f4, f5, f6, f7, f8, f9⟩ := reader_admit_fields (reader_lock_enter s.rw)
    have hs1 : reader_try { s with rw := reader_lock_enter s.rw } t =
        { s with
          rw := reader_lock_acquire (reader_lock_enter s.rw)
          pcs := s.pcs.set t .r_holding
          reader_admits := s.reader_admits + 1 } := by
      simp [reader_try, hfree]
    rw [hs1] at hstep
    have hc1 := counts_step hc hstep
    have hb1 := batch_idle_step hc hb hstep
    have hnd' := List.nodup_cons.mp hnd
    obtain ⟨s2, hrun, hall, hother, har, hadm⟩ := ih hc1 hb1
      (by show (reader_lock_acquire (reader_lock_enter s.rw)).active_writers = 0
          rw [f2]; exact haw)
      (by show (reader_lock_acquire (reader_lock_enter s.rw)).waiting_writers = 0
          rw [f4]; exact hww)
      hnd'.2
      (by
        intro u hu
        show (s.pcs.set t .r_holding)[u]? = some .idle
        have hne : t ≠ u := fun h => hnd'.1 (h ▸ hu)
        rw [List.getElem?_set, if_neg hne]
        exact hidle u (by simp [hu]))
    refine ⟨s2, ?_, ?_, ?_, ?_, ?_⟩
    · simp only [List.map_cons, run, hstep]
      exact hrun
    · intro u hu
      simp only [List.mem_cons] at hu
      rcases hu with rfl | hu
      · rw [hother u hnd'.1]
        show (s.pcs.set u .r_holding)[u]? = some .r_holding
        simp [hlt]
      · exact hall u hu
    · intro u hu
      simp only [List.mem_cons, not_or] at hu
      rw [hother u hu.2]
      show (s.pcs.set t .r_holding)[u]? = s.pcs[u]?
      rw [List.getElem?_set, if_neg (fun h => hu.1 h.symm)]
    · rw [har]
      show (reader_lock_acquire (reader_lock_enter s.rw)).active_readers + (ts.length : Int) = _
      rw [f1]
      simp only [reader_lock_enter, List.length_cons]
      push_cast
      ring
    · rw [hadm]
      show s.reader_admits + 1 + ts.length = _
      simp only [List.length_cons]
      omega

/-- C15: for every n, in every reachable state of a lock made by
`rwlock_new(N_WAY, n)`, batch_active implies waiting_writers > 0.  Hence in
every reachable state with active_writers = 0 and waiting_writers = 0 the
reader loop test is false, and any number of threads outside the lock that
call `reader_lock` are all admitted at once and hold the lock together. -/
theorem n_way_unconstrained (n : Int) (k : Nat) (s : Sys) (h : Reachable .N_WAY n k s) :
    (s.rw.batch_active = true → 0 < s.rw.waiting_writers) ∧
    (s.rw.active_writers = 0 → s.rw.waiting_writers = 0 →
      reader_must_wait s.rw = false ∧
      ∀ ts : List Nat, ts.Nodup → (∀ t ∈ ts, s.pcs[t]? = some .idle) →
        ∃ s1, run s (ts.map Ev.reader_lock) = some s1 ∧
          (∀ t ∈ ts, s1.pcs[t]? = some .r_holding) ∧
          s1.rw.active_readers = s.rw.active_readers + ts.length) := by
  have hc := counts_reachable h
  have hb := batch_idle_reachable h
  refine ⟨fun hact => (hb.needs hact).2, ?_⟩
  intro haw hww
  constructor
  · rw [reader_free_iff]
    refine ⟨by omega, ?_, fun _ => by omega⟩
    intro _ hact
    have := (hb.needs hact).2
    omega
  · intro ts hnd hidle
    obtain ⟨s1, h1, h2, _, h4, _⟩ := readers_enter ts hc hb haw hww hnd hidle
    exact ⟨s1, h1, h2, h4⟩

/-- Scenario S6: on `rwlock_new(N_WAY, 2)` four readers acquire and hold the
lock together, twice the width. -/
theorem n_way_unconstrained_witness :
    Reachable .N_WAY 2 4 (init (fresh .N_WAY 2) 4) ∧
    ((init (fresh .N_WAY 2) 4).rw.active_writers = 0 ∧
      (init (fresh .N_WAY 2) 4).rw.waiting_writers = 0) ∧
    (∃ s1, run (init (fresh .N_WAY 2) 4) ([0, 1, 2, 3].map Ev.reader_lock) = some s1 ∧
      (∀ t ∈ [0, 1, 2, 3], s1.pcs[t]? = some .r_holding) ∧
      s1.rw.active_readers = (init (fresh .N_WAY 2) 4).rw.active_readers +
        ([0, 1, 2, 3] : List Nat).length) ∧
    run (init (fresh .N_WAY 2) 4) ([0, 1, 2, 3].map Ev.reader_lock) = some s6_state :=
  ⟨⟨fresh .N_WAY 2, [], rfl, rfl⟩, by decide,
   ((n_way_unconstrained 2 4 (init (fresh .N_WAY 2) 4) ⟨fresh .N_WAY 2, [], rfl, rfl⟩).2
      (by decide) (by decide)).2 [0, 1, 2, 3] (by decide) (by decide),
   by decide⟩

/-! ## The batch window -/

/-- A step that admits no writer keeps an open batch open, with the same limit,
and keeps the count of readers admitted against it. -/
theorem batch_open_step {p : PRIORITY} {n L : Int} {R0 : Nat} {s s1 : Sys} {e : Ev}
    (hc : Counts p n s) (ho : BatchOpen L R0 s) (hb0 : BatchIdle s)
    (h : step s e = some s1) (hadm : s1.writer_admits = s.writer_admits) :
    BatchOpen L R0 s1 := by
  obtain ⟨hp, hw, har, haw, hwr, hww, h1, hx⟩ := hc
  obtain ⟨o1, o2, o3, o4, o5⟩ := ho
  have o6 := (hb0.needs o2).1
  cases e with
  | reader_lock t =>
    simp only [step] at h
    split at h
    · rename_i hpc
      cases h
      have hpos := count_pos_of_get hpc
      unfold reader_try
      split
      · rename_i hnw
        rw [← Bool.not_eq_false, reader_free_iff] at hnw
        simp only [reader_lock_enter] at hnw
        constructor <;> dsimp only <;> 
          (try simp only [reader_lock_enter]) <;>
          cases p <;> cases hb : s.rw.batch_active <;>
          simp only [hp, hb, reduceCtorEq, if_true, if_false, true_implies, false_implies,
            Bool.false_eq_true, and_true, true_and, and_false, false_and, or_false, false_or,
            implies_true, not_true_eq_false, not_false_eq_true, Bool.true_eq_false, imp_false]
            at o1 o2 o3 o4 o5 o6 hadm hnw ⊢ <;>
          (try split_ifs) <;>
          (try simp only [deliver, count_wake_all, count_wake_one, count_set_pc _ hpc,
            reduceCtorEq, if_true, if_false, true_implies, false_implies,
            Bool.false_eq_true, and_true, true_and, and_false, false_and, or_false, false_or,
            implies_true]) <;>
          (try split_ifs) <;> (try intros) <;> omega
      · rename_i hnw
        rw [Bool.not_eq_true, reader_free_iff] at hnw
        simp only [reader_lock_enter] at hnw
        obtain ⟨f1, f2, f3, f4, f5, f6, f7, f8, f9⟩ :=
          reader_admit_fields (reader_lock_enter s.rw)
        constructor <;> dsimp only <;> 
          (try simp only [f1, f2, f3, f4, f5, f6, f7, f8, f9]) <;>
          (try simp only [reader_lock_enter]) <;>
          cases p <;> cases hb : s.rw.batch_active <;>
          simp only [hp, hb, reduceCtorEq, if_true, if_false, true_implies, false_implies,
            Bool.false_eq_true, and_true, true_and, and_false, false_and, or_false, false_or,
            implies_true, not_true_eq_false, not_false_eq_true, Bool.true_eq_false, imp_false]
            at o1 o2 o3 o4 o5 o6 hadm hnw ⊢ <;>
          (try split_ifs) <;>
          (try simp only [deliver, count_wake_all, count_wake_one, count_set_pc _ hpc,
            reduceCtorEq, if_true, if_false, true_implies, false_implies,
            Bool.false_eq_true, and_true, true_and, and_false, false_and, or_false, false_or,
            implies_true]) <;>
          (try split_ifs) <;> (try intros) <;> omega
    · cases h
  | writer_lock t =>
    simp only [step] at h
    split at h
    · rename_i hpc
      cases h
      have hpos := count_pos_of_get hpc
      unfold writer_try at hadm ⊢
      split
      · rename_i hnw
        try simp only [hnw, if_true, if_false, not_true_eq_false, not_false_eq_true] at hadm
        rw [← Bool.not_eq_false, writer_free_iff] at hnw
        simp only [writer_lock_enter] at hnw
        constructor <;> dsimp only <;> 
          (try simp only [writer_lock_enter]) <;>
          cases p <;> cases hb : s.rw.batch_active <;>
          simp only [hp, hb, reduceCtorEq, if_true, if_false, true_implies, false_implies,
            Bool.false_eq_true, and_true, true_and, and_false, false_and, or_false, false_or,
            implies_true, not_true_eq_false, not_false_eq_true, Bool.true_eq_false, imp_false]
            at o1 o2 o3 o4 o5 o6 hadm hnw ⊢ <;>
          (try split_ifs) <;>
          (try simp only [deliver, count_wake_all, count_wake_one, count_set_pc _ hpc,
            reduceCtorEq, if_true, if_false, true_implies, false_implies,
            Bool.false_eq_true, and_true, true_and, and_false, false_and, or_false, false_or,
            implies_true]) <;>
          (try split_ifs) <;> (try intros) <;> omega
      · rename_i hnw
        try simp only [hnw, if_true, if_false, not_true_eq_false, not_false_eq_true] at hadm
        rw [Bool.not_eq_true, writer_free_iff] at hnw
        simp only [writer_lock_enter] at hnw
        obtain ⟨f1, f2, f3, f4, f5, f6, f7, f8, f9⟩ :=
          writer_admit_fields (writer_lock_enter s.rw)
        constructor <;> dsimp only <;> 
          (try simp only [f1, f2, f3, f4, f5, f6, f7, f8, f9]) <;>
          (try simp only [writer_lock_enter]) <;>
          cases p <;> cases hb : s.rw.batch_active <;>
          simp only [hp, hb, reduceCtorEq, if_true, if_false, true_implies, false_implies,
            Bool.false_eq_true, and_true, true_and, and_false, false_and, or_false, false_or,
            implies_true, not_true_eq_false, not_false_eq_true, Bool.true_eq_false, imp_false]
            at o1 o2 o3 o4 o5 o6 hadm hnw ⊢ <;>
          (try split_ifs) <;>
          (try simp only [deliver, count_wake_all, count_wake_one, count_set_pc _ hpc,
            reduceCtorEq, if_true, if_false, true_implies, false_implies,
            Bool.false_eq_true, and_true, true_and, and_false, false_and, or_false, false_or,
            implies_true]) <;>
          (try split_ifs) <;> (try intros) <;> omega
    · cases h
  | resume t =>
    simp only [step] at h
    split at h
    · rename_i hpc
      cases h
      have hpos := count_pos_of_get hpc
      unfold reader_try
      split
      · rename_i hnw
        rw [← Bool.not_eq_false, reader_free_iff] at hnw
        constructor <;> dsimp only <;> 
          cases p <;> cases hb : s.rw.batch_active <;>
          simp only [hp, hb, reduceCtorEq, if_true, if_false, true_implies, false_implies,
            Bool.false_eq_true, and_true, true_and, and_false, false_and, or_false, false_or,
            implies_true, not_true_eq_false, not_false_eq_true, Bool.true_eq_false, imp_false]
            at o1 o2 o3 o4 o5 o6 hadm hnw ⊢ <;>
          (try split_ifs) <;>
          (try simp only [deliver, count_wake_all, count_wake_one, count_set_pc _ hpc,
            reduceCtorEq, if_true, if_false, true_implies, false_implies,
            Bool.false_eq_true, and_true, true_and, and_false, false_and, or_false, false_or,
            implies_true]) <;>
          (try split_ifs) <;> (try intros) <;> omega
      · rename_i hnw
        rw [Bool.not_eq_true, reader_free_iff] at hnw
        obtain ⟨f1, f2, f3, f4, f5, f6, f7, f8, f9⟩ := reader_admit_fields s.rw
        constructor <;> dsimp only <;> 
          (try simp only [f1, f2, f3, f4, f5, f6, f7, f8, f9]) <;>
          cases p <;> cases hb : s.rw.batch_active <;>
          simp only [hp, hb, reduceCtorEq, if_true, if_false, true_implies, false_implies,
            Bool.false_eq_true, and_true, true_and, and_false, false_and, or_false, false_or,
            implies_true, not_true_eq_false, not_false_eq_true, Bool.true_eq_false, imp_false]
            at o1 o2 o3 o4 o5 o6 hadm hnw ⊢ <;>
          (try split_ifs) <;>
          (try simp only [deliver, count_wake_all, count_wake_one, count_set_pc _ hpc,
            reduceCtorEq, if_true, if_false, true_implies, false_implies,
            Bool.false_eq_true, and_true, true_and, and_false, false_and, or_false, false_or,
            implies_true]) <;>
          (try split_ifs) <;> (try intros) <;> omega
    · rename_i hpc
      cases h
      have hpos := count_pos_of_get hpc
      unfold writer_try at hadm ⊢
      split
      · rename_i hnw
        try simp only [hnw, if_true, if_false, not_true_eq_false, not_false_eq_true] at hadm
        rw [← Bool.not_eq_false, writer_free_iff] at hnw
        constructor <;> dsimp only <;> 
          cases p <;> cases hb : s.rw.batch_active <;>
          simp only [hp, hb, reduceCtorEq, if_true, if_false, true_implies, false_implies,
            Bool.false_eq_true, and_true, true_and, and_false, false_and, or_false, false_or,
            implies_true, not_true_eq_false, not_false_eq_true, Bool.true_eq_false, imp_false]
            at o1 o2 o3 o4 o5 o6 hadm hnw ⊢ <;>
          (try split_ifs) <;>
          (try simp only [deliver, count_wake_all, count_wake_one, count_set_pc _ hpc,
            reduceCtorEq, if_true, if_false, true_implies, false_implies,
            Bool.false_eq_true, and_true, true_and, and_false, false_and, or_false, false_or,
            implies_true]) <;>
          (try split_ifs) <;> (try intros) <;> omega
      · rename_i hnw
        try simp only [hnw, if_true, if_false, not_true_eq_false, not_false_eq_true] at hadm
        rw [Bool.not_eq_true, writer_free_iff] at hnw
        obtain ⟨f1, f2, f3, f4, f5, f6, f7, f8, f9⟩ := writer_admit_fields s.rw
        constructor <;> dsimp only <;> 
          (try simp only [f1, f2, f3, f4, f5, f6, f7, f8, f9]) <;>
          cases p <;> cases hb : s.rw.batch_active <;>
          simp only [hp, hb, reduceCtorEq, if_true, if_false, true_implies, false_implies,
            Bool.false_eq_true, and_true, true_and, and_false, false_and, or_false, false_or,
            implies_true, not_true_eq_false, not_false_eq_true, Bool.true_eq_false, imp_false]
            at o1 o2 o3 o4 o5 o6 hadm hnw ⊢ <;>
          (try split_ifs) <;>
          (try simp only [deliver, count_wake_all, count_wake_one, count_set_pc _ hpc,
            reduceCtorEq, if_true, if_false, true_implies, false_implies,
            Bool.false_eq_true, and_true, true_and, and_false, false_and, or_false, false_or,
            implies_true]) <;>
          (try split_ifs) <;> (try intros) <;> omega
    · cases h
  | spurious t =>
    simp only [step] at h
    split at h
    · rename_i hpc
      cases h
      have hpos := count_pos_of_get hpc
      constructor <;> dsimp only <;> 
        cases p <;> cases hb : s.rw.batch_active <;>
          simp only [hp, hb, reduceCtorEq, if_true, if_false, true_implies, false_implies,
            Bool.false_eq_true, and_true, true_and, and_false, false_and, or_false, false_or,
            implies_true, not_true_eq_false, not_false_eq_true, Bool.true_eq_false, imp_false]
            at o1 o2 o3 o4 o5 o6 hadm ⊢ <;>
          (try split_ifs) <;>
          (try simp only [deliver, count_wake_all, count_wake_one, count_set_pc _ hpc,
            reduceCtorEq, if_true, if_false, true_implies, false_implies,
            Bool.false_eq_true, and_true, true_and, and_false, false_and, or_false, false_or,
            implies_true]) <;>
          (try split_ifs) <;> (try intros) <;> omega
    · rename_i hpc
      cases h
      have hpos := count_pos_of_get hpc
      constructor <;> dsimp only <;> 
        cases p <;> cases hb : s.rw.batch_active <;>
          simp only [hp, hb, reduceCtorEq, if_true, if_false, true_implies, false_implies,
            Bool.false_eq_true, and_true, true_and, and_false, false_and, or_false, false_or,
            implies_true, not_true_eq_false, not_false_eq_true, Bool.true_eq_false, imp_false]
            at o1 o2 o3 o4 o5 o6 hadm ⊢ <;>
          (try split_ifs) <;>
          (try simp only [deliver, count_wake_all, count_wake_one, count_set_pc _ hpc,
            reduceCtorEq, if_true, if_false, true_implies, false_implies,
            Bool.false_eq_true, and_true, true_and, and_false, false_and, or_false, false_or,
            implies_true]) <;>
          (try split_ifs) <;> (try intros) <;> omega
    · cases h
  | reader_unlock t pick =>
    simp only [step] at h
    split at h
    · rename_i hpc
      cases h
      have hpos := count_pos_of_get hpc
      constructor <;> dsimp only <;>  unfold reader_unlock <;>
        (try simp only [hp]) <;>
        cases p <;> cases hb : s.rw.batch_active <;>
          simp only [hp, hb, reduceCtorEq, if_true, if_false, true_implies, false_implies,
            Bool.false_eq_true, and_true, true_and, and_false, false_and, or_false, false_or,
            implies_true, not_true_eq_false, not_false_eq_true, Bool.true_eq_false, imp_false]
            at o1 o2 o3 o4 o5 o6 hadm ⊢ <;>
          (try split_ifs) <;>
          (try simp only [deliver, count_wake_all, count_wake_one, count_set_pc _ hpc,
            reduceCtorEq, if_true, if_false, true_implies, false_implies,
            Bool.false_eq_true, and_true, true_and, and_false, false_and, or_false, false_or,
            implies_true]) <;>
          (try split_ifs) <;> (try intros) <;> omega
    · cases h
  | writer_unlock t pick =>
    simp only [step] at h
    split at h
    · rename_i hpc
      cases h
      have hpos := count_pos_of_get hpc
      constructor <;> dsimp only <;>  unfold writer_unlock <;>
        (try simp only [hp]) <;>
        cases p <;> cases hb : s.rw.batch_active <;>
          simp only [hp, hb, reduceCtorEq, if_true, if_false, true_implies, false_implies,
            Bool.false_eq_true, and_true, true_and, and_false, false_and, or_false, false_or,
            implies_true, not_true_eq_false, not_false_eq_true, Bool.true_eq_false, imp_false]
            at o1 o2 o3 o4 o5 o6 hadm ⊢ <;>
          (try split_ifs) <;>
          (try simp only [deliver, count_wake_all, count_wake_one, count_set_pc _ hpc,
            reduceCtorEq, if_true, if_false, true_implies, false_implies,
            Bool.false_eq_true, and_true, true_and, and_false, false_and, or_false, false_or,
            implies_true]) <;>
          (try split_ifs) <;> (try intros) <;> omega
    · cases h

theorem batch_open_trace {p : PRIORITY} {n L : Int} {R0 : Nat} (evs : List Ev) :
    ∀ {s : Sys} {states : List Sys}, Counts p n s → BatchIdle s → BatchOpen L R0 s →
      trace s evs = some states →
      (∀ sk ∈ states, sk.writer_admits = s.writer_admits) →
      ∀ sk ∈ states, BatchOpen L R0 sk ∧ Counts p n sk := by
  induction evs with
  | nil =>
    intro s states hc _ ho htr _ sk hsk
    simp only [trace, Option.some.injEq] at htr
    subst htr
    simp only [List.mem_singleton] at hsk
    subst hsk
    exact ⟨ho, hc⟩
  | cons e es ih =>
    intro s states hc hb ho htr hint sk hsk
    obtain ⟨s1, rest, hs, htr1, rfl⟩ := trace_cons htr
    have hs1 : s1 ∈ rest := trace_head htr1
    simp only [List.mem_cons] at hsk
    rcases hsk with rfl | hsk
    · exact ⟨ho, hc⟩
    · have h1 := hint s1 (by simp [hs1])
      exact ih (counts_step hc hs) (batch_idle_step hc hb hs)
        (batch_open_step hc ho hb hs h1) htr1
        (fun x hx => by rw [hint x (by simp [hx]), h1]) sk hsk

/-- A woken reader that resumes while the loop test is true goes back to
sleep and nobody is admitted. -/
theorem resume_reader_blocked {s s2 : Sys} {u : Nat} (hpc : s.pcs[u]? = some .r_woken)
    (hw : reader_must_wait s.rw = true) (h : step s (.resume u) = some s2) :
    s2.pcs[u]? = some .r_blocked ∧ s2.rw = s.rw ∧ s2.reader_admits = s.reader_admits := by
  have hlt := lt_of_get hpc
  simp only [step, hpc, Option.some.injEq] at h
  subst h
  simp [reader_try, hw, hlt]

/-- C13: for every N >= 1, when `writer_unlock` runs on an N_WAY lock with a
writer and a reader waiting it opens a batch with
batch_limit = L = min(waiting_readers, N) and current_batch_readers = 0.  From
then until the next writer admission the batch stays open with limit L, the
number of readers admitted since equals current_batch_readers and is at most
L; once current_batch_readers has reached L the reader loop test is true and a
reader that re-checks goes back to sleep; and a writer is admitted only from a
state where no reader holds the lock. -/
theorem batch_window (N : Int) (k : Nat) (s0 s1 : Sys) (t pick : Nat) (hN : 1 ≤ N)
    (hr : Reachable .N_WAY N k s0) (h0 : step s0 (.writer_unlock t pick) = some s1)
    (hww : 0 < s0.rw.waiting_writers) (hwr : 0 < s0.rw.waiting_readers) :
    (s1.rw.batch_active = true ∧ s1.rw.batch_limit = min s0.rw.waiting_readers N ∧
      s1.rw.current_batch_readers = 0) ∧
    ∀ evs states, trace s1 evs = some states →
      (∀ sk ∈ states, sk.writer_admits = s1.writer_admits) →
      ∀ sk ∈ states,
        (sk.rw.batch_active = true ∧ sk.rw.batch_limit = min s0.rw.waiting_readers N) ∧
        ((sk.reader_admits : Int) - s1.reader_admits = sk.rw.current_batch_readers ∧
          sk.rw.current_batch_readers ≤ min s0.rw.waiting_readers N) ∧
        (sk.rw.current_batch_readers = min s0.rw.waiting_readers N →
          reader_must_wait sk.rw = true ∧
          ∀ (u : Nat) (s2 : Sys), sk.pcs[u]? = some .r_woken →
            step sk (.resume u) = some s2 →
            s2.pcs[u]? = some .r_blocked ∧ s2.reader_admits = sk.reader_admits) ∧
        (∀ e s2, step sk e = some s2 → s2.writer_admits = sk.writer_admits + 1 →
          sk.rw.active_readers = 0 ∧ sk.pcs.count .r_holding = 0) := by
  have hc0 := counts_reachable hr
  have hb0 := batch_idle_reachable hr
  have hc1 := counts_step hc0 h0
  have hb1 := batch_idle_step hc0 hb0 h0
  have hw := hc0.width
  simp only [if_true] at hw
  obtain ⟨hL, _⟩ := (n_way_handoff s0.rw hc0.prio).2.1 hww hwr
  rw [hw] at hL
  have hs1 : s1.rw = (writer_unlock s0.rw).1 := by
    simp only [step] at h0
    split at h0
    · cases h0; rfl
    · cases h0
  have hopen : BatchOpen (min s0.rw.waiting_readers N) s1.reader_admits s1 := by
    constructor <;> rw [hs1, hL] <;> simp <;> omega
  refine ⟨⟨hopen.active, hopen.limit, ?_⟩, ?_⟩
  · rw [hs1, hL]
  · intro evs states htr hint sk hsk
    obtain ⟨ho, hc⟩ := batch_open_trace evs hc1 hb1 hopen htr hint sk hsk
    refine ⟨⟨ho.active, ho.limit⟩, ⟨ho.admitted, ho.bound⟩, ?_, ?_⟩
    · intro hfull
      have hwait : reader_must_wait sk.rw = true := by
        rw [← Bool.not_eq_false, reader_free_iff]
        intro hf
        have := hf.2.1 hc.prio ho.active
        have := ho.limit
        omega
      exact ⟨hwait, fun u s2 hpc hs =>
        ⟨(resume_reader_blocked hpc hwait hs).1, (resume_reader_blocked hpc hwait hs).2.2⟩⟩
    · intro e s2 hs hadm
      obtain ⟨hfree, _, _⟩ := step_writer_acquires hs hadm
      rw [writer_free_iff] at hfree
      have := hc.ar
      exact ⟨by omega, by omega⟩

/-- Scenario S5: with five readers and W2 waiting when W1 releases, the batch
limit is 3; in the schedule `s5_window` exactly three readers are admitted, R4
and R5 sleep again, and W2 acquires from the state where the three have
unlocked. -/
theorem batch_window_witness :
    (1 : Int) ≤ 3 ∧ Reachable .N_WAY 3 8 s5_queued ∧
    step s5_queued (.writer_unlock 1 2) = some s5_opened ∧
    trace s5_opened s5_window = some s5_window_states ∧
    s5_s2 ∈ s5_window_states ∧ s5_window_states.getLast? = some s5_s2 ∧
    s5_s2.reader_admits = s5_opened.reader_admits + 3 ∧
    s5_s2.pcs[6]? = some .r_blocked ∧ s5_s2.pcs[7]? = some .r_blocked ∧
    step s5_s2 (.resume 2) = some s5_s3 ∧ s5_s2.rw.active_readers = 0 ∧
    ((s5_s2.rw.batch_active = true ∧
        s5_s2.rw.batch_limit = min s5_queued.rw.waiting_readers 3) ∧
      ((s5_s2.reader_admits : Int) - s5_opened.reader_admits =
          s5_s2.rw.current_batch_readers ∧
        s5_s2.rw.current_batch_readers ≤ min s5_queued.rw.waiting_readers 3) ∧
      (s5_s2.rw.current_batch_readers = min s5_queued.rw.waiting_readers 3 →
        reader_must_wait s5_s2.rw = true ∧
        ∀ (u : Nat) (s2 : Sys), s5_s2.pcs[u]? = some .r_woken →
          step s5_s2 (.resume u) = some s2 →
          s2.pcs[u]? = some .r_blocked ∧ s2.reader_admits = s5_s2.reader_admits) ∧
      (∀ e s2, step s5_s2 e = some s2 → s2.writer_admits = s5_s2.writer_admits + 1 →
        s5_s2.rw.active_readers = 0 ∧ s5_s2.pcs.count .r_holding = 0)) :=
  ⟨by decide, reachable_s5_queued, by decide, by decide, by decide, by decide, by decide,
   by decide, by decide, by decide, by decide,
   (batch_window 3 8 s5_queued s5_opened 1 2 (by decide) reachable_s5_queued (by decide)
      (by decide) (by decide)).2 s5_window s5_window_states (by decide) (by decide)
      s5_s2 (by decide)⟩

/-! ## Release with no writer waiting -/

theorem reachable_s5_s3 : Reachable .N_WAY 3 8 s5_s3 :=
  ⟨fresh .N_WAY 3, s5_before ++ [.resume 1] ++ s5_interval ++ [.resume 2], rfl, by decide⟩

/-- A woken reader that resumes while the loop test is false is admitted. -/
theorem resume_reader_admitted {s : Sys} {u : Nat} (hpc : s.pcs[u]? = some .r_woken)
    (hw : reader_must_wait s.rw = false) :
    step s (.resume u) =
      some { s with
        rw := reader_lock_acquire s.rw
        pcs := s.pcs.set u .r_holding
        reader_admits := s.reader_admits + 1 } := by
  simp [step, hpc, reader_try, hw]

/-- Two woken readers that resume one after the other while the loop test is
false and no batch is open are both admitted and counted against no batch. -/
theorem two_readers_resume {s : Sys} {r4 r5 : Nat} (hne : r4 ≠ r5)
    (h4 : s.pcs[r4]? = some .r_woken) (h5 : s.pcs[r5]? = some .r_woken)
    (hfree : reader_must_wait s.rw = false) (hact : s.rw.batch_active = false) :
    ∃ s2, run s [.resume r4, .resume r5] = some s2 ∧
      s2.pcs[r4]? = some .r_holding ∧ s2.pcs[r5]? = some .r_holding ∧
      s2.rw.active_readers = s.rw.active_readers + 2 ∧ s2.rw.batch_active = false ∧
      s2.rw.current_batch_readers = s.rw.current_batch_readers ∧
      s2.reader_admits = s.reader_admits + 2 := by
  have hlt4 := lt_of_get h4
  have hlt5 := lt_of_get h5
  have hs4 := resume_reader_admitted h4 hfree
  obtain ⟨f1, f2, f3, f4, f5, f6, f7, f8, f9⟩ := reader_admit_fields s.rw
  obtain ⟨g1, g2, g3, g4, g5, g6, g7, g8, g9⟩ := reader_admit_fields (reader_lock_acquire s.rw)
  have hfree2 : reader_must_wait (reader_lock_acquire s.rw) = false := by
    rw [reader_free_iff, f2, f4, f5, f7, hact]
    rw [reader_free_iff, hact] at hfree
    exact ⟨hfree.1, fun _ hh => absurd hh (by simp), hfree.2.2⟩
  have h5' : (s.pcs.set r4 .r_holding)[r5]? = some .r_woken := by
    rw [List.getElem?_set, if_neg hne]
    exact h5
  have hs5 := @resume_reader_admitted
    ⟨reader_lock_acquire s.rw, s.pcs.set r4 .r_holding, s.reader_admits + 1,
      s.writer_admits⟩ r5 h5' hfree2
  dsimp only at hs5
  refine ⟨⟨reader_lock_acquire (reader_lock_acquire s.rw),
    (s.pcs.set r4 .r_holding).set r5 .r_holding, s.reader_admits + 1 + 1,
    s.writer_admits⟩, ?_, ?_, ?_, ?_, ?_, ?_, ?_⟩
  · simp only [run, hs4, hs5]
  · show ((s.pcs.set r4 .r_holding).set r5 .r_holding)[r4]? = some .r_holding
    rw [List.getElem?_set, if_neg (fun h => hne h.symm), List.getElem?_set]
    simp [hlt4]
  · show ((s.pcs.set r4 .r_holding).set r5 .r_holding)[r5]? = some .r_holding
    rw [List.getElem?_set]
    simp [hlt5]
  · show (reader_lock_acquire (reader_lock_acquire s.rw)).active_readers = _
    rw [g1, f1]
    omega
  · show (reader_lock_acquire (reader_lock_acquire s.rw)).batch_active = false
    rw [g7, f7, hact]
  · show (reader_lock_acquire (reader_lock_acquire s.rw)).current_batch_readers = _
    rw [g9, f7, f9, hact]
    simp
  · rfl

/-- C14 as stated fails.  In scenario S5, when W2 (thread 2) calls
`writer_unlock` with R4 and R5 waiting and no writer waiting, no batch is
opened: batch_active is false and batch_limit is 0 afterwards, not true and 2. -/
theorem second_release_counterexample :
    ¬ (∀ (k : Nat) (s s1 : Sys) (t pick : Nat), Reachable .N_WAY 3 k s →
        s.rw.waiting_readers = 2 → s.rw.waiting_writers = 0 →
        step s (.writer_unlock t pick) = some s1 →
        s1.rw.batch_active = true ∧ s1.rw.batch_limit = 2) := by
  intro h
  have h1 := h 8 s5_s3 s5_released 2 0 reachable_s5_s3 (by decide) (by decide) (by decide)
  revert h1
  decide

/-- C14 (amended): on a lock made by `rwlock_new(N_WAY, 3)`, when a writer calls
`writer_unlock` while exactly two readers wait and no writer waits, it opens no
batch: batch_active is false, batch_limit and current_batch_readers are 0, and
`readers_cv` is broadcast, so both readers have a wake-up pending and the
reader loop test is false.  Both readers are then admitted when they resume,
counted against no batch. -/
theorem second_release (k : Nat) (s s1 : Sys) (t pick : Nat)
    (hr : Reachable .N_WAY 3 k s) (hwr : s.rw.waiting_readers = 2)
    (hww : s.rw.waiting_writers = 0) (h : step s (.writer_unlock t pick) = some s1) :
    (s1.rw.batch_active = false ∧ s1.rw.batch_limit = 0 ∧
      s1.rw.current_batch_readers = 0) ∧
    (writer_unlock s.rw).2 = .broadcast_readers ∧
    (s1.pcs.count .r_blocked = 0 ∧ s1.pcs.count .r_woken = 2 ∧
      reader_must_wait s1.rw = false) ∧
    ∀ r4 r5 : Nat, r4 ≠ r5 → s1.pcs[r4]? = some .r_woken → s1.pcs[r5]? = some .r_woken →
      ∃ s2, run s1 [.resume r4, .resume r5] = some s2 ∧
        s2.pcs[r4]? = some .r_holding ∧ s2.pcs[r5]? = some .r_holding ∧
        s2.rw.active_readers = 2 ∧ s2.rw.batch_active = false ∧
        s2.rw.current_batch_readers = 0 ∧ s2.reader_admits = s1.reader_admits + 2 := by
  have hc := counts_reachable hr
  have hb := batch_idle_reachable hr
  obtain ⟨hu, hn⟩ := (n_way_handoff s.rw hc.prio).2.2.2 (by omega)
  simp only [step] at h
  split at h
  · rename_i hpc
    cases h
    have hpos := count_pos_of_get hpc
    have haw := hc.aw
    have har := hc.ar
    have hx := hc.excl
    have hcl := hb.clear (by omega)
    obtain ⟨hz1, hz2⟩ := hb.zero hcl
    have hwrc := hc.wr
    have hfree : reader_must_wait (writer_unlock s.rw).1 = false := by
      rw [reader_free_iff, hu]
      simp [hww]
    have hcnt1 : (deliver (writer_unlock s.rw).2 pick (s.pcs.set t .idle)).count .r_blocked = 0 := by
      rw [hn]
      simp only [deliver, count_wake_all, if_true]
    have hcnt2 : (deliver (writer_unlock s.rw).2 pick (s.pcs.set t .idle)).count .r_woken = 2 := by
      rw [hn]
      simp only [deliver, count_wake_all, count_set_pc _ hpc, reduceCtorEq, if_true, if_false]
      omega
    refine ⟨?_, hn, ⟨hcnt1, hcnt2, hfree⟩, ?_⟩
    · show (writer_unlock s.rw).1.batch_active = false ∧ (writer_unlock s.rw).1.batch_limit = 0 ∧
        (writer_unlock s.rw).1.current_batch_readers = 0
      rw [hu]
      exact ⟨rfl, hz2, hz1⟩
    · intro r4 r5 hne h4 h5
      have hact : (writer_unlock s.rw).1.batch_active = false := by rw [hu]
      obtain ⟨s2, h1, h2, h3, h4', h5', h6, h7⟩ := two_readers_resume hne h4 h5 hfree hact
      refine ⟨s2, h1, h2, h3, ?_, h5', ?_, h7⟩
      · rw [h4']
        show (writer_unlock s.rw).1.active_readers + 2 = 2
        rw [hu]
        show s.rw.active_readers + 2 = 2
        omega
      · rw [h6]
        show (writer_unlock s.rw).1.current_batch_readers = 0
        rw [hu]
        exact hz1
  · cases h

/-- Scenario S5, second release: W2 (thread 2) releases with R4, R5 (threads 6,
7) waiting; both are admitted and hold the lock with no batch open. -/
theorem second_release_witness :
    Reachable .N_WAY 3 8 s5_s3 ∧ s5_s3.rw.waiting_readers = 2 ∧
    s5_s3.rw.waiting_writers = 0 ∧ step s5_s3 (.writer_unlock 2 0) = some s5_released ∧
    (s5_released.pcs[6]? = some .r_woken ∧ s5_released.pcs[7]? = some .r_woken) ∧
    (∃ s2, run s5_released [.resume 6, .resume 7] = some s2 ∧
      s2.pcs[6]? = some .r_holding ∧ s2.pcs[7]? = some .r_holding ∧
      s2.rw.active_readers = 2 ∧ s2.rw.batch_active = false ∧
      s2.rw.current_batch_readers = 0 ∧
      s2.reader_admits = s5_released.reader_admits + 2) ∧
    run s5_released [.resume 6, .resume 7] = some s5_both :=
  ⟨reachable_s5_s3, by decide, by decide, by decide, by decide,
   (second_release 8 s5_s3 s5_released 2 0 reachable_s5_s3 (by decide) (by decide)
      (by decide)).2.2.2 6 7 (by decide) (by decide) (by decide),
   by decide⟩

/-! ## Reader release -/

/-- A broadcast on `readers_cv` is the only notification that unblocks a
sleeping reader. -/
theorem deliver_keeps_readers (nt : Notify) (pick : Nat) (pcs : List Pc)
    (h : nt ≠ .broadcast_readers) :
    (deliver nt pick pcs).count .r_blocked = pcs.count .r_blocked ∧
    (deliver nt pick pcs).count .r_woken = pcs.count .r_woken := by
  cases nt with
  | nothing => exact ⟨rfl, rfl⟩
  | broadcast_readers => exact absurd rfl h
  | signal_writers =>
    simp only [deliver, count_wake_one, reduceCtorEq, if_false]
    constructor <;> split_ifs <;> omega

/-- C21: `reader_unlock` decrements `active_readers` by exactly one and changes
no other field; it signals `writers_cv` exactly when the resulting
`active_readers` is 0 and `waiting_writers > 0`; it never notifies `readers_cv`
(in a step of the thread system no sleeping reader is unblocked by it); on a
null handle it does nothing. -/
theorem reader_unlock_spec (rw : rwlock) :
    (reader_unlock rw).1 = { rw with active_readers := rw.active_readers - 1 } ∧
    ((reader_unlock rw).2 = .signal_writers ↔
      ((reader_unlock rw).1.active_readers = 0 ∧ (reader_unlock rw).1.waiting_writers > 0)) ∧
    ((reader_unlock rw).2 = .signal_writers ∨ (reader_unlock rw).2 = .nothing) ∧
    (reader_unlock rw).2 ≠ .broadcast_readers ∧
    reader_unlock_call none = (none, .nothing) ∧
    reader_unlock_call (some rw) = (some (reader_unlock rw).1, (reader_unlock rw).2) ∧
    (∀ (s s1 : Sys) (t pick : Nat), s.rw = rw → step s (.reader_unlock t pick) = some s1 →
      s1.rw = { rw with active_readers := rw.active_readers - 1 } ∧
      s1.pcs.count .r_blocked = s.pcs.count .r_blocked ∧
      s1.pcs.count .r_woken = s.pcs.count .r_woken) := by
  obtain ⟨f1, f2⟩ := reader_unlock_fields rw
  have hnb : (reader_unlock rw).2 ≠ .broadcast_readers := by
    rw [f2]; split_ifs <;> simp
  refine ⟨f1, ?_, ?_, hnb, rfl, rfl, ?_⟩
  · rw [f1, f2]
    dsimp only
    split_ifs with hc
    · simp [hc]
    · simp only [reduceCtorEq, false_iff]
      exact hc
  · rw [f2]; split_ifs <;> simp
  · intro s s1 t pick hs h
    subst hs
    simp only [step] at h
    split at h
    · rename_i hpc
      cases h
      dsimp only
      obtain ⟨d1, d2⟩ := deliver_keeps_readers (reader_unlock s.rw).2 pick (s.pcs.set t .idle) hnb
      refine ⟨f1, ?_, ?_⟩
      · rw [d1, count_set_pc _ hpc]; simp
      · rw [d2, count_set_pc _ hpc]; simp
    · cases h

/-! ## What the counters count -/

/-- Bookkeeping of one step: admissions minus releases move `active_*`, calls
minus admissions move `waiting_*`. -/
theorem ledger_step {p : PRIORITY} {n : Int} {s s1 : Sys} {e : Ev} (hc : Counts p n s)
    (h : step s e = some s1) :
    s1.rw.active_readers - (s1.reader_admits : Int) +
        (if e.is_reader_unlock = true then 1 else 0) =
      s.rw.active_readers - (s.reader_admits : Int) ∧
    s1.rw.waiting_readers + (s1.reader_admits : Int) -
        (if e.is_reader_lock = true then 1 else 0) =
      s.rw.waiting_readers + (s.reader_admits : Int) ∧
    s1.rw.active_writers - (s1.writer_admits : Int) +
        (if e.is_writer_unlock = true then 1 else 0) =
      s.rw.active_writers - (s.writer_admits : Int) ∧
    s1.rw.waiting_writers + (s1.writer_admits : Int) -
        (if e.is_writer_lock = true then 1 else 0) =
      s.rw.waiting_writers + (s.writer_admits : Int) := by
  obtain ⟨hp, hw, har, haw, hwr, hww, h1, hx⟩ := hc
  cases e with
  | reader_lock t =>
    simp only [step] at h
    split at h
    · rename_i hpc
      cases h
      have hpos := count_pos_of_get hpc
      unfold reader_try
      split
      · rename_i hnw
        rw [← Bool.not_eq_false, reader_free_iff] at hnw
        simp only [reader_lock_enter] at hnw
        refine ⟨?_, ?_, ?_, ?_⟩ <;> dsimp only <;> (try simp only [Ev.is_reader_lock, Ev.is_reader_unlock, Ev.is_writer_lock, Ev.is_writer_unlock, if_true, if_false, Bool.false_eq_true]) <;>
          (try simp only [reader_lock_enter]) <;>
          cases p <;> cases hb : s.rw.batch_active <;>
          (try simp only [hp, hb, reduceCtorEq, if_true, if_false, true_implies, false_implies,
            Bool.false_eq_true, and_true, true_and, and_false, false_and, or_false, false_or,
            implies_true, not_true_eq_false, not_false_eq_true, Bool.true_eq_false, imp_false]
            at har hnw ⊢) <;>
          (try split_ifs) <;>
          (try simp only [deliver, count_wake_all, count_wake_one, count_set_pc _ hpc,
            reduceCtorEq, if_true, if_false, true_implies, false_implies,
            Bool.false_eq_true, and_true, true_and, and_false, false_and, or_false, false_or,
            implies_true]) <;>
          (try split_ifs) <;> (try intros) <;> omega
      · rename_i hnw
        rw [Bool.not_eq_true, reader_free_iff] at hnw
        simp only [reader_lock_enter] at hnw
        obtain ⟨f1, f2, f3, f4, f5, f6, f7, f8, f9⟩ :=
          reader_admit_fields (reader_lock_enter s.rw)
        refine ⟨?_, ?_, ?_, ?_⟩ <;> dsimp only <;> (try simp only [Ev.is_reader_lock, Ev.is_reader_unlock, Ev.is_writer_lock, Ev.is_writer_unlock, if_true, if_false, Bool.false_eq_true]) <;>
          (try simp only [f1, f2, f3, f4, f5, f6, f7, f8, f9]) <;>
          (try simp only [reader_lock_enter]) <;>
          cases p <;> cases hb : s.rw.batch_active <;>
          (try simp only [hp, hb, reduceCtorEq, if_true, if_false, true_implies, false_implies,
            Bool.false_eq_true, and_true, true_and, and_false, false_and, or_false, false_or,
            implies_true, not_true_eq_false, not_false_eq_true, Bool.true_eq_false, imp_false]
            at har hnw ⊢) <;>
          (try split_ifs) <;>
          (try simp only [deliver, count_wake_all, count_wake_one, count_set_pc _ hpc,
            reduceCtorEq, if_true, if_false, true_implies, false_implies,
            Bool.false_eq_true, and_true, true_and, and_false, false_and, or_false, false_or,
            implies_true]) <;>
          (try split_ifs) <;> (try intros) <;> omega
    · cases h
  | writer_lock t =>
    simp only [step] at h
    split at h
    · rename_i hpc
      cases h
      have hpos := count_pos_of_get hpc
      unfold writer_try
      split
      · rename_i hnw
        rw [← Bool.not_eq_false, writer_free_iff] at hnw
        simp only [writer_lock_enter] at hnw
        refine ⟨?_, ?_, ?_, ?_⟩ <;> dsimp only <;> (try simp only [Ev.is_reader_lock, Ev.is_reader_unlock, Ev.is_writer_lock, Ev.is_writer_unlock, if_true, if_false, Bool.false_eq_true]) <;>
          (try simp only [writer_lock_enter]) <;>
          cases p <;> cases hb : s.rw.batch_active <;>
          (try simp only [hp, hb, reduceCtorEq, if_true, if_false, true_implies, false_implies,
            Bool.false_eq_true, and_true, true_and, and_false, false_and, or_false, false_or,
            implies_true, not_true_eq_false, not_false_eq_true, Bool.true_eq_false, imp_false]
            at har hnw ⊢) <;>
          (try split_ifs) <;>
          (try simp only [deliver, count_wake_all, count_wake_one, count_set_pc _ hpc,
            reduceCtorEq, if_true, if_false, true_implies, false_implies,
            Bool.false_eq_true, and_true, true_and, and_false, false_and, or_false, false_or,
            implies_true]) <;>
          (try split_ifs) <;> (try intros) <;> omega
      · rename_i hnw
        rw [Bool.not_eq_true, writer_free_iff] at hnw
        simp only [writer_lock_enter] at hnw
        obtain ⟨f1, f2, f3, f4, f5, f6, f7, f8, f9⟩ :=
          writer_admit_fields (writer_lock_enter s.rw)
        refine ⟨?_, ?_, ?_, ?_⟩ <;> dsimp only <;> (try simp only [Ev.is_reader_lock, Ev.is_reader_unlock, Ev.is_writer_lock, Ev.is_writer_unlock, if_true, if_false, Bool.false_eq_true]) <;>
          (try simp only [f1, f2, f3, f4, f5, f6, f7, f8, f9]) <;>
          (try simp only [writer_lock_enter]) <;>
          cases p <;> cases hb : s.rw.batch_active <;>
          (try simp only [hp, hb, reduceCtorEq, if_true, if_false, true_implies, false_implies,
            Bool.false_eq_true, and_true, true_and, and_false, false_and, or_false, false_or,
            implies_true, not_true_eq_false, not_false_eq_true, Bool.true_eq_false, imp_false]
            at har hnw ⊢) <;>
          (try split_ifs) <;>
          (try simp only [deliver, count_wake_all, count_wake_one, count_set_pc _ hpc,
            reduceCtorEq, if_true, if_false, true_implies, false_implies,
            Bool.false_eq_true, and_true, true_and, and_false, false_and, or_false, false_or,
            implies_true]) <;>
          (try split_ifs) <;> (try intros) <;> omega
    · cases h
  | resume t =>
    simp only [step] at h
    split at h
    · rename_i hpc
      cases h
      have hpos := count_pos_of_get hpc
      unfold reader_try
      split
      · rename_i hnw
        rw [← Bool.not_eq_false, reader_free_iff] at hnw
        refine ⟨?_, ?_, ?_, ?_⟩ <;> dsimp only <;> (try simp only [Ev.is_reader_lock, Ev.is_reader_unlock, Ev.is_writer_lock, Ev.is_writer_unlock, if_true, if_false, Bool.false_eq_true]) <;>
          cases p <;> cases hb : s.rw.batch_active <;>
          (try simp only [hp, hb, reduceCtorEq, if_true, if_false, true_implies, false_implies,
            Bool.false_eq_true, and_true, true_and, and_false, false_and, or_false, false_or,
            implies_true, not_true_eq_false, not_false_eq_true, Bool.true_eq_false, imp_false]
            at har hnw ⊢) <;>
          (try split_ifs) <;>
          (try simp only [deliver, count_wake_all, count_wake_one, count_set_pc _ hpc,
            reduceCtorEq, if_true, if_false, true_implies, false_implies,
            Bool.false_eq_true, and_true, true_and, and_false, false_and, or_false, false_or,
            implies_true]) <;>
          (try split_ifs) <;> (try intros) <;> omega
      · rename_i hnw
        rw [Bool.not_eq_true, reader_free_iff] at hnw
        obtain ⟨f1, f2, f3, f4, f5, f6, f7, f8, f9⟩ := reader_admit_fields s.rw
        refine ⟨?_, ?_, ?_, ?_⟩ <;> dsimp only <;> (try simp only [Ev.is_reader_lock, Ev.is_reader_unlock, Ev.is_writer_lock, Ev.is_writer_unlock, if_true, if_false, Bool.false_eq_true]) <;>
          (try simp only [f1, f2, f3, f4, f5, f6, f7, f8, f9]) <;>
          cases p <;> cases hb : s.rw.batch_active <;>
          (try simp only [hp, hb, reduceCtorEq, if_true, if_false, true_implies, false_implies,
            Bool.false_eq_true, and_true, true_and, and_false, false_and, or_false, false_or,
            implies_true, not_true_eq_false, not_false_eq_true, Bool.true_eq_false, imp_false]
            at har hnw ⊢) <;>
          (try split_ifs) <;>
          (try simp only [deliver, count_wake_all, count_wake_one, count_set_pc _ hpc,
            reduceCtorEq, if_true, if_false, true_implies, false_implies,
            Bool.false_eq_true, and_true, true_and, and_false, false_and, or_false, false_or,
            implies_true]) <;>
          (try split_ifs) <;> (try intros) <;> omega
    · rename_i hpc
      cases h
      have hpos := count_pos_of_get hpc
      unfold writer_try
      split
      · rename_i hnw
        rw [← Bool.not_eq_false, writer_free_iff] at hnw
        refine ⟨?_, ?_, ?_, ?_⟩ <;> dsimp only <;> (try simp only [Ev.is_reader_lock, Ev.is_reader_unlock, Ev.is_writer_lock, Ev.is_writer_unlock, if_true, if_false, Bool.false_eq_true]) <;>
          cases p <;> cases hb : s.rw.batch_active <;>
          (try simp only [hp, hb, reduceCtorEq, if_true, if_false, true_implies, false_implies,
            Bool.false_eq_true, and_true, true_and, and_false, false_and, or_false, false_or,
            implies_true, not_true_eq_false, not_false_eq_true, Bool.true_eq_false, imp_false]
            at har hnw ⊢) <;>
          (try split_ifs) <;>
          (try simp only [deliver, count_wake_all, count_wake_one, count_set_pc _ hpc,
            reduceCtorEq, if_true, if_false, true_implies, false_implies,
            Bool.false_eq_true, and_true, true_and, and_false, false_and, or_false, false_or,
            implies_true]) <;>
          (try split_ifs) <;> (try intros) <;> omega
      · rename_i hnw
        rw [Bool.not_eq_true, writer_free_iff] at hnw
        obtain ⟨f1, f2, f3, f4, f5, f6, f7, f8, f9⟩ := writer_admit_fields s.rw
        refine ⟨?_, ?_, ?_, ?_⟩ <;> dsimp only <;> (try simp only [Ev.is_reader_lock, Ev.is_reader_unlock, Ev.is_writer_lock, Ev.is_writer_unlock, if_true, if_false, Bool.false_eq_true]) <;>
          (try simp only [f1, f2, f3, f4, f5, f6, f7, f8, f9]) <;>
          cases p <;> cases hb : s.rw.batch_active <;>
          (try simp only [hp, hb, reduceCtorEq, if_true, if_false, true_implies, false_implies,
            Bool.false_eq_true, and_true, true_and, and_false, false_and, or_false, false_or,
            implies_true, not_true_eq_false, not_false_eq_true, Bool.true_eq_false, imp_false]
            at har hnw ⊢) <;>
          (try split_ifs) <;>
          (try simp only [deliver, count_wake_all, count_wake_one, count_set_pc _ hpc,
            reduceCtorEq, if_true, if_false, true_implies, false_implies,
            Bool.false_eq_true, and_true, true_and, and_false, false_and, or_false, false_or,
            implies_true]) <;>
          (try split_ifs) <;> (try intros) <;> omega
    · cases h
  | spurious t =>
    simp only [step] at h
    split at h
    · rename_i hpc
      cases h
      have hpos := count_pos_of_get hpc
      refine ⟨?_, ?_, ?_, ?_⟩ <;> dsimp only <;> (try simp only [Ev.is_reader_lock, Ev.is_reader_unlock, Ev.is_writer_lock, Ev.is_writer_unlock, if_true, if_false, Bool.false_eq_true]) <;>
        cases p <;> cases hb : s.rw.batch_active <;>
          (try simp only [hp, hb, reduceCtorEq, if_true, if_false, true_implies, false_implies,
            Bool.false_eq_true, and_true, true_and, and_false, false_and, or_false, false_or,
            implies_true, not_true_eq_false, not_false_eq_true, Bool.true_eq_false, imp_false]
            at har ⊢) <;>
          (try split_ifs) <;>
          (try simp only [deliver, count_wake_all, count_wake_one, count_set_pc _ hpc,
            reduceCtorEq, if_true, if_false, true_implies, false_implies,
            Bool.false_eq_true, and_true, true_and, and_false, false_and, or_false, false_or,
            implies_true]) <;>
          (try split_ifs) <;> (try intros) <;> omega
    · rename_i hpc
      cases h
      have hpos := count_pos_of_get hpc
      refine ⟨?_, ?_, ?_, ?_⟩ <;> dsimp only <;> (try simp only [Ev.is_reader_lock, Ev.is_reader_unlock, Ev.is_writer_lock, Ev.is_writer_unlock, if_true, if_false, Bool.false_eq_true]) <;>
        cases p <;> cases hb : s.rw.batch_active <;>
          (try simp only [hp, hb, reduceCtorEq, if_true, if_false, true_implies, false_implies,
            Bool.false_eq_true, and_true, true_and, and_false, false_and, or_false, false_or,
            implies_true, not_true_eq_false, not_false_eq_true, Bool.true_eq_false, imp_false]
            at har ⊢) <;>
          (try split_ifs) <;>
          (try simp only [deliver, count_wake_all, count_wake_one, count_set_pc _ hpc,
            reduceCtorEq, if_true, if_false, true_implies, false_implies,
            Bool.false_eq_true, and_true, true_and, and_false, false_and, or_false, false_or,
            implies_true]) <;>
          (try split_ifs) <;> (try intros) <;> omega
    · cases h
  | reader_unlock t pick =>
    simp only [step] at h
    split at h
    · rename_i hpc
      cases h
      have hpos := count_pos_of_get hpc
      refine ⟨?_, ?_, ?_, ?_⟩ <;> dsimp only <;> (try simp only [Ev.is_reader_lock, Ev.is_reader_unlock, Ev.is_writer_lock, Ev.is_writer_unlock, if_true, if_false, Bool.false_eq_true]) <;> unfold reader_unlock <;>
        (try simp only [hp]) <;>
        cases p <;> cases hb : s.rw.batch_active <;>
          (try simp only [hp, hb, reduceCtorEq, if_true, if_false, true_implies, false_implies,
            Bool.false_eq_true, and_true, true_and, and_false, false_and, or_false, false_or,
            implies_true, not_true_eq_false, not_false_eq_true, Bool.true_eq_false, imp_false]
            at har ⊢) <;>
          (try split_ifs) <;>
          (try simp only [deliver, count_wake_all, count_wake_one, count_set_pc _ hpc,
            reduceCtorEq, if_true, if_false, true_implies, false_implies,
            Bool.false_eq_true, and_true, true_and, and_false, false_and, or_false, false_or,
            implies_true]) <;>
          (try split_ifs) <;> (try intros) <;> omega
    · cases h
  | writer_unlock t pick =>
    simp only [step] at h
    split at h
    · rename_i hpc
      cases h
      have hpos := count_pos_of_get hpc
      refine ⟨?_, ?_, ?_, ?_⟩ <;> dsimp only <;> (try simp only [Ev.is_reader_lock, Ev.is_reader_unlock, Ev.is_writer_lock, Ev.is_writer_unlock, if_true, if_false, Bool.false_eq_true]) <;> unfold writer_unlock <;>
        (try simp only [hp]) <;>
        cases p <;> cases hb : s.rw.batch_active <;>
          (try simp only [hp, hb, reduceCtorEq, if_true, if_false, true_implies, false_implies,
            Bool.false_eq_true, and_true, true_and, and_false, false_and, or_false, false_or,
            implies_true, not_true_eq_false, not_false_eq_true, Bool.true_eq_false, imp_false]
            at har ⊢) <;>
          (try split_ifs) <;>
          (try simp only [deliver, count_wake_all, count_wake_one, count_set_pc _ hpc,
            reduceCtorEq, if_true, if_false, true_implies, false_implies,
            Bool.false_eq_true, and_true, true_and, and_false, false_and, or_false, false_or,
            implies_true]) <;>
          (try split_ifs) <;> (try intros) <;> omega
    · cases h


/-- Bookkeeping of a schedule. -/
theorem ledger_run {p : PRIORITY} {n : Int} (evs : List Ev) :
    ∀ {s s1 : Sys}, Counts p n s → run s evs = some s1 →
      s1.rw.active_readers - (s1.reader_admits : Int) + evs.countP Ev.is_reader_unlock =
        s.rw.active_readers - (s.reader_admits : Int) ∧
      s1.rw.waiting_readers + (s1.reader_admits : Int) - evs.countP Ev.is_reader_lock =
        s.rw.waiting_readers + (s.reader_admits : Int) ∧
      s1.rw.active_writers - (s1.writer_admits : Int) + evs.countP Ev.is_writer_unlock =
        s.rw.active_writers - (s.writer_admits : Int) ∧
      s1.rw.waiting_writers + (s1.writer_admits : Int) - evs.countP Ev.is_writer_lock =
        s.rw.waiting_writers + (s.writer_admits : Int) := by
  induction evs with
  | nil =>
    intro s s1 hc h
    simp only [run, Option.some.injEq] at h
    subst h
    simp
  | cons e es ih =>
    intro s s1 hc h
    simp only [run] at h
    split at h
    · cases h
    · rename_i s2 hs
      obtain ⟨a1, a2, a3, a4⟩ := ledger_step hc hs
      obtain ⟨b1, b2, b3, b4⟩ := ih (counts_step hc hs) h
      simp only [List.countP_cons]
      refine ⟨?_, ?_, ?_, ?_⟩ <;> split_ifs at a1 a2 a3 a4 ⊢ <;> push_cast <;> omega

/-- C23: for every policy and every state reached by a schedule of balanced
calls from `rwlock_new`: `active_readers` is the number of threads admitted by
`reader_lock` that have not yet called `reader_unlock` (the threads at
`r_holding`; equally, admissions so far minus `reader_unlock` calls so far),
`active_writers` is 0 or 1 and is the number of threads admitted by
`writer_lock` that have not yet called `writer_unlock`, `waiting_readers` and
`waiting_writers` are the numbers of threads that entered `reader_lock` /
`writer_lock` and are not yet admitted (calls minus admissions), and all four
counters are non-negative. -/
theorem rwlock_counters (p : PRIORITY) (n : Int) (k : Nat) (rw : rwlock) (evs : List Ev)
    (s : Sys) (hnew : rwlock_new p n true = some rw) (hrun : run (init rw k) evs = some s) :
    (s.rw.active_readers = s.pcs.count .r_holding ∧
      s.rw.active_readers = (s.reader_admits : Int) - evs.countP Ev.is_reader_unlock) ∧
    (s.rw.active_writers = s.pcs.count .w_holding ∧
      s.rw.active_writers = (s.writer_admits : Int) - evs.countP Ev.is_writer_unlock ∧
      (s.rw.active_writers = 0 ∨ s.rw.active_writers = 1)) ∧
    (s.rw.waiting_readers = s.pcs.count .r_blocked + s.pcs.count .r_woken ∧
      s.rw.waiting_readers = (evs.countP Ev.is_reader_lock : Int) - s.reader_admits) ∧
    (s.rw.waiting_writers = s.pcs.count .w_blocked + s.pcs.count .w_woken ∧
      s.rw.waiting_writers = (evs.countP Ev.is_writer_lock : Int) - s.writer_admits) ∧
    0 ≤ s.rw.active_readers ∧ 0 ≤ s.rw.active_writers ∧
    0 ≤ s.rw.waiting_readers ∧ 0 ≤ s.rw.waiting_writers := by
  have hc0 := counts_init p n k rw hnew
  have hc := counts_run evs hc0 hrun
  obtain ⟨a1, a2, a3, a4⟩ := ledger_run evs hc0 hrun
  simp only [rwlock_new, if_false, Bool.true_eq_false, Option.some.injEq] at hnew
  subst hnew
  simp only [init, Nat.cast_zero] at a1 a2 a3 a4
  have har := hc.ar
  have haw := hc.aw
  have hwr := hc.wr
  have hww := hc.ww
  have h1 := hc.one_writer
  refine ⟨⟨har, by omega⟩, ⟨haw, by omega, by omega⟩, ⟨hwr, by omega⟩, ⟨hww, by omega⟩,
    by omega, by omega, by omega, by omega⟩

theorem rwlock_counters_witness :
    rwlock_new .N_WAY 3 true = some (fresh .N_WAY 3) ∧
    run (init (fresh .N_WAY 3) 8) (s5_before ++ [.resume 1] ++ s5_queue_up) = some s5_queued ∧
    s5_queued.rw.waiting_writers = 1 ∧
    s5_queued.rw.waiting_writers =
      ((List.countP Ev.is_writer_lock (s5_before ++ [Ev.resume 1] ++ s5_queue_up) : Nat) : Int) -
        s5_queued.writer_admits :=
  ⟨rfl, by decide, by decide,
   (rwlock_counters .N_WAY 3 8 (fresh .N_WAY 3) (s5_before ++ [.resume 1] ++ s5_queue_up)
     s5_queued rfl (by decide)).2.2.2.1.2⟩

/-! ## Batch fields at rest -/

/-- C26: in every reachable state of any lock, `batch_active = false` implies
`current_batch_readers = 0` and `batch_limit = 0`; whenever a holder can call
`writer_unlock` the batch state is cleared (false, 0, 0); and on a READERS or
WRITERS lock the three batch fields have their initial values in every
reachable state, so no step changes them. -/
theorem batch_fields_idle (p : PRIORITY) (n : Int) (k : Nat) (s : Sys)
    (h : Reachable p n k s) :
    (s.rw.batch_active = false →
      s.rw.current_batch_readers = 0 ∧ s.rw.batch_limit = 0) ∧
    (∀ (t pick : Nat) (s1 : Sys), step s (.writer_unlock t pick) = some s1 →
      s.rw.batch_active = false ∧ s.rw.current_batch_readers = 0 ∧ s.rw.batch_limit = 0) ∧
    (p ≠ .N_WAY →
      (s.rw.batch_active = false ∧ s.rw.current_batch_readers = 0 ∧ s.rw.batch_limit = 0) ∧
      ∀ (e : Ev) (s1 : Sys), step s e = some s1 →
        s1.rw.batch_active = false ∧ s1.rw.current_batch_readers = 0 ∧
        s1.rw.batch_limit = 0) := by
  have hc := counts_reachable h
  have hb := batch_idle_reachable h
  have rest : ∀ {s : Sys}, Counts p n s → BatchIdle s → p ≠ .N_WAY →
      s.rw.batch_active = false ∧ s.rw.current_batch_readers = 0 ∧ s.rw.batch_limit = 0 := by
    intro s hc hb hp
    have hf : s.rw.batch_active = false := by
      cases hba : s.rw.batch_active
      · rfl
      · exact absurd ((hb.needs hba).1.symm.trans hc.prio).symm hp
    exact ⟨hf, hb.zero hf⟩
  refine ⟨hb.zero, ?_, ?_⟩
  · intro t pick s1 hs
    simp only [step] at hs
    split at hs
    · rename_i hpc
      have hpos := count_pos_of_get hpc
      have haw := hc.aw
      have hf := hb.clear (by omega)
      exact ⟨hf, hb.zero hf⟩
    · cases hs
  · intro hp
    refine ⟨rest hc hb hp, ?_⟩
    intro e s1 hs
    exact rest (counts_step hc hs) (batch_idle_step hc hb hs) hp

theorem batch_fields_idle_witness :
    Reachable .N_WAY 3 8 s5_queued ∧
    step s5_queued (.writer_unlock 1 2) = some s5_opened ∧
    (s5_queued.rw.batch_active = false ∧ s5_queued.rw.current_batch_readers = 0 ∧
      s5_queued.rw.batch_limit = 0) :=
  ⟨reachable_s5_queued, by decide,
   (batch_fields_idle .N_WAY 3 8 s5_queued reachable_s5_queued).2.1 1 2 s5_opened
     (by decide)⟩

/-! ## The state machine -/

/-- What one step can be: it admits at most one thread or is one unlock, never
two of these; a reader is admitted only with no writer active, a writer only
with nobody active; an unlock is made by a holder. -/
theorem step_kind {p : PRIORITY} {n : Int} {s s1 : Sys} {e : Ev} (hc : Counts p n s)
    (h : step s e = some s1) :
    ((s.reader_admits : Int) ≤ s1.reader_admits ∧
      (s1.reader_admits : Int) ≤ s.reader_admits + 1) ∧
    ((s.writer_admits : Int) ≤ s1.writer_admits ∧
      (s1.writer_admits : Int) ≤ s.writer_admits + 1) ∧
    ((s1.reader_admits : Int) - s.reader_admits + ((s1.writer_admits : Int) - s.writer_admits) +
      (if e.is_reader_unlock = true then 1 else 0) +
      (if e.is_writer_unlock = true then 1 else 0) ≤ 1) ∧
    ((s1.reader_admits : Int) = s.reader_admits + 1 → s.rw.active_writers ≤ 0) ∧
    ((s1.writer_admits : Int) = s.writer_admits + 1 →
      s.rw.active_readers ≤ 0 ∧ s.rw.active_writers ≤ 0) ∧
    ((if e.is_reader_unlock = true then (1 : Int) else 0) = 1 → 1 ≤ s.rw.active_readers) ∧
    ((if e.is_writer_unlock = true then (1 : Int) else 0) = 1 → 1 ≤ s.rw.active_writers) := by
  obtain ⟨hp, hw, har, haw, hwr, hww, h1, hx⟩ := hc
  cases e with
  | reader_lock t =>
    simp only [step] at h
    split at h
    · rename_i hpc
      cases h
      have hpos := count_pos_of_get hpc
      unfold reader_try
      split
      · rename_i hnw
        rw [← Bool.not_eq_false, reader_free_iff] at hnw
        simp only [reader_lock_enter] at hnw
        refine ⟨?_, ?_, ?_, ?_, ?_, ?_, ?_⟩ <;> dsimp only <;> (try simp only [Ev.is_reader_lock, Ev.is_reader_unlock, Ev.is_writer_lock, Ev.is_writer_unlock, if_true, if_false, Bool.false_eq_true]) <;>
          (try simp only [reader_lock_enter]) <;>
          cases p <;> cases hb : s.rw.batch_active <;>
          (try simp only [hp, hb, reduceCtorEq, if_true, if_false, true_implies, false_implies,
            Bool.false_eq_true, and_true, true_and, and_false, false_and, or_false, false_or,
            implies_true, not_true_eq_false, not_false_eq_true, Bool.true_eq_false, imp_false]
            at har hnw ⊢) <;>
          (try split_ifs) <;>
          (try simp only [deliver, count_wake_all, count_wake_one, count_set_pc _ hpc,
            reduceCtorEq, if_true, if_false, true_implies, false_implies,
            Bool.false_eq_true, and_true, true_and, and_false, false_and, or_false, false_or,
            implies_true]) <;>
          (try split_ifs) <;> (try intros) <;> omega
      · rename_i hnw
        rw [Bool.not_eq_true, reader_free_iff] at hnw
        simp only [reader_lock_enter] at hnw
        obtain ⟨f1, f2, f3, f4, f5, f6, f7, f8, f9⟩ :=
          reader_admit_fields (reader_lock_enter s.rw)
        refine ⟨?_, ?_, ?_, ?_, ?_, ?_, ?_⟩ <;> dsimp only <;> (try simp only [Ev.is_reader_lock, Ev.is_reader_unlock, Ev.is_writer_lock, Ev.is_writer_unlock, if_true, if_false, Bool.false_eq_true]) <;>
          (try simp only [f1, f2, f3, f4, f5, f6, f7, f8, f9]) <;>
          (try simp only [reader_lock_enter]) <;>
          cases p <;> cases hb : s.rw.batch_active <;>
          (try simp only [hp, hb, reduceCtorEq, if_true, if_false, true_implies, false_implies,
            Bool.false_eq_true, and_true, true_and, and_false, false_and, or_false, false_or,
            implies_true, not_true_eq_false, not_false_eq_true, Bool.true_eq_false, imp_false]
            at har hnw ⊢) <;>
          (try split_ifs) <;>
          (try simp only [deliver, count_wake_all, count_wake_one, count_set_pc _ hpc,
            reduceCtorEq, if_true, if_false, true_implies, false_implies,
            Bool.false_eq_true, and_true, true_and, and_false, false_and, or_false, false_or,
            implies_true]) <;>
          (try split_ifs) <;> (try intros) <;> omega
    · cases h
  | writer_lock t =>
    simp only [step] at h
    split at h
    · rename_i hpc
      cases h
      have hpos := count_pos_of_get hpc
      unfold writer_try
      split
      · rename_i hnw
        rw [← Bool.not_eq_false, writer_free_iff] at hnw
        simp only [writer_lock_enter] at hnw
        refine ⟨?_, ?_, ?_, ?_, ?_, ?_, ?_⟩ <;> dsimp only <;> (try simp only [Ev.is_reader_lock, Ev.is_reader_unlock, Ev.is_writer_lock, Ev.is_writer_unlock, if_true, if_false, Bool.false_eq_true]) <;>
          (try simp only [writer_lock_enter]) <;>
          cases p <;> cases hb : s.rw.batch_active <;>
          (try simp only [hp, hb, reduceCtorEq, if_true, if_false, true_implies, false_implies,
            Bool.false_eq_true, and_true, true_and, and_false, false_and, or_false, false_or,
            implies_true, not_true_eq_false, not_false_eq_true, Bool.true_eq_false, imp_false]
            at har hnw ⊢) <;>
          (try split_ifs) <;>
          (try simp only [deliver, count_wake_all, count_wake_one, count_set_pc _ hpc,
            reduceCtorEq, if_true, if_false, true_implies, false_implies,
            Bool.false_eq_true, and_true, true_and, and_false, false_and, or_false, false_or,
            implies_true]) <;>
          (try split_ifs) <;> (try intros) <;> omega
      · rename_i hnw
        rw [Bool.not_eq_true, writer_free_iff] at hnw
        simp only [writer_lock_enter] at hnw
        obtain ⟨f1, f2, f3, f4, f5, f6, f7, f8, f9⟩ :=
          writer_admit_fields (writer_lock_enter s.rw)
        refine ⟨?_, ?_, ?_, ?_, ?_, ?_, ?_⟩ <;> dsimp only <;> (try simp only [Ev.is_reader_lock, Ev.is_reader_unlock, Ev.is_writer_lock, Ev.is_writer_unlock, if_true, if_false, Bool.false_eq_true]) <;>
          (try simp only [f1, f2, f3, f4, f5, f6, f7, f8, f9]) <;>
          (try simp only [writer_lock_enter]) <;>
          cases p <;> cases hb : s.rw.batch_active <;>
          (try simp only [hp, hb, reduceCtorEq, if_true, if_false, true_implies, false_implies,
            Bool.false_eq_true, and_true, true_and, and_false, false_and, or_false, false_or,
            implies_true, not_true_eq_false, not_false_eq_true, Bool.true_eq_false, imp_false]
            at har hnw ⊢) <;>
          (try split_ifs) <;>
          (try simp only [deliver, count_wake_all, count_wake_one, count_set_pc _ hpc,
            reduceCtorEq, if_true, if_false, true_implies, false_implies,
            Bool.false_eq_true, and_true, true_and, and_false, false_and, or_false, false_or,
            implies_true]) <;>
          (try split_ifs) <;> (try intros) <;> omega
    · cases h
  | resume t =>
    simp only [step] at h
    split at h
    · rename_i hpc
      cases h
      have hpos := count_pos_of_get hpc
      unfold reader_try
      split
      · rename_i hnw
        rw [← Bool.not_eq_false, reader_free_iff] at hnw
        refine ⟨?_, ?_, ?_, ?_, ?_, ?_, ?_⟩ <;> dsimp only <;> (try simp only [Ev.is_reader_lock, Ev.is_reader_unlock, Ev.is_writer_lock, Ev.is_writer_unlock, if_true, if_false, Bool.false_eq_true]) <;>
          cases p <;> cases hb : s.rw.batch_active <;>
          (try simp only [hp, hb, reduceCtorEq, if_true, if_false, true_implies, false_implies,
            Bool.false_eq_true, and_true, true_and, and_false, false_and, or_false, false_or,
            implies_true, not_true_eq_false, not_false_eq_true, Bool.true_eq_false, imp_false]
            at har hnw ⊢) <;>
          (try split_ifs) <;>
          (try simp only [deliver, count_wake_all, count_wake_one, count_set_pc _ hpc,
            reduceCtorEq, if_true, if_false, true_implies, false_implies,
            Bool.false_eq_true, and_true, true_and, and_false, false_and, or_false, false_or,
            implies_true]) <;>
          (try split_ifs) <;> (try intros) <;> omega
      · rename_i hnw
        rw [Bool.not_eq_true, reader_free_iff] at hnw
        obtain ⟨f1, f2, f3, f4, f5, f6, f7, f8, f9⟩ := reader_admit_fields s.rw
        refine ⟨?_, ?_, ?_, ?_, ?_, ?_, ?_⟩ <;> dsimp only <;> (try simp only [Ev.is_reader_lock, Ev.is_reader_unlock, Ev.is_writer_lock, Ev.is_writer_unlock, if_true, if_false, Bool.false_eq_true]) <;>
          (try simp only [f1, f2, f3, f4, f5, f6, f7, f8, f9]) <;>
          cases p <;> cases hb : s.rw.batch_active <;>
          (try simp only [hp, hb, reduceCtorEq, if_true, if_false, true_implies, false_implies,
            Bool.false_eq_true, and_true, true_and, and_false, false_and, or_false, false_or,
            implies_true, not_true_eq_false, not_false_eq_true, Bool.true_eq_false, imp_false]
            at har hnw ⊢) <;>
          (try split_ifs) <;>
          (try simp only [deliver, count_wake_all, count_wake_one, count_set_pc _ hpc,
            reduceCtorEq, if_true, if_false, true_implies, false_implies,
            Bool.false_eq_true, and_true, true_and, and_false, false_and, or_false, false_or,
            implies_true]) <;>
          (try split_ifs) <;> (try intros) <;> omega
    · rename_i hpc
      cases h
      have hpos := count_pos_of_get hpc
      unfold writer_try
      split
      · rename_i hnw
        rw [← Bool.not_eq_false, writer_free_iff] at hnw
        refine ⟨?_, ?_, ?_, ?_, ?_, ?_, ?_⟩ <;> dsimp only <;> (try simp only [Ev.is_reader_lock, Ev.is_reader_unlock, Ev.is_writer_lock, Ev.is_writer_unlock, if_true, if_false, Bool.false_eq_true]) <;>
          cases p <;> cases hb : s.rw.batch_active <;>
          (try simp only [hp, hb, reduceCtorEq, if_true, if_false, true_implies, false_implies,
            Bool.false_eq_true, and_true, true_and, and_false, false_and, or_false, false_or,
            implies_true, not_true_eq_false, not_false_eq_true, Bool.true_eq_false, imp_false]
            at har hnw ⊢) <;>
          (try split_ifs) <;>
          (try simp only [deliver, count_wake_all, count_wake_one, count_set_pc _ hpc,
            reduceCtorEq, if_true, if_false, true_implies, false_implies,
            Bool.false_eq_true, and_true, true_and, and_false, false_and, or_false, false_or,
            implies_true]) <;>
          (try split_ifs) <;> (try intros) <;> omega
      · rename_i hnw
        rw [Bool.not_eq_true, writer_free_iff] at hnw
        obtain ⟨f1, f2, f3, f4, f5, f6, f7, f8, f9⟩ := writer_admit_fields s.rw
        refine ⟨?_, ?_, ?_, ?_, ?_, ?_, ?_⟩ <;> dsimp only <;> (try simp only [Ev.is_reader_lock, Ev.is_reader_unlock, Ev.is_writer_lock, Ev.is_writer_unlock, if_true, if_false, Bool.false_eq_true]) <;>
          (try simp only [f1, f2, f3, f4, f5, f6, f7, f8, f9]) <;>
          cases p <;> cases hb : s.rw.batch_active <;>
          (try simp only [hp, hb, reduceCtorEq, if_true, if_false, true_implies, false_implies,
            Bool.false_eq_true, and_true, true_and, and_false, false_and, or_false, false_or,
            implies_true, not_true_eq_false, not_false_eq_true, Bool.true_eq_false, imp_false]
            at har hnw ⊢) <;>
          (try split_ifs) <;>
          (try simp only [deliver, count_wake_all, count_wake_one, count_set_pc _ hpc,
            reduceCtorEq, if_true, if_false, true_implies, false_implies,
            Bool.false_eq_true, and_true, true_and, and_false, false_and, or_false, false_or,
            implies_true]) <;>
          (try split_ifs) <;> (try intros) <;> omega
    · cases h
  | spurious t =>
    simp only [step] at h
    split at h
    · rename_i hpc
      cases h
      have hpos := count_pos_of_get hpc
      refine ⟨?_, ?_, ?_, ?_, ?_, ?_, ?_⟩ <;> dsimp only <;> (try simp only [Ev.is_reader_lock, Ev.is_reader_unlock, Ev.is_writer_lock, Ev.is_writer_unlock, if_true, if_false, Bool.false_eq_true]) <;>
        cases p <;> cases hb : s.rw.batch_active <;>
          (try simp only [hp, hb, reduceCtorEq, if_true, if_false, true_implies, false_implies,
            Bool.false_eq_true, and_true, true_and, and_false, false_and, or_false, false_or,
            implies_true, not_true_eq_false, not_false_eq_true, Bool.true_eq_false, imp_false]
            at har ⊢) <;>
          (try split_ifs) <;>
          (try simp only [deliver, count_wake_all, count_wake_one, count_set_pc _ hpc,
            reduceCtorEq, if_true, if_false, true_implies, false_implies,
            Bool.false_eq_true, and_true, true_and, and_false, false_and, or_false, false_or,
            implies_true]) <;>
          (try split_ifs) <;> (try intros) <;> omega
    · rename_i hpc
      cases h
      have hpos := count_pos_of_get hpc
      refine ⟨?_, ?_, ?_, ?_, ?_, ?_, ?_⟩ <;> dsimp only <;> (try simp only [Ev.is_reader_lock, Ev.is_reader_unlock, Ev.is_writer_lock, Ev.is_writer_unlock, if_true, if_false, Bool.false_eq_true]) <;>
        cases p <;> cases hb : s.rw.batch_active <;>
          (try simp only [hp, hb, reduceCtorEq, if_true, if_false, true_implies, false_implies,
            Bool.false_eq_true, and_true, true_and, and_false, false_and, or_false, false_or,
            implies_true, not_true_eq_false, not_false_eq_true, Bool.true_eq_false, imp_false]
            at har ⊢) <;>
          (try split_ifs) <;>
          (try simp only [deliver, count_wake_all, count_wake_one, count_set_pc _ hpc,
            reduceCtorEq, if_true, if_false, true_implies, false_implies,
            Bool.false_eq_true, and_true, true_and, and_false, false_and, or_false, false_or,
            implies_true]) <;>
          (try split_ifs) <;> (try intros) <;> omega
    · cases h
  | reader_unlock t pick =>
    simp only [step] at h
    split at h
    · rename_i hpc
      cases h
      have hpos := count_pos_of_get hpc
      refine ⟨?_, ?_, ?_, ?_, ?_, ?_, ?_⟩ <;> dsimp only <;> (try simp only [Ev.is_reader_lock, Ev.is_reader_unlock, Ev.is_writer_lock, Ev.is_writer_unlock, if_true, if_false, Bool.false_eq_true]) <;> (try unfold reader_unlock) <;>
        (try simp only [hp]) <;>
        cases p <;> cases hb : s.rw.batch_active <;>
          (try simp only [hp, hb, reduceCtorEq, if_true, if_false, true_implies, false_implies,
            Bool.false_eq_true, and_true, true_and, and_false, false_and, or_false, false_or,
            implies_true, not_true_eq_false, not_false_eq_true, Bool.true_eq_false, imp_false]
            at har ⊢) <;>
          (try split_ifs) <;>
          (try simp only [deliver, count_wake_all, count_wake_one, count_set_pc _ hpc,
            reduceCtorEq, if_true, if_false, true_implies, false_implies,
            Bool.false_eq_true, and_true, true_and, and_false, false_and, or_false, false_or,
            implies_true]) <;>
          (try split_ifs) <;> (try intros) <;> omega
    · cases h
  | writer_unlock t pick =>
    simp only [step] at h
    split at h
    · rename_i hpc
      cases h
      have hpos := count_pos_of_get hpc
      refine ⟨?_, ?_, ?_, ?_, ?_, ?_, ?_⟩ <;> dsimp only <;> (try simp only [Ev.is_reader_lock, Ev.is_reader_unlock, Ev.is_writer_lock, Ev.is_writer_unlock, if_true, if_false, Bool.false_eq_true]) <;> (try unfold writer_unlock) <;>
        (try simp only [hp]) <;>
        cases p <;> cases hb : s.rw.batch_active <;>
          (try simp only [hp, hb, reduceCtorEq, if_true, if_false, true_implies, false_implies,
            Bool.false_eq_true, and_true, true_and, and_false, false_and, or_false, false_or,
            implies_true, not_true_eq_false, not_false_eq_true, Bool.true_eq_false, imp_false]
            at har ⊢) <;>
          (try split_ifs) <;>
          (try simp only [deliver, count_wake_all, count_wake_one, count_set_pc _ hpc,
            reduceCtorEq, if_true, if_false, true_implies, false_implies,
            Bool.false_eq_true, and_true, true_and, and_false, false_and, or_false, false_or,
            implies_true]) <;>
          (try split_ifs) <;> (try intros) <;> omega
    · cases h

/-- The abstract state of a lock whose counters are in range. -/
theorem spec_state_eq (rw : rwlock) (h0 : 0 ≤ rw.active_readers)
    (h1 : rw.active_writers = 0 ∨ rw.active_writers = 1)
    (hx : rw.active_writers = 0 ∨ rw.active_readers = 0) :
    spec_state_of rw =
      some (if rw.active_writers = 1 then SpecState.WRITING
            else if rw.active_readers = 0 then SpecState.IDLE
            else SpecState.READING rw.active_readers) := by
  unfold spec_state_of
  split_ifs <;> first | rfl | omega

/-- The specification's transitions in terms of the two `active_*` counters
before and after. -/
theorem spec_transition_core (ar aw ar1 aw1 : Int) (l : Option SpecLabel) (h0 : 0 ≤ ar) :
    (match l with
      | none => ar1 = ar ∧ aw1 = aw
      | some .reader_admitted => aw = 0 ∧ aw1 = 0 ∧ ar1 = ar + 1
      | some .reader_released => aw = 0 ∧ aw1 = 0 ∧ 1 ≤ ar ∧ ar1 = ar - 1
      | some .writer_admitted => ar = 0 ∧ aw = 0 ∧ ar1 = 0 ∧ aw1 = 1
      | some .writer_released => aw = 1 ∧ ar = 0 ∧ aw1 = 0 ∧ ar1 = 0) →
    match l with
    | none =>
      (if aw1 = 1 then SpecState.WRITING
        else if ar1 = 0 then SpecState.IDLE else SpecState.READING ar1) =
      (if aw = 1 then SpecState.WRITING
        else if ar = 0 then SpecState.IDLE else SpecState.READING ar)
    | some l =>
      spec_transition l
        (if aw = 1 then SpecState.WRITING
          else if ar = 0 then SpecState.IDLE else SpecState.READING ar) =
      some (if aw1 = 1 then SpecState.WRITING
        else if ar1 = 0 then SpecState.IDLE else SpecState.READING ar1) := by
  intro hl
  cases l with
  | none =>
    obtain ⟨e1, e2⟩ := hl
    subst e1 e2
    rfl
  | some l =>
    cases l with
    | reader_admitted =>
      obtain ⟨e1, e2, e3⟩ := hl
      subst e1 e2 e3
      by_cases hz : ar = 0
      · subst hz
        simp [spec_transition]
      · have : ar + 1 ≠ 0 := by omega
        simp [spec_transition, hz, this]
    | reader_released =>
      obtain ⟨e1, e2, e3, e4⟩ := hl
      subst e1 e2 e4
      by_cases hz : ar = 1
      · subst hz
        simp [spec_transition]
      · have h1 : ar ≠ 0 := by omega
        have h2 : ar - 1 ≠ 0 := by omega
        have h3 : ar > 1 := by omega
        simp [spec_transition, h1, h2, h3]
    | writer_admitted =>
      obtain ⟨e1, e2, e3, e4⟩ := hl
      subst e1 e2 e3 e4
      simp [spec_transition]
    | writer_released =>
      obtain ⟨e1, e2, e3, e4⟩ := hl
      subst e1 e2 e3 e4
      simp [spec_transition]

/-- C24: for every policy, every state reachable under balanced use maps to
exactly one of `IDLE`, `READING(k)` with `k >= 1`, `WRITING`, and every step
of the code maps to a transition of the specification or leaves the abstract
state unchanged: a reader admission is `IDLE -> READING(1)` or
`READING(k) -> READING(k+1)`, `reader_unlock` is `READING(k) -> READING(k-1)`
for `k > 1` or `READING(1) -> IDLE`, a writer admission is `IDLE -> WRITING`,
`writer_unlock` is `WRITING -> IDLE`, and any other step keeps the abstract
state. -/
theorem rwlock_refinement (p : PRIORITY) (n : Int) (k : Nat) (s : Sys)
    (h : Reachable p n k s) :
    (∃ a, spec_state_of s.rw = some a) ∧
    (((s.rw.active_readers = 0 ∧ s.rw.active_writers = 0) ∨
        (s.rw.active_readers ≥ 1 ∧ s.rw.active_writers = 0) ∨
        (s.rw.active_writers = 1 ∧ s.rw.active_readers = 0)) ∧
      ¬ ((s.rw.active_readers = 0 ∧ s.rw.active_writers = 0) ∧
        (s.rw.active_readers ≥ 1 ∧ s.rw.active_writers = 0)) ∧
      ¬ ((s.rw.active_readers = 0 ∧ s.rw.active_writers = 0) ∧
        (s.rw.active_writers = 1 ∧ s.rw.active_readers = 0)) ∧
      ¬ ((s.rw.active_readers ≥ 1 ∧ s.rw.active_writers = 0) ∧
        (s.rw.active_writers = 1 ∧ s.rw.active_readers = 0))) ∧
    (∀ (e : Ev) (s1 : Sys), step s e = some s1 →
      ∃ a a1, spec_state_of s.rw = some a ∧ spec_state_of s1.rw = some a1 ∧
        match label_of s e s1 with
        | none => a1 = a
        | some l => spec_transition l a = some a1) := by
  have hc := counts_reachable h
  have har := hc.ar
  have haw := hc.aw
  have h1 := hc.one_writer
  have hx := hc.excl
  have hs0 := spec_state_eq s.rw (by omega) (by omega) (by omega)
  refine ⟨⟨_, hs0⟩, by omega, ?_⟩
  intro e s1 hs
  have hc1 := counts_step hc hs
  have har1 := hc1.ar
  have haw1 := hc1.aw
  have h11 := hc1.one_writer
  have hx1 := hc1.excl
  have hs1 := spec_state_eq s1.rw (by omega) (by omega) (by omega)
  obtain ⟨l1, _, l3, _⟩ := ledger_step hc hs
  obtain ⟨k1, k2, k3, k4, k5, k6, k7⟩ := step_kind hc hs
  refine ⟨_, _, hs0, hs1, ?_⟩
  apply spec_transition_core _ _ _ _ _ (by omega)
  have p0 : 0 ≤ s.rw.active_writers := by omega
  have p1 : s.rw.active_writers ≤ 1 := by omega
  unfold label_of
  by_cases hra : s1.reader_admits = s.reader_admits + 1
  · have t1 := k4 (by omega)
    clear k4 k5 k6 k7 hx hx1
    rw [if_pos hra]
    cases e <;>
      simp only [Ev.is_reader_unlock, Ev.is_writer_unlock, if_true, if_false,
        Bool.false_eq_true] at l1 l3 k3 <;>
      dsimp only <;> omega
  · rw [if_neg hra]
    by_cases hwa : s1.writer_admits = s.writer_admits + 1
    · obtain ⟨t1, t2⟩ := k5 (by omega)
      clear k4 k5 k6 k7 hx hx1
      rw [if_pos hwa]
      cases e <;>
        simp only [Ev.is_reader_unlock, Ev.is_writer_unlock, if_true, if_false,
          Bool.false_eq_true] at l1 l3 k3 <;>
        dsimp only <;> omega
    · rw [if_neg hwa]
      have d1 : (s1.reader_admits : Int) = s.reader_admits := by omega
      have d2 : (s1.writer_admits : Int) = s.writer_admits := by omega
      have x1 : s.rw.active_writers = 0 ∨ s.rw.active_readers = 0 := by omega
      clear k1 k2 k3 k4 k5 hx hx1 hra hwa h1 h11 har haw har1 haw1
      cases e <;>
        simp only [Ev.is_reader_unlock, Ev.is_writer_unlock, if_true, if_false,
          Bool.false_eq_true, true_implies, zero_ne_one, false_implies] at l1 l3 k6 k7 <;>
        dsimp only <;> omega

theorem rwlock_refinement_witness :
    Reachable .READERS 0 4 s4_state ∧
    spec_state_of s4_state.rw = some (.READING 2) ∧
    step s4_state (.reader_unlock 1 2) =
      some { rw := { fresh .READERS 0 with active_readers := 1, waiting_writers := 1 }
             pcs := [.r_holding, .idle, .w_blocked, .idle]
             reader_admits := 2
             writer_admits := 0 } ∧
    spec_transition .reader_released (.READING 2) = some (.READING 1) ∧
    (∃ a, spec_state_of s4_state.rw = some a) :=
  ⟨reachable_s4, by decide, by decide, by decide,
   (rwlock_refinement .READERS 0 4 s4_state reachable_s4).1⟩

/-! ## Non-positive batch width -/

/-- On an N_WAY lock of width `n <= 0`, a step other than a spurious wake-up
keeps the readers locked out and admits no reader. -/
theorem starved_step {p : PRIORITY} {n : Int} {s s1 : Sys} {e : Ev} (hpn : p = .N_WAY)
    (hn : n ≤ 0) (hc : Counts p n s) (hst : Starved s) (hsp : e.is_spurious = false)
    (h : step s e = some s1) : Starved s1 ∧ s1.reader_admits = s.reader_admits := by
  obtain ⟨hp, hw, har, haw, hwr, hww, h1, hx⟩ := hc
  obtain ⟨g1, g2, g3, g4, g5, g6⟩ := hst
  cases e with
  | reader_lock t =>
    simp only [step] at h
    split at h
    · rename_i hpc
      cases h
      have hpos := count_pos_of_get hpc
      unfold reader_try
      split
      · rename_i hnw
        rw [← Bool.not_eq_false, reader_free_iff] at hnw
        simp only [reader_lock_enter] at hnw
        refine ⟨⟨?_, ?_, ?_, ?_, ?_, ?_⟩, ?_⟩ <;> dsimp only <;> (try simp only [Ev.is_spurious, Bool.true_eq_false, reduceCtorEq] at hsp) <;>
          (try simp only [reader_lock_enter]) <;>
          cases p <;> cases hb : s.rw.batch_active <;>
          (try simp only [hp, hb, reduceCtorEq, if_true, if_false, true_implies, false_implies,
            Bool.false_eq_true, and_true, true_and, and_false, false_and, or_false, false_or,
            implies_true, not_true_eq_false, not_false_eq_true, Bool.true_eq_false, imp_false]
            at g1 g2 g3 g4 g5 g6 hw hpn hnw ⊢) <;>
          (try split_ifs) <;>
          (try simp only [deliver, count_wake_all, count_wake_one, count_set_pc _ hpc,
            reduceCtorEq, if_true, if_false, true_implies, false_implies,
            Bool.false_eq_true, and_true, true_and, and_false, false_and, or_false, false_or,
            implies_true]) <;>
          (try split_ifs) <;> (try intros) <;> omega
      · rename_i hnw
        rw [Bool.not_eq_true, reader_free_iff] at hnw
        simp only [reader_lock_enter] at hnw
        obtain ⟨f1, f2, f3, f4, f5, f6, f7, f8, f9⟩ :=
          reader_admit_fields (reader_lock_enter s.rw)
        refine ⟨⟨?_, ?_, ?_, ?_, ?_, ?_⟩, ?_⟩ <;> dsimp only <;> (try simp only [Ev.is_spurious, Bool.true_eq_false, reduceCtorEq] at hsp) <;>
          (try simp only [f1, f2, f3, f4, f5, f6, f7, f8, f9]) <;>
          (try simp only [reader_lock_enter]) <;>
          cases p <;> cases hb : s.rw.batch_active <;>
          (try simp only [hp, hb, reduceCtorEq, if_true, if_false, true_implies, false_implies,
            Bool.false_eq_true, and_true, true_and, and_false, false_and, or_false, false_or,
            implies_true, not_true_eq_false, not_false_eq_true, Bool.true_eq_false, imp_false]
            at g1 g2 g3 g4 g5 g6 hw hpn hnw ⊢) <;>
          (try split_ifs) <;>
          (try simp only [deliver, count_wake_all, count_wake_one, count_set_pc _ hpc,
            reduceCtorEq, if_true, if_false, true_implies, false_implies,
            Bool.false_eq_true, and_true, true_and, and_false, false_and, or_false, false_or,
            implies_true]) <;>
          (try split_ifs) <;> (try intros) <;> omega
    · cases h
  | writer_lock t =>
    simp only [step] at h
    split at h
    · rename_i hpc
      cases h
      have hpos := count_pos_of_get hpc
      unfold writer_try
      split
      · rename_i hnw
        rw [← Bool.not_eq_false, writer_free_iff] at hnw
        simp only [writer_lock_enter] at hnw
        refine ⟨⟨?_, ?_, ?_, ?_, ?_, ?_⟩, ?_⟩ <;> dsimp only <;> (try simp only [Ev.is_spurious, Bool.true_eq_false, reduceCtorEq] at hsp) <;>
          (try simp only [writer_lock_enter]) <;>
          cases p <;> cases hb : s.rw.batch_active <;>
          (try simp only [hp, hb, reduceCtorEq, if_true, if_false, true_implies, false_implies,
            Bool.false_eq_true, and_true, true_and, and_false, false_and, or_false, false_or,
            implies_true, not_true_eq_false, not_false_eq_true, Bool.true_eq_false, imp_false]
            at g1 g2 g3 g4 g5 g6 hw hpn hnw ⊢) <;>
          (try split_ifs) <;>
          (try simp only [deliver, count_wake_all, count_wake_one, count_set_pc _ hpc,
            reduceCtorEq, if_true, if_false, true_implies, false_implies,
            Bool.false_eq_true, and_true, true_and, and_false, false_and, or_false, false_or,
            implies_true]) <;>
          (try split_ifs) <;> (try intros) <;> omega
      · rename_i hnw
        rw [Bool.not_eq_true, writer_free_iff] at hnw
        simp only [writer_lock_enter] at hnw
        obtain ⟨f1, f2, f3, f4, f5, f6, f7, f8, f9⟩ :=
          writer_admit_fields (writer_lock_enter s.rw)
        refine ⟨⟨?_, ?_, ?_, ?_, ?_, ?_⟩, ?_⟩ <;> dsimp only <;> (try simp only [Ev.is_spurious, Bool.true_eq_false, reduceCtorEq] at hsp) <;>
          (try simp only [f1, f2, f3, f4, f5, f6, f7, f8, f9]) <;>
          (try simp only [writer_lock_enter]) <;>
          cases p <;> cases hb : s.rw.batch_active <;>
          (try simp only [hp, hb, reduceCtorEq, if_true, if_false, true_implies, false_implies,
            Bool.false_eq_true, and_true, true_and, and_false, false_and, or_false, false_or,
            implies_true, not_true_eq_false, not_false_eq_true, Bool.true_eq_false, imp_false]
            at g1 g2 g3 g4 g5 g6 hw hpn hnw ⊢) <;>
          (try split_ifs) <;>
          (try simp only [deliver, count_wake_all, count_wake_one, count_set_pc _ hpc,
            reduceCtorEq, if_true, if_false, true_implies, false_implies,
            Bool.false_eq_true, and_true, true_and, and_false, false_and, or_false, false_or,
            implies_true]) <;>
          (try split_ifs) <;> (try intros) <;> omega
    · cases h
  | resume t =>
    simp only [step] at h
    split at h
    · rename_i hpc
      cases h
      have hpos := count_pos_of_get hpc
      unfold reader_try
      split
      · rename_i hnw
        rw [← Bool.not_eq_false, reader_free_iff] at hnw
        refine ⟨⟨?_, ?_, ?_, ?_, ?_, ?_⟩, ?_⟩ <;> dsimp only <;> (try simp only [Ev.is_spurious, Bool.true_eq_false, reduceCtorEq] at hsp) <;>
          cases p <;> cases hb : s.rw.batch_active <;>
          (try simp only [hp, hb, reduceCtorEq, if_true, if_false, true_implies, false_implies,
            Bool.false_eq_true, and_true, true_and, and_false, false_and, or_false, false_or,
            implies_true, not_true_eq_false, not_false_eq_true, Bool.true_eq_false, imp_false]
            at g1 g2 g3 g4 g5 g6 hw hpn hnw ⊢) <;>
          (try split_ifs) <;>
          (try simp only [deliver, count_wake_all, count_wake_one, count_set_pc _ hpc,
            reduceCtorEq, if_true, if_false, true_implies, false_implies,
            Bool.false_eq_true, and_true, true_and, and_false, false_and, or_false, false_or,
            implies_true]) <;>
          (try split_ifs) <;> (try intros) <;> omega
      · rename_i hnw
        rw [Bool.not_eq_true, reader_free_iff] at hnw
        obtain ⟨f1, f2, f3, f4, f5, f6, f7, f8, f9⟩ := reader_admit_fields s.rw
        refine ⟨⟨?_, ?_, ?_, ?_, ?_, ?_⟩, ?_⟩ <;> dsimp only <;> (try simp only [Ev.is_spurious, Bool.true_eq_false, reduceCtorEq] at hsp) <;>
          (try simp only [f1, f2, f3, f4, f5, f6, f7, f8, f9]) <;>
          cases p <;> cases hb : s.rw.batch_active <;>
          (try simp only [hp, hb, reduceCtorEq, if_true, if_false, true_implies, false_implies,
            Bool.false_eq_true, and_true, true_and, and_false, false_and, or_false, false_or,
            implies_true, not_true_eq_false, not_false_eq_true, Bool.true_eq_false, imp_false]
            at g1 g2 g3 g4 g5 g6 hw hpn hnw ⊢) <;>
          (try split_ifs) <;>
          (try simp only [deliver, count_wake_all, count_wake_one, count_set_pc _ hpc,
            reduceCtorEq, if_true, if_false, true_implies, false_implies,
            Bool.false_eq_true, and_true, true_and, and_false, false_and, or_false, false_or,
            implies_true]) <;>
          (try split_ifs) <;> (try intros) <;> omega
    · rename_i hpc
      cases h
      have hpos := count_pos_of_get hpc
      unfold writer_try
      split
      · rename_i hnw
        rw [← Bool.not_eq_false, writer_free_iff] at hnw
        refine ⟨⟨?_, ?_, ?_, ?_, ?_, ?_⟩, ?_⟩ <;> dsimp only <;> (try simp only [Ev.is_spurious, Bool.true_eq_false, reduceCtorEq] at hsp) <;>
          cases p <;> cases hb : s.rw.batch_active <;>
          (try simp only [hp, hb, reduceCtorEq, if_true, if_false, true_implies, false_implies,
            Bool.false_eq_true, and_true, true_and, and_false, false_and, or_false, false_or,
            implies_true, not_true_eq_false, not_false_eq_true, Bool.true_eq_false, imp_false]
            at g1 g2 g3 g4 g5 g6 hw hpn hnw ⊢) <;>
          (try split_ifs) <;>
          (try simp only [deliver, count_wake_all, count_wake_one, count_set_pc _ hpc,
            reduceCtorEq, if_true, if_false, true_implies, false_implies,
            Bool.false_eq_true, and_true, true_and, and_false, false_and, or_false, false_or,
            implies_true]) <;>
          (try split_ifs) <;> (try intros) <;> omega
      · rename_i hnw
        rw [Bool.not_eq_true, writer_free_iff] at hnw
        obtain ⟨f1, f2, f3, f4, f5, f6, f7, f8, f9⟩ := writer_admit_fields s.rw
        refine ⟨⟨?_, ?_, ?_, ?_, ?_, ?_⟩, ?_⟩ <;> dsimp only <;> (try simp only [Ev.is_spurious, Bool.true_eq_false, reduceCtorEq] at hsp) <;>
          (try simp only [f1, f2, f3, f4, f5, f6, f7, f8, f9]) <;>
          cases p <;> cases hb : s.rw.batch_active <;>
          (try simp only [hp, hb, reduceCtorEq, if_true, if_false, true_implies, false_implies,
            Bool.false_eq_true, and_true, true_and, and_false, false_and, or_false, false_or,
            implies_true, not_true_eq_false, not_false_eq_true, Bool.true_eq_false, imp_false]
            at g1 g2 g3 g4 g5 g6 hw hpn hnw ⊢) <;>
          (try split_ifs) <;>
          (try simp only [deliver, count_wake_all, count_wake_one, count_set_pc _ hpc,
            reduceCtorEq, if_true, if_false, true_implies, false_implies,
            Bool.false_eq_true, and_true, true_and, and_false, false_and, or_false, false_or,
            implies_true]) <;>
          (try split_ifs) <;> (try intros) <;> omega
    · cases h
  | spurious t =>
    simp only [Ev.is_spurious, Bool.true_eq_false] at hsp
  | reader_unlock t pick =>
    simp only [step] at h
    split at h
    · rename_i hpc
      cases h
      have hpos := count_pos_of_get hpc
      refine ⟨⟨?_, ?_, ?_, ?_, ?_, ?_⟩, ?_⟩ <;> dsimp only <;> (try simp only [Ev.is_spurious, Bool.true_eq_false, reduceCtorEq] at hsp) <;> (try unfold reader_unlock) <;>
        (try simp only [hp]) <;>
        cases p <;> cases hb : s.rw.batch_active <;>
          (try simp only [hp, hb, reduceCtorEq, if_true, if_false, true_implies, false_implies,
            Bool.false_eq_true, and_true, true_and, and_false, false_and, or_false, false_or,
            implies_true, not_true_eq_false, not_false_eq_true, Bool.true_eq_false, imp_false]
            at g1 g2 g3 g4 g5 g6 hw hpn ⊢) <;>
          (try split_ifs) <;>
          (try simp only [deliver, count_wake_all, count_wake_one, count_set_pc _ hpc,
            reduceCtorEq, if_true, if_false, true_implies, false_implies,
            Bool.false_eq_true, and_true, true_and, and_false, false_and, or_false, false_or,
            implies_true]) <;>
          (try split_ifs) <;> (try intros) <;> omega
    · cases h
  | writer_unlock t pick =>
    simp only [step] at h
    split at h
    · rename_i hpc
      cases h
      have hpos := count_pos_of_get hpc
      refine ⟨⟨?_, ?_, ?_, ?_, ?_, ?_⟩, ?_⟩ <;> dsimp only <;> (try simp only [Ev.is_spurious, Bool.true_eq_false, reduceCtorEq] at hsp) <;> (try unfold writer_unlock) <;>
        (try simp only [hp]) <;>
        cases p <;> cases hb : s.rw.batch_active <;>
          (try simp only [hp, hb, reduceCtorEq, if_true, if_false, true_implies, false_implies,
            Bool.false_eq_true, and_true, true_and, and_false, false_and, or_false, false_or,
            implies_true, not_true_eq_false, not_false_eq_true, Bool.true_eq_false, imp_false]
            at g1 g2 g3 g4 g5 g6 hw hpn ⊢) <;>
          (try split_ifs) <;>
          (try simp only [deliver, count_wake_all, count_wake_one, count_set_pc _ hpc,
            reduceCtorEq, if_true, if_false, true_implies, false_implies,
            Bool.false_eq_true, and_true, true_and, and_false, false_and, or_false, false_or,
            implies_true]) <;>
          (try split_ifs) <;> (try intros) <;> omega
    · cases h

/-- On an N_WAY lock of width `n <= 0` every step, spurious wake-ups included,
keeps `batch_limit` non-positive and not above `current_batch_readers`. -/
theorem shut_step {p : PRIORITY} {n : Int} {s s1 : Sys} {e : Ev} (hpn : p = .N_WAY)
    (hn : n ≤ 0) (hc : Counts p n s)
    (ha : s.rw.batch_limit ≤ 0 ∧ s.rw.batch_limit ≤ s.rw.current_batch_readers)
    (h : step s e = some s1) :
    s1.rw.batch_limit ≤ 0 ∧ s1.rw.batch_limit ≤ s1.rw.current_batch_readers := by
  obtain ⟨hp, hw, har, haw, hwr, hww, h1, hx⟩ := hc
  obtain ⟨a1, a2⟩ := ha
  cases e with
  | reader_lock t =>
    simp only [step] at h
    split at h
    · rename_i hpc
      cases h
      have hpos := count_pos_of_get hpc
      unfold reader_try
      split
      · rename_i hnw
        rw [← Bool.not_eq_false, reader_free_iff] at hnw
        simp only [reader_lock_enter] at hnw
        refine ⟨?_, ?_⟩ <;> dsimp only <;> 
          (try simp only [reader_lock_enter]) <;>
          cases p <;> cases hb : s.rw.batch_active <;>
          (try simp only [hp, hb, reduceCtorEq, if_true, if_false, true_implies, false_implies,
            Bool.false_eq_true, and_true, true_and, and_false, false_and, or_false, false_or,
            implies_true, not_true_eq_false, not_false_eq_true, Bool.true_eq_false, imp_false]
            at a1 a2 hw hpn hnw ⊢) <;>
          (try split_ifs) <;>
          (try simp only [deliver, count_wake_all, count_wake_one, count_set_pc _ hpc,
            reduceCtorEq, if_true, if_false, true_implies, false_implies,
            Bool.false_eq_true, and_true, true_and, and_false, false_and, or_false, false_or,
            implies_true]) <;>
          (try split_ifs) <;> (try intros) <;> omega
      · rename_i hnw
        rw [Bool.not_eq_true, reader_free_iff] at hnw
        simp only [reader_lock_enter] at hnw
        obtain ⟨f1, f2, f3, f4, f5, f6, f7, f8, f9⟩ :=
          reader_admit_fields (reader_lock_enter s.rw)
        refine ⟨?_, ?_⟩ <;> dsimp only <;> 
          (try simp only [f1, f2, f3, f4, f5, f6, f7, f8, f9]) <;>
          (try simp only [reader_lock_enter]) <;>
          cases p <;> cases hb : s.rw.batch_active <;>
          (try simp only [hp, hb, reduceCtorEq, if_true, if_false, true_implies, false_implies,
            Bool.false_eq_true, and_true, true_and, and_false, false_and, or_false, false_or,
            implies_true, not_true_eq_false, not_false_eq_true, Bool.true_eq_false, imp_false]
            at a1 a2 hw hpn hnw ⊢) <;>
          (try split_ifs) <;>
          (try simp only [deliver, count_wake_all, count_wake_one, count_set_pc _ hpc,
            reduceCtorEq, if_true, if_false, true_implies, false_implies,
            Bool.false_eq_true, and_true, true_and, and_false, false_and, or_false, false_or,
            implies_true]) <;>
          (try split_ifs) <;> (try intros) <;> omega
    · cases h
  | writer_lock t =>
    simp only [step] at h
    split at h
    · rename_i hpc
      cases h
      have hpos := count_pos_of_get hpc
      unfold writer_try
      split
      · rename_i hnw
        rw [← Bool.not_eq_false, writer_free_iff] at hnw
        simp only [writer_lock_enter] at hnw
        refine ⟨?_, ?_⟩ <;> dsimp only <;> 
          (try simp only [writer_lock_enter]) <;>
          cases p <;> cases hb : s.rw.batch_active <;>
          (try simp only [hp, hb, reduceCtorEq, if_true, if_false, true_implies, false_implies,
            Bool.false_eq_true, and_true, true_and, and_false, false_and, or_false, false_or,
            implies_true, not_true_eq_false, not_false_eq_true, Bool.true_eq_false, imp_false]
            at a1 a2 hw hpn hnw ⊢) <;>
          (try split_ifs) <;>
          (try simp only [deliver, count_wake_all, count_wake_one, count_set_pc _ hpc,
            reduceCtorEq, if_true, if_false, true_implies, false_implies,
            Bool.false_eq_true, and_true, true_and, and_false, false_and, or_false, false_or,
            implies_true]) <;>
          (try split_ifs) <;> (try intros) <;> omega
      · rename_i hnw
        rw [Bool.not_eq_true, writer_free_iff] at hnw
        simp only [writer_lock_enter] at hnw
        obtain ⟨f1, f2, f3, f4, f5, f6, f7, f8, f9⟩ :=
          writer_admit_fields (writer_lock_enter s.rw)
        refine ⟨?_, ?_⟩ <;> dsimp only <;> 
          (try simp only [f1, f2, f3, f4, f5, f6, f7, f8, f9]) <;>
          (try simp only [writer_lock_enter]) <;>
          cases p <;> cases hb : s.rw.batch_active <;>
          (try simp only [hp, hb, reduceCtorEq, if_true, if_false, true_implies, false_implies,
            Bool.false_eq_true, and_true, true_and, and_false, false_and, or_false, false_or,
            implies_true, not_true_eq_false, not_false_eq_true, Bool.true_eq_false, imp_false]
            at a1 a2 hw hpn hnw ⊢) <;>
          (try split_ifs) <;>
          (try simp only [deliver, count_wake_all, count_wake_one, count_set_pc _ hpc,
            reduceCtorEq, if_true, if_false, true_implies, false_implies,
            Bool.false_eq_true, and_true, true_and, and_false, false_and, or_false, false_or,
            implies_true]) <;>
          (try split_ifs) <;> (try intros) <;> omega
    · cases h
  | resume t =>
    simp only [step] at h
    split at h
    · rename_i hpc
      cases h
      have hpos := count_pos_of_get hpc
      unfold reader_try
      split
      · rename_i hnw
        rw [← Bool.not_eq_false, reader_free_iff] at hnw
        refine ⟨?_, ?_⟩ <;> dsimp only <;> 
          cases p <;> cases hb : s.rw.batch_active <;>
          (try simp only [hp, hb, reduceCtorEq, if_true, if_false, true_implies, false_implies,
            Bool.false_eq_true, and_true, true_and, and_false, false_and, or_false, false_or,
            implies_true, not_true_eq_false, not_false_eq_true, Bool.true_eq_false, imp_false]
            at a1 a2 hw hpn hnw ⊢) <;>
          (try split_ifs) <;>
          (try simp only [deliver, count_wake_all, count_wake_one, count_set_pc _ hpc,
            reduceCtorEq, if_true, if_false, true_implies, false_implies,
            Bool.false_eq_true, and_true, true_and, and_false, false_and, or_false, false_or,
            implies_true]) <;>
          (try split_ifs) <;> (try intros) <;> omega
      · rename_i hnw
        rw [Bool.not_eq_true, reader_free_iff] at hnw
        obtain ⟨f1, f2, f3, f4, f5, f6, f7, f8, f9⟩ := reader_admit_fields s.rw
        refine ⟨?_, ?_⟩ <;> dsimp only <;> 
          (try simp only [f1, f2, f3, f4, f5, f6, f7, f8, f9]) <;>
          cases p <;> cases hb : s.rw.batch_active <;>
          (try simp only [hp, hb, reduceCtorEq, if_true, if_false, true_implies, false_implies,
            Bool.false_eq_true, and_true, true_and, and_false, false_and, or_false, false_or,
            implies_true, not_true_eq_false, not_false_eq_true, Bool.true_eq_false, imp_false]
            at a1 a2 hw hpn hnw ⊢) <;>
          (try split_ifs) <;>
          (try simp only [deliver, count_wake_all, count_wake_one, count_set_pc _ hpc,
            reduceCtorEq, if_true, if_false, true_implies, false_implies,
            Bool.false_eq_true, and_true, true_and, and_false, false_and, or_false, false_or,
            implies_true]) <;>
          (try split_ifs) <;> (try intros) <;> omega
    · rename_i hpc
      cases h
      have hpos := count_pos_of_get hpc
      unfold writer_try
      split
      · rename_i hnw
        rw [← Bool.not_eq_false, writer_free_iff] at hnw
        refine ⟨?_, ?_⟩ <;> dsimp only <;> 
          cases p <;> cases hb : s.rw.batch_active <;>
          (try simp only [hp, hb, reduceCtorEq, if_true, if_false, true_implies, false_implies,
            Bool.false_eq_true, and_true, true_and, and_false, false_and, or_false, false_or,
            implies_true, not_true_eq_false, not_false_eq_true, Bool.true_eq_false, imp_false]
            at a1 a2 hw hpn hnw ⊢) <;>
          (try split_ifs) <;>
          (try simp only [deliver, count_wake_all, count_wake_one, count_set_pc _ hpc,
            reduceCtorEq, if_true, if_false, true_implies, false_implies,
            Bool.false_eq_true, and_true, true_and, and_false, false_and, or_false, false_or,
            implies_true]) <;>
          (try split_ifs) <;> (try intros) <;> omega
      · rename_i hnw
        rw [Bool.not_eq_true, writer_free_iff] at hnw
        obtain ⟨f1, f2, f3, f4, f5, f6, f7, f8, f9⟩ := writer_admit_fields s.rw
        refine ⟨?_, ?_⟩ <;> dsimp only <;> 
          (try simp only [f1, f2, f3, f4, f5, f6, f7, f8, f9]) <;>
          cases p <;> cases hb : s.rw.batch_active <;>
          (try simp only [hp, hb, reduceCtorEq, if_true, if_false, true_implies, false_implies,
            Bool.false_eq_true, and_true, true_and, and_false, false_and, or_false, false_or,
            implies_true, not_true_eq_false, not_false_eq_true, Bool.true_eq_false, imp_false]
            at a1 a2 hw hpn hnw ⊢) <;>
          (try split_ifs) <;>
          (try simp only [deliver, count_wake_all, count_wake_one, count_set_pc _ hpc,
            reduceCtorEq, if_true, if_false, true_implies, false_implies,
            Bool.false_eq_true, and_true, true_and, and_false, false_and, or_false, false_or,
            implies_true]) <;>
          (try split_ifs) <;> (try intros) <;> omega
    · cases h
  | spurious t =>
    simp only [step] at h
    split at h
    · rename_i hpc
      cases h
      have hpos := count_pos_of_get hpc
      refine ⟨?_, ?_⟩ <;> dsimp only <;> 
        cases p <;> cases hb : s.rw.batch_active <;>
          (try simp only [hp, hb, reduceCtorEq, if_true, if_false, true_implies, false_implies,
            Bool.false_eq_true, and_true, true_and, and_false, false_and, or_false, false_or,
            implies_true, not_true_eq_false, not_false_eq_true, Bool.true_eq_false, imp_false]
            at a1 a2 hw hpn ⊢) <;>
          (try split_ifs) <;>
          (try simp only [deliver, count_wake_all, count_wake_one, count_set_pc _ hpc,
            reduceCtorEq, if_true, if_false, true_implies, false_implies,
            Bool.false_eq_true, and_true, true_and, and_false, false_and, or_false, false_or,
            implies_true]) <;>
          (try split_ifs) <;> (try intros) <;> omega
    · rename_i hpc
      cases h
      have hpos := count_pos_of_get hpc
      refine ⟨?_, ?_⟩ <;> dsimp only <;> 
        cases p <;> cases hb : s.rw.batch_active <;>
          (try simp only [hp, hb, reduceCtorEq, if_true, if_false, true_implies, false_implies,
            Bool.false_eq_true, and_true, true_and, and_false, false_and, or_false, false_or,
            implies_true, not_true_eq_false, not_false_eq_true, Bool.true_eq_false, imp_false]
            at a1 a2 hw hpn ⊢) <;>
          (try split_ifs) <;>
          (try simp only [deliver, count_wake_all, count_wake_one, count_set_pc _ hpc,
            reduceCtorEq, if_true, if_false, true_implies, false_implies,
            Bool.false_eq_true, and_true, true_and, and_false, false_and, or_false, false_or,
            implies_true]) <;>
          (try split_ifs) <;> (try intros) <;> omega
    · cases h
  | reader_unlock t pick =>
    simp only [step] at h
    split at h
    · rename_i hpc
      cases h
      have hpos := count_pos_of_get hpc
      refine ⟨?_, ?_⟩ <;> dsimp only <;>  (try unfold reader_unlock) <;>
        (try simp only [hp]) <;>
        cases p <;> cases hb : s.rw.batch_active <;>
          (try simp only [hp, hb, reduceCtorEq, if_true, if_false, true_implies, false_implies,
            Bool.false_eq_true, and_true, true_and, and_false, false_and, or_false, false_or,
            implies_true, not_true_eq_false, not_false_eq_true, Bool.true_eq_false, imp_false]
            at a1 a2 hw hpn ⊢) <;>
          (try split_ifs) <;>
          (try simp only [deliver, count_wake_all, count_wake_one, count_set_pc _ hpc,
            reduceCtorEq, if_true, if_false, true_implies, false_implies,
            Bool.false_eq_true, and_true, true_and, and_false, false_and, or_false, false_or,
            implies_true]) <;>
          (try split_ifs) <;> (try intros) <;> omega
    · cases h
  | writer_unlock t pick =>
    simp only [step] at h
    split at h
    · rename_i hpc
      cases h
      have hpos := count_pos_of_get hpc
      refine ⟨?_, ?_⟩ <;> dsimp only <;>  (try unfold writer_unlock) <;>
        (try simp only [hp]) <;>
        cases p <;> cases hb : s.rw.batch_active <;>
          (try simp only [hp, hb, reduceCtorEq, if_true, if_false, true_implies, false_implies,
            Bool.false_eq_true, and_true, true_and, and_false, false_and, or_false, false_or,
            implies_true, not_true_eq_false, not_false_eq_true, Bool.true_eq_false, imp_false]
            at a1 a2 hw hpn ⊢) <;>
          (try split_ifs) <;>
          (try simp only [deliver, count_wake_all, count_wake_one, count_set_pc _ hpc,
            reduceCtorEq, if_true, if_false, true_implies, false_implies,
            Bool.false_eq_true, and_true, true_and, and_false, false_and, or_false, false_or,
            implies_true]) <;>
          (try split_ifs) <;> (try intros) <;> omega
    · cases h

/-- The same along any schedule. -/
theorem shut_run {n : Int} (hn : n ≤ 0) (evs : List Ev) :
    ∀ {s s1 : Sys}, Counts .N_WAY n s →
      (s.rw.batch_limit ≤ 0 ∧ s.rw.batch_limit ≤ s.rw.current_batch_readers) →
      run s evs = some s1 →
      s1.rw.batch_limit ≤ 0 ∧ s1.rw.batch_limit ≤ s1.rw.current_batch_readers := by
  induction evs with
  | nil =>
    intro s s1 _ ha h
    simp only [run, Option.some.injEq] at h
    subst h
    exact ha
  | cons e es ih =>
    intro s s1 hc ha h
    simp only [run] at h
    split at h
    · cases h
    · rename_i s2 hs
      exact ih (counts_step hc hs) (shut_step rfl hn hc ha hs) h

/-- Running two schedules one after the other. -/
theorem run_append (a b : List Ev) :
    ∀ s : Sys, run s (a ++ b) = (run s a).bind (fun s1 => run s1 b) := by
  induction a with
  | nil => intro s; rfl
  | cons e es ih =>
    intro s
    simp only [List.cons_append, run]
    split
    · rfl
    · exact ih _

/-- The same along a schedule without spurious wake-ups. -/
theorem starved_run {n : Int} (hn : n ≤ 0) (evs : List Ev) :
    ∀ {s s1 : Sys}, Counts .N_WAY n s → Starved s → (∀ e ∈ evs, e.is_spurious = false) →
      run s evs = some s1 → Starved s1 ∧ s1.reader_admits = s.reader_admits := by
  induction evs with
  | nil =>
    intro s s1 _ hst _ h
    simp only [run, Option.some.injEq] at h
    subst h
    exact ⟨hst, rfl⟩
  | cons e es ih =>
    intro s s1 hc hst hsp h
    simp only [run] at h
    split at h
    · cases h
    · rename_i s2 hs
      obtain ⟨a1, a2⟩ := starved_step rfl hn hc hst (hsp e (List.mem_cons_self _ _)) hs
      obtain ⟨b1, b2⟩ := ih (counts_step hc hs) a1
        (fun x hx => hsp x (List.mem_cons_of_mem _ hx)) h
      exact ⟨b1, b2.trans a2⟩

/-- While the readers are locked out the reader loop test holds. -/
theorem starved_must_wait {n : Int} {s : Sys} (hc : Counts .N_WAY n s) (hst : Starved s) :
    reader_must_wait s.rw = true := by
  have hp := hc.prio
  have haw := hc.aw
  have g5 := hst.gate
  have g6 := hst.full
  unfold reader_must_wait
  rw [if_pos hp]
  by_cases h0 : s.rw.active_writers = 0
  · simp [g5 h0, g6]
  · have : s.rw.active_writers > 0 := by omega
    simp [this]

/-- C25: `rwlock_new(N_WAY, n)` accepts every `n <= 0`, and on such a lock the
balanced schedule "writer 0 acquires, reader 1 and writer 2 queue, writer 0
calls `writer_unlock`" reaches a state with `batch_active` true and
`batch_limit = n <= 0`: the check 'batch_active implies batch_limit > 0' of
`check_invariants` fails there, `writer_unlock` notified `readers_cv` only and
the waiting writer still sleeps un-signalled, the reader loop test is true,
and it stays true, with no reader admitted and no writer woken, along every
continuation in which no thread wakes without a notification.  More generally,
in every reachable state of such a lock, under any schedule, an open batch has
`batch_limit <= 0`, fails `check_invariants` and makes every reader wait. -/
theorem nonpositive_width (n : Int) (hn : n ≤ 0) :
    (rwlock_new .N_WAY n true = some (fresh .N_WAY n) ∧ (fresh .N_WAY n).n_way = n) ∧
    (Reachable .N_WAY n 3 (stuck_before n) ∧
      1 ≤ (stuck_before n).rw.waiting_readers ∧ 1 ≤ (stuck_before n).rw.waiting_writers ∧
      step (stuck_before n) (.writer_unlock 0 2) = some (stuck n) ∧
      Reachable .N_WAY n 3 (stuck n)) ∧
    ((stuck n).rw.batch_active = true ∧ (stuck n).rw.batch_limit ≤ 0 ∧
      check_invariants (stuck n).rw = false) ∧
    ((writer_unlock (stuck_before n).rw).2 = .broadcast_readers ∧
      (stuck n).pcs[2]? = some .w_blocked ∧ (stuck n).pcs.count .w_woken = 0) ∧
    (reader_must_wait (stuck n).rw = true ∧
      ∀ (evs : List Ev) (s1 : Sys), (∀ e ∈ evs, e.is_spurious = false) →
        run (stuck n) evs = some s1 →
        reader_must_wait s1.rw = true ∧ s1.reader_admits = 0 ∧
        1 ≤ s1.rw.waiting_readers ∧ 1 ≤ s1.pcs.count .w_blocked ∧
        s1.pcs.count .w_woken = 0) ∧
    (∀ (k : Nat) (s : Sys), Reachable .N_WAY n k s → s.rw.batch_active = true →
      s.rw.batch_limit ≤ 0 ∧ check_invariants s.rw = false ∧
      reader_must_wait s.rw = true) := by
  have hnew : rwlock_new .N_WAY n true = some (fresh .N_WAY n) := rfl
  have hrun0 : run (init (fresh .N_WAY n) 3) [.writer_lock 0, .reader_lock 1, .writer_lock 2] =
      some (stuck_before n) := rfl
  have hlim : ¬ ((1 : Int) < n) := by omega
  have hstep : step (stuck_before n) (.writer_unlock 0 2) = some (stuck n) := by
    simp [step, stuck_before, stuck, writer_unlock, fresh, deliver, wake_all, hlim]
  have hrun : run (init (fresh .N_WAY n) 3) stuck_schedule = some (stuck n) := by
    rw [show stuck_schedule =
      [.writer_lock 0, .reader_lock 1, .writer_lock 2] ++ [.writer_unlock 0 2] from rfl,
      run_append, hrun0]
    simp only [Option.some_bind, run, hstep]
  have hreach : Reachable .N_WAY n 3 (stuck n) := ⟨_, _, hnew, hrun⟩
  have hc : Counts .N_WAY n (stuck n) := counts_reachable hreach
  have hst : Starved (stuck n) := by
    constructor <;> simp [stuck, fresh] <;> omega
  refine ⟨⟨hnew, by simp [fresh]⟩, ⟨⟨_, _, hnew, hrun0⟩, by simp [stuck_before, fresh],
    by simp [stuck_before, fresh], hstep, hreach⟩, ⟨rfl, hn, ?_⟩, ⟨?_, rfl, by simp [stuck]⟩,
    ⟨starved_must_wait hc hst, ?_⟩, ?_⟩
  · simp [check_invariants, stuck, fresh, hn]
  · simp [writer_unlock, stuck_before, fresh]
  · intro evs s1 hsp hr
    obtain ⟨a1, a2⟩ := starved_run hn evs hc hst hsp hr
    exact ⟨starved_must_wait (counts_run evs hc hr) a1, a2, a1.reader_waits, a1.writer_sleeps,
      a1.none_woken⟩
  · rintro k s ⟨rw, evs, hrw, hr⟩ hb
    have hc0 := counts_init .N_WAY n k rw hrw
    have hcs := counts_run evs hc0 hr
    simp only [rwlock_new, if_false, Bool.true_eq_false, Option.some.injEq] at hrw
    subst hrw
    obtain ⟨b1, b2⟩ := shut_run hn evs hc0 (by simp [init]) hr
    have hp := hcs.prio
    refine ⟨b1, ?_, ?_⟩
    · simp [check_invariants, hb, b1]
    · unfold reader_must_wait
      rw [if_pos hp]
      simp [hb, b2]

theorem nonpositive_width_witness :
    (0 : Int) ≤ 0 ∧
    run (init (fresh .N_WAY 0) 3) stuck_schedule = some (stuck 0) ∧
    (stuck 0).rw.batch_active = true ∧ (stuck 0).rw.batch_limit = 0 ∧
    (run (stuck 0) [.resume 1, .writer_lock 0, .writer_unlock 0 2, .resume 1]).map
      (fun s => s.rw) = some (stuck 0).rw ∧
    ((stuck 0).rw.batch_active = true ∧ (stuck 0).rw.batch_limit ≤ 0 ∧
      check_invariants (stuck 0).rw = false) :=
  ⟨by decide, by decide, by decide, by decide, by decide, (nonpositive_width 0 (by decide)).2.2.1⟩

end RWLock

/-! # Theorems: HTTP request line -/

namespace HTTPServer

/-! ## Request-line classification -/

theorem version_supported (v : List Char) :
    validate_http_version v = 1 ↔ v = "HTTP/1.1".toList := by
  constructor
  · unfold validate_http_version
    split_ifs with h1 h2 h3 h4 <;> intro h <;> first | exact h4 | exact absurd h (by decide)
  · intro h
    subst h
    decide

theorem version_range (v : List Char) :
    validate_http_version v = 0 ∨ validate_http_version v = 1 ∨
      validate_http_version v = 2 := by
  unfold validate_http_version
  split_ifs <;> simp

theorem version_form_iff (v : List Char) :
    validate_http_version v ≠ 0 ↔ spec_version_form v := by
  constructor
  · intro h
    have key : v.take 5 = "HTTP/".toList ∧ v.length = 8 ∧
        (!isdigit (v.getD 5 NUL) || v.getD 6 NUL != '.' || !isdigit (v.getD 7 NUL)) = false := by
      unfold validate_http_version at h
      by_cases h1 : v.take 5 ≠ "HTTP/".toList
      · rw [if_pos h1] at h
        exact absurd rfl h
      · by_cases h2 : v.length ≠ 8
        · rw [if_neg h1, if_pos h2] at h
          exact absurd rfl h
        · refine ⟨not_not.mp h1, not_not.mp h2, ?_⟩
          by_contra h3
          rw [Bool.not_eq_false] at h3
          rw [if_neg h1, if_neg h2, if_pos h3] at h
          exact absurd rfl h
    obtain ⟨k1, k2, k3⟩ := key
    match v, k1, k2, k3 with
    | [a, b, c, d, e, f, g, i], k1, _, k3 =>
      simp only [List.take, String.toList, List.cons.injEq, and_true] at k1
      obtain ⟨rfl, rfl, rfl, rfl, rfl⟩ := k1
      simp only [List.getD_cons_succ, List.getD_cons_zero, Bool.or_eq_false_iff,
        Bool.not_eq_false', bne_eq_false_iff_eq, isdigit] at k3
      obtain ⟨⟨k5, rfl⟩, k7⟩ := k3
      exact ⟨f, i, k5, k7, rfl⟩
  · rintro ⟨d1, d2, h1, h2, rfl⟩
    unfold validate_http_version
    have e1 : List.take 5 ['H', 'T', 'T', 'P', '/', d1, '.', d2] = "HTTP/".toList := rfl
    simp only [e1, List.length_cons, List.length_nil, List.getD_cons_succ, List.getD_cons_zero,
      isdigit, h1, h2, ne_eq, not_true_eq_false, if_false]
    simp
    split_ifs <;> simp

theorem uri_char_iff (c : Char) :
    uri_char c = true ↔ (c.isAlphanum = true ∨ c = '.' ∨ c = '-') := by
  have h : uri_char c = (c.isLower || c.isUpper || c.isDigit || c == '.' || c == '-') := rfl
  rw [h]
  simp only [Char.isAlphanum, Char.isAlpha, Bool.or_eq_true, beq_iff_eq]
  tauto

theorem method_ok_iff (m : List Char) :
    (¬ (m.length < 1 ∨ m.length > 8) ∧ ¬ (m.any (fun c => !isalpha c) = true)) ↔
      spec_method_ok m := by
  simp only [spec_method_ok, isalpha, List.any_eq_true, Bool.not_eq_true', not_exists, not_and,
    Bool.not_eq_false, not_or, not_lt]
  constructor
  · rintro ⟨⟨h1, h2⟩, h3⟩
    exact ⟨h1, by omega, h3⟩
  · rintro ⟨h1, h2, h3⟩
    exact ⟨⟨h1, by omega⟩, h3⟩

theorem uri_ok_iff (u : List Char) :
    (¬ (u.length < 2 ∨ u.length > 64) ∧ ¬ (u.getD 0 NUL ≠ '/') ∧
      ¬ ((u.drop 1).any (fun c => !uri_char c) = true)) ↔ spec_uri_ok u := by
  cases u with
  | nil =>
    simp [spec_uri_ok]
  | cons a rest =>
    simp only [spec_uri_ok, List.length_cons, List.getD_cons_zero, ne_eq, not_not, List.drop_succ_cons,
      List.drop_zero, List.any_eq_true, Bool.not_eq_true', not_exists, not_and,
      Bool.not_eq_false, not_or, not_lt, uri_char_iff, List.cons.injEq]
    constructor
    · rintro ⟨⟨h1, h2⟩, rfl, h3⟩
      exact ⟨rest, ⟨rfl, rfl⟩, by omega, by omega, h3⟩
    · rintro ⟨r, ⟨rfl, rfl⟩, h1, h2, h3⟩
      exact ⟨⟨by omega, by omega⟩, rfl, h3⟩

/-- The result of `validate_request_line` in terms of its three checks. -/
theorem validate_cases (req : http_request) :
    (¬ (spec_method_ok req.method ∧ spec_uri_ok req.uri) → validate_request_line req = 0) ∧
    (spec_method_ok req.method ∧ spec_uri_ok req.uri →
      validate_request_line req =
        if validate_http_version req.version = 1 then 1
        else if validate_http_version req.version = 2 then -1 else 0) := by
  rw [← method_ok_iff, ← uri_ok_iff]
  unfold validate_request_line
  dsimp only
  constructor
  · intro h
    split_ifs <;> first | rfl | (exfalso; apply h; tauto)
  · rintro ⟨⟨h1, h2⟩, h3, h4, h5⟩
    rw [if_neg h1, if_neg h2, if_neg h3, if_neg h4, if_neg h5]

/-- C27: `validate_request_line` returns 0 unless the method is 1 to 8
alphabetic characters and the URI is `/` followed by 1 to 63 characters each in
`[A-Za-z0-9.-]`; given a valid method and URI it returns 1 exactly when the
version is `HTTP/1.1`, -1 exactly when the version has the form `HTTP/d.d` and
is not `HTTP/1.1`, and 0 otherwise; `parse_headers_and_request_line` maps 0 to
400, -1 to 505, and 1 to 501 when the method is neither GET nor PUT compared
case-insensitively (otherwise it goes on with `valid = 1`); so a malformed
method or URI yields 400 whatever the version, and an unsupported version
yields 505 whatever the well-formed method. -/
theorem request_line_classification (req : http_request) :
    (¬ (spec_method_ok req.method ∧ spec_uri_ok req.uri) → validate_request_line req = 0) ∧
    (spec_method_ok req.method ∧ spec_uri_ok req.uri →
      (validate_request_line req = 1 ↔ req.version = "HTTP/1.1".toList) ∧
      (validate_request_line req = -1 ↔
        (spec_version_form req.version ∧ req.version ≠ "HTTP/1.1".toList)) ∧
      (validate_request_line req = 0 ↔ ¬ spec_version_form req.version)) ∧
    (validate_request_line req = 1 ∨ validate_request_line req = -1 ∨
      validate_request_line req = 0) ∧
    ((validate_request_line req = 0 → (parse_request_line req).1 = some 400) ∧
      (validate_request_line req = -1 → (parse_request_line req).1 = some 505) ∧
      (validate_request_line req = 1 →
        (¬ spec_implemented req.method → (parse_request_line req).1 = some 501) ∧
        (spec_implemented req.method →
          parse_request_line req = (none, { req with valid := 1 })))) ∧
    (¬ (spec_method_ok req.method ∧ spec_uri_ok req.uri) →
      (parse_request_line req).1 = some 400) ∧
    (spec_method_ok req.method ∧ spec_uri_ok req.uri →
      spec_version_form req.version ∧ req.version ≠ "HTTP/1.1".toList →
      (parse_request_line req).1 = some 505) ∧
    ((parse_request_line (request "G3T" "/a" "HTTP/1.0")).1 = some 400 ∧
      (parse_request_line (request "POST" "a" "HTTP/2.0")).1 = some 400 ∧
      (parse_request_line (request "POST" "/a" "HTTP/1.0")).1 = some 505 ∧
      (parse_request_line (request "POST" "/a" "HTTP/1.1")).1 = some 501 ∧
      (parse_request_line (request "get" "/a.txt" "HTTP/1.1")).1 = none ∧
      (parse_request_line (request "GET" "/a" "HTTP/1.10")).1 = some 400) := by
  obtain ⟨c0, c1⟩ := validate_cases req
  have hv1 := version_supported req.version
  have hvr := version_range req.version
  have hvf := version_form_iff req.version
  have p0 : validate_request_line req = 0 → (parse_request_line req).1 = some 400 := by
    intro h
    simp [parse_request_line, h]
  have p2 : validate_request_line req = -1 → (parse_request_line req).1 = some 505 := by
    intro h
    simp [parse_request_line, h]
  have hrange : validate_request_line req = 1 ∨ validate_request_line req = -1 ∨
      validate_request_line req = 0 := by
    by_cases hok : spec_method_ok req.method ∧ spec_uri_ok req.uri
    · rw [c1 hok]
      split_ifs <;> simp
    · exact Or.inr (Or.inr (c0 hok))
  have q2 : spec_method_ok req.method ∧ spec_uri_ok req.uri →
      (validate_request_line req = -1 ↔
        (spec_version_form req.version ∧ req.version ≠ "HTTP/1.1".toList)) := by
    intro hok
    rw [c1 hok, ← hvf, ne_eq req.version, ← hv1]
    split_ifs <;> (try simp only [false_iff, true_iff]) <;> omega
  refine ⟨c0, ?_, hrange, ⟨p0, p2, ?_⟩, fun h => p0 (c0 h), fun hok hver => p2 ((q2 hok).mpr hver),
    by decide⟩
  · intro hok
    refine ⟨?_, q2 hok, ?_⟩
    · rw [c1 hok, ← hv1]
      split_ifs <;> (try simp only [false_iff, true_iff]) <;> omega
    · rw [c1 hok, ← hvf]
      split_ifs <;> (try simp only [false_iff, true_iff]) <;> omega
  · intro h
    constructor
    · intro hni
      have : strcasecmp_eq req.method "GET".toList = false ∧
          strcasecmp_eq req.method "PUT".toList = false := by
        simp only [spec_implemented, not_or] at hni
        simp only [strcasecmp_eq, beq_eq_false_iff_ne, ne_eq]
        exact hni
      unfold parse_request_line
      dsimp only
      rw [h, if_pos rfl, if_pos this]
    · intro hi
      have : ¬ (strcasecmp_eq req.method "GET".toList = false ∧
          strcasecmp_eq req.method "PUT".toList = false) := by
        simp only [spec_implemented] at hi
        simp only [strcasecmp_eq, beq_eq_false_iff_ne, ne_eq, not_and, not_not]
        intro hg
        exact hi.resolve_left hg
      unfold parse_request_line
      dsimp only
      rw [h, if_pos rfl, if_neg this]

end HTTPServer

/-! # Theorems: content-length parsing -/

namespace Memory

/-! ## Content-length parsing -/

theorem foldl_digits (l : List Char) :
    ∀ acc : Nat, l.foldl (fun acc c => 10 * acc + digit_value c) acc =
      acc * 10 ^ l.length + decimal_value l := by
  induction l with
  | nil =>
    intro acc
    simp [decimal_value]
  | cons c cs ih =>
    intro acc
    rw [List.foldl_cons, ih]
    simp only [decimal_value, List.reverse_cons, List.map_append, List.map_cons, List.map_nil,
      Nat.ofDigits_append, Nat.ofDigits_singleton, List.length_map, List.length_reverse,
      List.length_cons]
    ring

theorem digit_range (c : Char) : isdigit c = true ↔ 48 ≤ c.toNat ∧ c.toNat ≤ 57 := by
  simp only [isdigit, Char.isDigit, Bool.and_eq_true, decide_eq_true_eq, ge_iff_le, Char.toNat]
  rw [UInt32.le_def, UInt32.le_def]
  exact Iff.rfl

theorem digit_order (c : Char) : isdigit c = true ↔ ('0' ≤ c ∧ c ≤ '9') := by
  simp only [isdigit, Char.isDigit, Bool.and_eq_true, decide_eq_true_eq, ge_iff_le]
  exact Iff.rfl

/-- On a non-empty string of digits `strtoull` returns the decimal value,
saturated at `ULLONG_MAX`. -/
theorem strtoull_digits (str : List Char) (hne : str ≠ [])
    (hd : ∀ c ∈ str, isdigit c = true) :
    strtoull str = if decimal_value str > ULLONG_MAX then ULLONG_MAX else decimal_value str := by
  cases str with
  | nil => exact absurd rfl hne
  | cons a rest =>
    have ha := (digit_range a).mp (hd a (List.mem_cons_self _ _))
    have h1 : a ≠ ' ' := by
      intro h
      subst h
      exact absurd ha.1 (by decide)
    have h2 : a ≠ '-' := by
      intro h
      subst h
      exact absurd ha.1 (by decide)
    have h3 : a ≠ '+' := by
      intro h
      subst h
      exact absurd ha.1 (by decide)
    have hns : isspace a = false := by
      simp only [isspace, Bool.or_eq_false_iff, beq_eq_false_iff_ne, ne_eq, Bool.and_eq_false_imp,
        decide_eq_true_eq, decide_eq_false_iff_not, not_le]
      exact ⟨h1, fun _ => by omega⟩
    have hdrop : (a :: rest).dropWhile isspace = a :: rest := by
      rw [List.dropWhile_cons_of_neg (by simp [hns])]
    have htake : (a :: rest).takeWhile isdigit = a :: rest :=
      List.takeWhile_eq_self_iff.mpr hd
    unfold strtoull
    simp only [hdrop, List.head?_cons, Option.some.injEq, h2, h3, or_self, if_false, htake,
      decide_False, Bool.false_eq_true]
    rw [foldl_digits]
    simp

/-- With a 64-bit `size_t` the range test of `parse_content_length` is never
true. -/
theorem strtoull_le (str : List Char) : ¬ (strtoull str > SIZE_MAX 64) := by
  unfold strtoull SIZE_MAX ULLONG_MAX
  dsimp only
  split_ifs <;> omega

/-- The two ways `parse_content_length` can go. -/
theorem parse_cases (str : List Char) (out : Nat) :
    (¬ (str ≠ [] ∧ ∀ c ∈ str, isdigit c = true) →
      parse_content_length 64 str out = (0, out)) ∧
    ((str ≠ [] ∧ ∀ c ∈ str, isdigit c = true) →
      parse_content_length 64 str out =
        (1, if decimal_value str < 2 ^ 64 then decimal_value str else 2 ^ 64 - 1)) := by
  have hall : (str.any (fun c => !isdigit c) = true) ↔ ¬ ∀ c ∈ str, isdigit c = true := by
    simp only [List.any_eq_true, Bool.not_eq_true', not_forall, Bool.not_eq_true, exists_prop]
  unfold parse_content_length
  dsimp only
  constructor
  · intro h
    by_cases h1 : str = []
    · rw [if_pos h1]
    · rw [if_neg h1, if_pos (hall.mpr (fun hd => h ⟨h1, hd⟩))]
  · rintro ⟨h1, hd⟩
    rw [if_neg h1, if_neg (fun h2 => hall.mp h2 hd), if_neg (strtoull_le str),
      strtoull_digits str h1 hd]
    unfold ULLONG_MAX
    congr 1
    split_ifs <;> omega

/-- C28: `parse_content_length(str, out)` returns 1 exactly when `str` is
non-empty and consists only of the decimal digits `0` to `9` (so signs, spaces
and the empty string are rejected and leading zeros accepted), and 0 otherwise;
on success `*out` is the decimal value of `str` when that is below 2^64 and
2^64 - 1 otherwise (`strtoull` saturates, so with a 64-bit `size_t` the test
`val > SIZE_MAX` is never true); on failure `*out` is unchanged. -/
theorem parse_content_length_spec (str : List Char) (out : Nat) :
    ((parse_content_length 64 str out).1 = 1 ↔
      (str ≠ [] ∧ ∀ c ∈ str, '0' ≤ c ∧ c ≤ '9')) ∧
    ((parse_content_length 64 str out).1 = 1 ∨ (parse_content_length 64 str out).1 = 0) ∧
    ((parse_content_length 64 str out).1 = 1 →
      (parse_content_length 64 str out).2 =
        if decimal_value str < 2 ^ 64 then decimal_value str else 2 ^ 64 - 1) ∧
    ((parse_content_length 64 str out).1 ≠ 1 → (parse_content_length 64 str out).2 = out) ∧
    ¬ (strtoull str > SIZE_MAX 64) ∧
    (parse_content_length 64 "".toList 42 = (0, 42) ∧
      parse_content_length 64 "+5".toList 42 = (0, 42) ∧
      parse_content_length 64 "-5".toList 42 = (0, 42) ∧
      parse_content_length 64 " 5".toList 42 = (0, 42) ∧
      parse_content_length 64 "5 ".toList 42 = (0, 42) ∧
      parse_content_length 64 "007".toList 42 = (1, 7) ∧
      parse_content_length 64 "18446744073709551615".toList 42 = (1, 2 ^ 64 - 1) ∧
      parse_content_length 64 "18446744073709551616".toList 42 = (1, 2 ^ 64 - 1) ∧
      parse_content_length 64 "99999999999999999999999".toList 42 = (1, 2 ^ 64 - 1)) := by
  obtain ⟨c0, c1⟩ := parse_cases str out
  have hiff : (str ≠ [] ∧ ∀ c ∈ str, '0' ≤ c ∧ c ≤ '9') ↔
      (str ≠ [] ∧ ∀ c ∈ str, isdigit c = true) := by
    simp only [digit_order]
  rw [hiff]
  by_cases h : str ≠ [] ∧ ∀ c ∈ str, isdigit c = true
  · rw [c1 h]
    exact ⟨⟨fun _ => h, fun _ => rfl⟩, by simp, fun _ => rfl, by simp, strtoull_le str, by decide⟩
  · rw [c0 h]
    exact ⟨⟨fun h1 => absurd h1 (by simp), fun h1 => absurd h1 h⟩, by simp, by simp, fun _ => rfl,
      strtoull_le str, by decide⟩

end Memory
